import Mathlib

/-!
Verification of the mxjson JSON parser (mxjson.h) against its specification.

The development shallowly embeds the C sources: the byte-slice type
`mxstr_t` from mxstr.h becomes a (buffer, offset, length) view over a
`List Nat` of bytes, the token store becomes a `List` of token records,
and every parsing routine of mxjson.h is translated function by function.
C pointer arithmetic becomes offset arithmetic; the two loops that the C
code writes with `while`/`do-while` are written with an explicit fuel
argument that the wrapper instantiates with (remaining input length + 1),
which is shown to be sufficient because every continuing iteration
consumes at least one input byte.

mxstr.h / mxutil.h themselves are not among the sources; the handful of
slice and buffer helpers mxjson.h uses are modelled from their documented
behaviour (each such definition carries a comment saying so where the
behaviour is not forced by the call sites in mxjson.h).
-/

namespace MxJson

/-- Byte-slice type mirroring mxstr_t: a (pointer, length) view into a byte
buffer.  The pointer is modelled as (buffer, offset). -/
structure mxstr where
  buf : List Nat
  off : Nat
  len : Nat
deriving DecidableEq

/-- The bytes a slice denotes. -/
def mxstr.bytes (s : mxstr) : List Nat := (s.buf.drop s.off).take s.len

/-- First byte of a slice (unspecified result 0 when empty; callers check). -/
def mxstr.peek (s : mxstr) : Nat := s.buf.getD s.off 0

/-- mxstr_empty: whether the slice has zero length. -/
def mxstr_empty (s : mxstr) : Bool := s.len = 0

/-- mxstr_getchar: read the first byte of the slice without consuming it. -/
def mxstr_getchar (s : mxstr) : Option Nat :=
  if s.len = 0 then none else some s.peek

/-- mxstr_consume: drop (up to) n bytes from the front of the slice. -/
def mxstr_consume (s : mxstr) (n : Nat) : mxstr :=
  { s with off := s.off + Nat.min n s.len, len := s.len - n }

/-- mxstr_consume_char: peek the first byte into c; if the slice is nonempty
and the byte satisfies cond, consume it and report true.  The returned byte
is the peeked byte when the slice is nonempty, and the caller-supplied
previous value c0 otherwise (the C macro leaves c unwritten in that case). -/
def mxstr_consume_char (cond : Nat → Bool) (s : mxstr) (c0 : Nat) :
    Bool × mxstr × Nat :=
  match mxstr_getchar s with
  | none => (false, s, c0)
  | some c => if cond c then (true, mxstr_consume s 1, c) else (false, s, c)

/-- Fuel-indexed worker for mxstr_consume_chars; fuel = initial length. -/
def mxstr_consume_chars_go (cond : Nat → Bool) : Nat → mxstr → mxstr
  | 0, s => s
  | fuel + 1, s =>
    match mxstr_getchar s with
    | none => s
    | some c =>
      if cond c then mxstr_consume_chars_go cond fuel (mxstr_consume s 1)
      else s

/-- mxstr_consume_chars: consume bytes from the front while cond holds. -/
def mxstr_consume_chars (cond : Nat → Bool) (s : mxstr) : mxstr :=
  mxstr_consume_chars_go cond s.len s

/-- mxstr_prefix a b: the sub-slice of a that extends up to the start of b
(b is a suffix view of a obtained by consuming). -/
def mxstr_prefix (a b : mxstr) : mxstr :=
  { buf := a.buf, off := a.off, len := b.off - a.off }

/-- mxstr_substr_offset: offset of the sub-slice inner within outer. -/
def mxstr_substr_offset (outer inner : mxstr) : Nat := inner.off - outer.off

/-- mxstr_consume_str: if the slice starts with the literal lit, consume it. -/
def mxstr_consume_str (s : mxstr) (lit : List Nat) : Bool × mxstr :=
  if s.bytes.take lit.length = lit then (true, mxstr_consume s lit.length)
  else (false, s)

/-- mxstr_literal: a slice covering a whole literal byte list. -/
def mxstr_literal (l : List Nat) : mxstr := { buf := l, off := 0, len := l.length }

/-- C isdigit on a byte. -/
def isdigit (c : Nat) : Bool := 48 ≤ c && c ≤ 57

/-- C isxdigit on a byte. -/
def isxdigit (c : Nat) : Bool :=
  isdigit c || (97 ≤ c && c ≤ 102) || (65 ≤ c && c ≤ 70)

/-- mxjson_consume_ws: consume JSON whitespace (space, LF, CR, TAB). -/
def mxjson_consume_ws (s : mxstr) : mxstr :=
  mxstr_consume_chars (fun c => c = 32 || c = 10 || c = 13 || c = 9) s

/-- mxjson_parse_number, translated line by line from mxjson.h.  Returns
(ok, rest, value); the C code leaves *value unwritten on failure, so the
third component is only meaningful when ok is true (callers guard on ok). -/
def mxjson_parse_number (str : mxstr) : Bool × mxstr × mxstr :=
  let s := str
  let (_, s, _) := mxstr_consume_char (fun c => c = 45) s 0
  let (ok, s, c) := mxstr_consume_char isdigit s 0
  let (ok, s) :=
    if ok then
      let s := if c ≠ 48 then mxstr_consume_chars isdigit s else s
      let (dot, s, _) := mxstr_consume_char (fun c => c = 46) s 0
      if dot then
        let (ok, s, _) := mxstr_consume_char isdigit s 0
        let s := mxstr_consume_chars isdigit s
        (ok, s)
      else (ok, s)
    else (ok, s)
  let (ok, s) :=
    if ok then
      let (e, s, _) := mxstr_consume_char (fun c => c = 101 || c = 69) s 0
      if e then
        let (_, s, _) := mxstr_consume_char (fun c => c = 43 || c = 45) s 0
        let (ok, s, _) := mxstr_consume_char isdigit s 0
        let s := mxstr_consume_chars isdigit s
        (ok, s)
      else (ok, s)
    else (ok, s)
  (ok, s, mxstr_prefix str s)

/-- Consume n hex digits, stopping at the first failure (the for-loop in
mxjson_parse_escaped_char). -/
def mxjson_consume_xdigits : Nat → mxstr → Bool × mxstr
  | 0, s => (true, s)
  | n + 1, s =>
    let (ok, s, _) := mxstr_consume_char isxdigit s 0
    if ok then mxjson_consume_xdigits n s else (false, s)

/-- mxjson_parse_escaped_char: the character(s) after a backslash.  Returns
(ok, rest, esc_flag); esc_flag is the in/out escape flag. -/
def mxjson_parse_escaped_char (s0 : mxstr) (esc0 : Bool) : Bool × mxstr × Bool :=
  match mxstr_getchar s0 with
  | none => (false, s0, esc0)
  | some c =>
    if c = 34 || c = 92 || c = 47 || c = 98 || c = 102 || c = 110 || c = 114 || c = 116 then
      (true, mxstr_consume s0 1, true)
    else if c = 117 then
      let s := mxstr_consume s0 1
      let (ok, s) := mxjson_consume_xdigits 4 s
      (ok, s, true)
    else (false, s0, esc0)

/-- The while-loop of mxjson_parse_string: repeatedly consume a byte that is
not a control character and not a quote; a backslash triggers the escape
sub-recognizer.  State carried: slice, last byte read, escape flag.  The
first Bool of the result is the loop variable ok.  Fuel: each iteration that
recurses has consumed at least one byte, so (initial length + 1) suffices. -/
def mxjson_parse_string_go : Nat → mxstr → Nat → Bool → Bool × mxstr × Nat × Bool
  | 0, s, c, esc => (false, s, c, esc)
  | fuel + 1, s, c, esc =>
    let (took, s, c) := mxstr_consume_char (fun c => 32 ≤ c && c ≠ 34) s c
    if took then
      if c = 92 then
        let (ok, s, esc) := mxjson_parse_escaped_char s esc
        if ok then mxjson_parse_string_go fuel s c esc else (false, s, c, esc)
      else mxjson_parse_string_go fuel s c esc
    else (true, s, c, esc)

/-- mxjson_parse_string: returns (ok, rest, value, esc_flag).  The value is
the contents strictly between the quotes; on failure the C code leaves
*value unwritten and callers ignore it. -/
def mxjson_parse_string (str : mxstr) : Bool × mxstr × mxstr × Bool :=
  let s := str
  let (okq, s, c) := mxstr_consume_char (fun c => c = 34) s 0
  let ok := okq && !(mxstr_empty s)
  let start := s
  let (ok, s, c, esc) :=
    if ok then mxjson_parse_string_go (s.len + 1) s c false
    else (ok, s, c, false)
  if ok && c = 34 then
    (true, mxstr_consume s 1, mxstr_prefix start s, esc)
  else
    (false, s, mxstr_prefix start s, esc)

/-- Token types (mxjson_type). -/
inductive mxjson_type where
  | NONE | NULL | BOOL | NUMBER | STRING | OBJECT | ARRAY
deriving DecidableEq

/-- Token record (mxjson_token_t).  The C struct stores the payload in a
union; the pair (str, str_size) doubles as (children, next) for OBJECT and
ARRAY tokens, which the accessors below make explicit.  The boolean member
of the union is kept as a separate field: the code never writes one union
view and reads another for the same token, so this is observationally the
same.  Field defaults correspond to the memset-to-zero done on allocation. -/
structure mxjson_token_t where
  name : Nat := 0
  name_size : Nat := 0
  name_esc : Bool := false
  value_esc : Bool := false
  value_type : mxjson_type := .NONE
  parent : Nat := 0
  boolean : Bool := false
  str : Nat := 0
  str_size : Nat := 0
deriving DecidableEq

instance : Inhabited mxjson_token_t := ⟨{}⟩

/-- Union view: children count of an OBJECT/ARRAY token (aliases str). -/
def mxjson_token_t.children (t : mxjson_token_t) : Nat := t.str

/-- Union view: index of the token following an OBJECT/ARRAY (aliases
str_size). -/
def mxjson_token_t.next (t : mxjson_token_t) : Nat := t.str_size

/-- Parser context (mxjson_parser_t).  tokens = none models a NULL token
array.  count is derived as the length of the array (the C code keeps the
count field and the allocation in sync at every write site).  The resize
callback is either absent (resize_fn = false, C NULL) or the provided
default mxjson_resize (resize_fn = true); the token pointer field of the C
struct needs no counterpart since it always equals &tokens[idx] when read. -/
structure mxjson_parser_t where
  json : List Nat := []
  unparsed : mxstr := ⟨[], 0, 0⟩
  idx : Nat := 0
  tokens : Option (List mxjson_token_t) := none
  current_parent : Nat := 0
  init_count : Nat := 0
  init_tokens : Bool := false
  resize_fn : Bool := false

/-- Size of the token array (the count field). -/
def mxjson_parser_t.count (p : mxjson_parser_t) : Nat := (p.tokens.getD []).length

/-- Read token slot i. -/
def mxjson_parser_t.tok (p : mxjson_parser_t) (i : Nat) : mxjson_token_t :=
  (p.tokens.getD []).getD i default

/-- Write token slot i. -/
def mxjson_parser_t.setTok (p : mxjson_parser_t) (i : Nat) (t : mxjson_token_t) :
    mxjson_parser_t :=
  { p with tokens := some ((p.tokens.getD []).set i t) }

/-- The whole-input slice p.json viewed as an mxstr (used for offsets). -/
def mxjson_parser_t.jsonStr (p : mxjson_parser_t) : mxstr :=
  ⟨p.json, 0, p.json.length⟩

/-- mxjson_resize, the provided default reallocation callback: a nonzero
size hint reallocates to exactly that many zeroed slots, preserving the
existing contents; size hint 0 releases the array. -/
def mxjson_resize (p : mxjson_parser_t) (size_hint : Nat) : Bool × mxjson_parser_t :=
  if size_hint ≠ 0 then
    let old := p.tokens.getD []
    (true, { p with tokens := some (old ++ List.replicate (size_hint - old.length) default) })
  else (true, { p with tokens := none })

/-- Worker for mxutil_size_p2: double acc until it exceeds n. -/
def mxutil_size_p2_go (n : Nat) : Nat → Nat → Nat
  | 0, acc => acc
  | fuel + 1, acc => if n < acc then acc else mxutil_size_p2_go n fuel (2 * acc)

/-- Modelled from the spec: mxutil_size_p2 lives in mxutil.h, which is not
among the sources.  The resize-callback documentation in mxjson.h says the
hint passed on growth is "the first power of 2 larger than the current
array size", which this computes. -/
def mxutil_size_p2 (n : Nat) : Nat := mxutil_size_p2_go n (n + 1) 1

/-- mxjson_token: allocate the next token slot, growing the store if needed
and permitted.  On success the fresh slot is zeroed except for its parent
pointer, and the current parent gains a child.  Where the C code adopts the
caller-supplied array (whose contents it never reads before writing), the
model supplies zeroed slots. -/
def mxjson_token (p0 : mxjson_parser_t) : Bool × mxjson_parser_t :=
  let p := { p0 with idx := p0.idx + 1 }
  let (ok, p) :=
    if p.count ≤ p.idx then
      match p.tokens with
      | none =>
        let (ok, p) :=
          if p.init_tokens && decide (p.idx < p.init_count) then
            (true, { p with tokens := some (List.replicate p.init_count default) })
          else if p.resize_fn then
            mxjson_resize p (Nat.max (p.idx + 1) p.init_count)
          else (false, p)
        if ok then (true, p.setTok 0 default) else (false, p)
      | some _ =>
        if p.resize_fn then mxjson_resize p (mxutil_size_p2 p.count)
        else (false, p)
    else (true, p)
  if ok then
    let p := p.setTok p.idx { parent := p.current_parent }
    let parent := p.tok p.current_parent
    let p := p.setTok p.current_parent { parent with str := parent.str + 1 }
    (true, p)
  else (false, p)

/-- mxjson_parse_name: a member-name string followed by a colon; on success
the name fields of the current token are filled in. -/
def mxjson_parse_name (p : mxjson_parser_t) (s0 : mxstr) :
    Bool × mxjson_parser_t × mxstr :=
  let (ok1, s, nm, esc) := mxjson_parse_string s0
  if ok1 then
    let s := mxjson_consume_ws s
    let (ok2, s, _) := mxstr_consume_char (fun c => c = 58) s 0
    if ok2 then
      let t := p.tok p.idx
      (true,
       p.setTok p.idx
         { t with name := mxstr_substr_offset p.jsonStr nm,
                  name_size := nm.len, name_esc := esc }, s)
    else (false, p, s)
  else (false, p, s)

/-- mxjson_parse_value: dispatch on the first byte and fill in the current
token.  Translated case by case from mxjson.h (the value_type writes happen
before the sub-recognizer runs, exactly as in the C code). -/
def mxjson_parse_value (p : mxjson_parser_t) (s0 : mxstr) :
    Bool × mxjson_parser_t × mxstr :=
  match mxstr_getchar s0 with
  | none => (false, p, s0)
  | some c =>
    if c = 34 then
      let p := p.setTok p.idx { p.tok p.idx with value_type := .STRING }
      let (ok, s, value, esc) := mxjson_parse_string s0
      if ok then
        let t := p.tok p.idx
        (true,
         p.setTok p.idx
           { t with str := mxstr_substr_offset p.jsonStr value,
                    str_size := value.len, value_esc := esc }, s)
      else (false, p, s)
    else if c = 123 then
      let s := mxstr_consume s0 1
      let p := p.setTok p.idx { p.tok p.idx with value_type := .OBJECT }
      (true, { p with current_parent := p.idx }, s)
    else if c = 91 then
      let s := mxstr_consume s0 1
      let p := p.setTok p.idx { p.tok p.idx with value_type := .ARRAY }
      (true, { p with current_parent := p.idx }, s)
    else if c = 116 then
      let p := p.setTok p.idx { p.tok p.idx with value_type := .BOOL, boolean := true }
      let (ok, s) := mxstr_consume_str s0 [116, 114, 117, 101]
      (ok, p, s)
    else if c = 102 then
      let p := p.setTok p.idx { p.tok p.idx with value_type := .BOOL, boolean := false }
      let (ok, s) := mxstr_consume_str s0 [102, 97, 108, 115, 101]
      (ok, p, s)
    else if c = 110 then
      let p := p.setTok p.idx { p.tok p.idx with value_type := .NULL }
      let (ok, s) := mxstr_consume_str s0 [110, 117, 108, 108]
      (ok, p, s)
    else if c = 45 || isdigit c then
      let p := p.setTok p.idx { p.tok p.idx with value_type := .NUMBER }
      let (ok, s, value) := mxjson_parse_number s0
      if ok then
        let t := p.tok p.idx
        (true,
         p.setTok p.idx
           { t with str := mxstr_substr_offset p.jsonStr value,
                    str_size := value.len }, s)
      else (false, p, s)
    else (false, p, s0)

/-- The do-while loop of mxjson_ascend.  parent is the loop variable; each
continuing iteration consumes a closing bracket/brace (at least one byte),
so fuel = (remaining length + 1) suffices. -/
def mxjson_ascend_go : Nat → mxjson_parser_t → mxstr → Nat →
    mxjson_parser_t × mxstr × Nat
  | 0, p, s, parent => (p, s, parent)
  | fuel + 1, p, s, parent =>
    let token := p.tok parent
    let s := mxjson_consume_ws s
    let (closed, s) :=
      if token.value_type = .ARRAY then
        let (b, s2, _) := mxstr_consume_char (fun c => c = 93) s 0
        (b, s2)
      else if token.value_type = .OBJECT then
        let (b, s2, _) := mxstr_consume_char (fun c => c = 125) s 0
        (b, s2)
      else (false, s)
    if closed then
      let p := p.setTok parent { token with str_size := p.idx + 1 }
      mxjson_ascend_go fuel p s token.parent
    else (p, s, parent)

/-- mxjson_ascend: consume closing brackets/braces that match the chain of
open containers, writing each closed container's next pointer; returns the
index of the enclosing container of the new parse position. -/
def mxjson_ascend (p : mxjson_parser_t) (s : mxstr) :
    mxjson_parser_t × mxstr × Nat :=
  if p.current_parent ≠ 0 then mxjson_ascend_go (s.len + 1) p s p.current_parent
  else (p, s, p.current_parent)

/-- The advance to the next member inside an object or array, after ascent
has stopped at the open container parent (the lines of mxjson_parse_json
between the ascend call and the next loop iteration): an optional comma
(mandatory unless the container was just opened), allocation of the next
token, and the member name when the container is an object. -/
def mxjson_parse_next (p : mxjson_parser_t) (s : mxstr) (parent : Nat) :
    Bool × mxjson_parser_t × mxstr :=
  let s := mxjson_consume_ws s
  let (ok, s) :=
    if parent = p.idx then (true, s)
    else
      let (b, s2, _) := mxstr_consume_char (fun c => c = 44) s 0
      (b, s2)
  if ok then
    let (ok, p) := mxjson_token p
    if ok then
      if (p.tok parent).value_type = .OBJECT then
        let s := mxjson_consume_ws s
        mxjson_parse_name p s
      else (true, p, s)
    else (false, p, s)
  else (false, p, s)

/-- The do-while loop of mxjson_parse_json: one iteration per JSON value.
Each continuing iteration consumes at least one byte (the value itself), so
fuel = (remaining length + 1) suffices. -/
def mxjson_parse_json_go : Nat → mxjson_parser_t → mxstr →
    Bool × mxjson_parser_t × mxstr
  | 0, p, s => (false, p, s)
  | fuel + 1, p, s =>
    let s := mxjson_consume_ws s
    let (ok, p, s) := mxjson_parse_value p s
    if ok then
      let (p, s, parent) := mxjson_ascend p s
      let p := { p with current_parent := parent }
      if parent ≠ 0 then
        let (ok, p, s) := mxjson_parse_next p s parent
        if ok then mxjson_parse_json_go fuel p s else (false, p, s)
      else (true, p, s)
    else (false, p, s)

/-- mxjson_parse_json: run the value loop, then require that only
whitespace remains. -/
def mxjson_parse_json (p : mxjson_parser_t) : Bool × mxjson_parser_t :=
  let s := p.unparsed
  let (ok, p, s) := mxjson_parse_json_go (s.len + 1) p s
  if ok then
    let s := mxjson_consume_ws s
    (mxstr_empty s, { p with unparsed := s })
  else (false, { p with unparsed := s })

/-- mxjson_parse: reset the per-parse context fields, consume an optional
UTF-8 BOM, allocate the root token and parse. -/
def mxjson_parse (p0 : mxjson_parser_t) (json : List Nat) : Bool × mxjson_parser_t :=
  let p := { p0 with json := json, unparsed := ⟨json, 0, json.length⟩,
                     current_parent := 0, idx := 0 }
  let (_, unp) := mxstr_consume_str p.unparsed [239, 187, 191]
  let p := { p with unparsed := unp }
  let (ok, p) := mxjson_token p
  if ok then mxjson_parse_json p else (false, p)

/-- mxjson_init: a freshly initialised context (the C function zeroes the
struct and records the three configuration arguments). -/
def mxjson_init (init_count : Nat) (init_tokens : Bool) (resize_fn : Bool) :
    mxjson_parser_t :=
  { init_count := init_count, init_tokens := init_tokens, resize_fn := resize_fn }

/-- Growable byte buffer (mxbuf_t), modelled by its filled contents; the
available tail of the C buffer corresponds to positions from data.length
onward. -/
structure mxbuf where
  data : List Nat
deriving DecidableEq

/-- mxbuf_putc: append one byte. -/
def mxbuf_putc (b : mxbuf) (c : Nat) : mxbuf := ⟨b.data ++ [c]⟩

/-- mxbuf_write: append the bytes of a slice. -/
def mxbuf_write (b : mxbuf) (s : mxstr) : mxbuf := ⟨b.data ++ s.bytes⟩

/-- The 2-byte UTF-8 encoding of a scalar in the range 0x80 to 0x7FF. -/
def mxbuf_utf8_2 (v : Nat) : List Nat := [0xc0 + v / 64, 0x80 + v % 64]

/-- The 3-byte UTF-8 encoding of a scalar in the range 0x800 to 0xFFFF. -/
def mxbuf_utf8_3 (v : Nat) : List Nat :=
  [0xe0 + v / 4096, 0x80 + v / 64 % 64, 0x80 + v % 64]

/-- The 4-byte UTF-8 encoding of a scalar in the range 0x10000 to
0x10FFFF. -/
def mxbuf_utf8_4 (v : Nat) : List Nat :=
  [0xf0 + v / 262144, 0x80 + v / 4096 % 64, 0x80 + v / 64 % 64, 0x80 + v % 64]

/-- Modelled from the spec: mxbuf_put_utf8 lives in mxstr.h, which is not
among the sources.  Following section 4.4 of the specification it encodes a
Unicode scalar value as 1 to 4 UTF-8 bytes and appends them, reporting
failure (appending nothing) for surrogate code points and values beyond
U+10FFFF. -/
def mxbuf_put_utf8 (b : mxbuf) (v : Nat) : Bool × mxbuf :=
  if v < 0x80 then (true, ⟨b.data ++ [v]⟩)
  else if v < 0x800 then (true, ⟨b.data ++ mxbuf_utf8_2 v⟩)
  else if v < 0x10000 then
    if 0xd800 ≤ v ∧ v < 0xe000 then (false, b)
    else (true, ⟨b.data ++ mxbuf_utf8_3 v⟩)
  else if v < 0x110000 then (true, ⟨b.data ++ mxbuf_utf8_4 v⟩)
  else (false, b)

/-- Value of one hex digit byte, as computed in mxjson_hex. -/
def mxjson_hexval (c : Nat) : Nat :=
  if 57 < c then Nat.land c 0xdf - 65 + 10 else c - 48

/-- The for-loop of mxjson_hex: accumulate n hex digits into v. -/
def mxjson_hex_go : Nat → mxstr → Nat → Bool × mxstr × Nat
  | 0, s, v => (true, s, v)
  | n + 1, s, v =>
    let (ok, s, c) := mxstr_consume_char isxdigit s 0
    if ok then mxjson_hex_go n s (16 * v + mxjson_hexval c)
    else (false, s, v)

/-- mxjson_hex: parse a 4-digit hex value. -/
def mxjson_hex (s : mxstr) : Bool × mxstr × Nat := mxjson_hex_go 4 s 0

/-- The low-surrogate continuation inside the case u arm of
mxjson_unescape: backslash, u, and a 4-digit hex value (the short-circuit
conjunction of the C source; the returned value is meaningful only when
the Bool is true). -/
def mxjson_unescape_pair (s0 : mxstr) : Bool × mxstr × Nat :=
  let (o1, s, _) := mxstr_consume_char (fun c => c = 92) s0 0
  if o1 then
    let (o2, s, _) := mxstr_consume_char (fun c => c = 117) s 0
    if o2 then mxjson_hex s
    else (false, s, 0)
  else (false, s, 0)

/-- The case u arm of the escape switch in mxjson_unescape: a 4-digit hex
code unit, a surrogate-pair continuation when the unit is a high
surrogate, then UTF-8 emission.  Returns (ok, buffer, rest). -/
def mxjson_unescape_u (b : mxbuf) (s0 : mxstr) : Bool × mxbuf × mxstr :=
  let (ok, s, v1) := mxjson_hex s0
  let (ok, s, v1) :=
    if ok then
      if 0xd800 ≤ v1 ∧ v1 < 0xdc00 then
        let (op, s, v2) := mxjson_unescape_pair s
        if op ∧ 0xdc00 ≤ v2 ∧ v2 < 0xe000 then
          (true, s, 0x10000 + (v1 - 0xd800) * 1024 + (v2 - 0xdc00))
        else (false, s, v1)
      else (true, s, v1)
    else (false, s, v1)
  if ok then
    let (ok2, b) := mxbuf_put_utf8 b v1
    (ok2, b, s)
  else (false, b, s)

/-- The while-loop of mxjson_unescape.  Each continuing iteration consumes
at least one byte, so fuel = (length + 1) suffices.  Returns (ok, buffer,
rest). -/
def mxjson_unescape_go : Nat → mxbuf → mxstr → Bool × mxbuf × mxstr
  | 0, b, s => (false, b, s)
  | fuel + 1, b, s =>
    if mxstr_empty s then (true, b, s)
    else
      let start := s
      let s := mxstr_consume_chars (fun c => !(c = 92)) s
      let b := mxbuf_write b ( mxstr_prefix start s)
      let s := mxstr_consume s 1
      let (ok, s, c) := mxstr_consume_char (fun _ => true) s 0
      if ok then
        if c = 34 || c = 92 || c = 47 then
          mxjson_unescape_go fuel (mxbuf_putc b c) s
        else if c = 98 then mxjson_unescape_go fuel (mxbuf_putc b 8) s
        else if c = 102 then mxjson_unescape_go fuel (mxbuf_putc b 12) s
        else if c = 110 then mxjson_unescape_go fuel (mxbuf_putc b 10) s
        else if c = 114 then mxjson_unescape_go fuel (mxbuf_putc b 13) s
        else if c = 116 then mxjson_unescape_go fuel (mxbuf_putc b 9) s
        else if c = 117 then
          let (ok, b, s) := mxjson_unescape_u b s
          if ok then mxjson_unescape_go fuel b s else (false, b, s)
        else (false, b, s)
      else (false, b, s)

/-- mxjson_unescape: translate a string lexeme, processing escapes, into
the buffer; reports whether the lexeme was valid. -/
def mxjson_unescape (buffer : mxbuf) (str : mxstr) : Bool × mxbuf :=
  let (ok, b, _) := mxjson_unescape_go (str.len + 1) buffer str
  (ok, b)

/-- mxjson_token_string: the string form of a token value.  Returns the
resulting slice, the (possibly extended) buffer and the validity flag. -/
def mxjson_token_string (p : mxjson_parser_t) (idx : Nat) (buffer : mxbuf) :
    mxstr × mxbuf × Bool :=
  let token := p.tok idx
  match token.value_type with
  | .NULL => (mxstr_literal [110, 117, 108, 108], buffer, true)
  | .BOOL =>
    if token.boolean then (mxstr_literal [116, 114, 117, 101], buffer, true)
    else (mxstr_literal [102, 97, 108, 115, 101], buffer, true)
  | .NUMBER | .STRING =>
    let str : mxstr := ⟨p.json, token.str, token.str_size⟩
    if token.value_esc then
      let sOff := buffer.data.length
      let (ok, b) := mxjson_unescape buffer str
      if ok then (⟨b.data, sOff, b.data.length - sOff⟩, b, true)
      else (str, b, false)
    else (str, buffer, true)
  | .OBJECT => (mxstr_literal [111, 98, 106, 101, 99, 116], buffer, true)
  | .ARRAY => (mxstr_literal [97, 114, 114, 97, 121], buffer, true)
  | .NONE => (⟨[], 0, 0⟩, buffer, true)

/-- mxjson_first: index of the first child (or simply the next slot). -/
def mxjson_first (_p : mxjson_parser_t) (idx : Nat) : Nat := idx + 1

/-- mxjson_next: index of the first token after idx that is not one of its
descendants. -/
def mxjson_next (p : mxjson_parser_t) (idx : Nat) : Nat :=
  if (p.tok idx).value_type = .OBJECT || (p.tok idx).value_type = .ARRAY then
    (p.tok idx).next
  else idx + 1

/-- A context initialised for fully dynamic allocation:
mxjson_init(p, 0, NULL, mxjson_resize). -/
def dynCtx : mxjson_parser_t := mxjson_init 0 false true

/-- A context with a fixed caller-supplied 8-token array and no
reallocation policy: mxjson_init(p, 8, tokens, NULL). -/
def fixed8Ctx : mxjson_parser_t := mxjson_init 8 true false

/-- The bytes of the input from end-to-end scenario 2 of the
specification. -/
def c1_input : List Nat :=
  [123, 34, 97, 34, 58, 49, 44, 34, 98, 34, 58, 91, 116, 114, 117, 101, 44,
   110, 117, 108, 108, 93, 125]

/-- The bytes of the deeply nested input of the capacity-exhaustion
scenario. -/
def deep_input : List Nat :=
  [91, 91, 91, 91, 91, 91, 91, 91, 48, 93, 93, 93, 93, 93, 93, 93, 93]

/-- The bytes of the lone-high-surrogate string input. -/
def d800_input : List Nat := [34, 92, 117, 68, 56, 48, 48, 34]

/-- The 16-bit code unit denoted by four hex digit bytes, exactly as the
accumulator of mxjson_hex computes it. -/
def mxjson_hex4val (d1 d2 d3 d4 : Nat) : Nat :=
  16 * (16 * (16 * mxjson_hexval d1 + mxjson_hexval d2) + mxjson_hexval d3) +
    mxjson_hexval d4

/-- One step of the sibling walk: stepping over a complete subtree rooted
at index j lands on j's next sibling slot.  Containers jump to their next
field (the str_size alias); every other token occupies a single slot. -/
def tok_step (T : Nat → mxjson_token_t) (j : Nat) : Nat :=
  if (T j).value_type = mxjson_type.OBJECT ∨
     (T j).value_type = mxjson_type.ARRAY then (T j).str_size else j + 1

/-- The child walk of container i: starting at pos, k sibling steps reach
exactly stop, every visited index lies below stop and has parent i.  This
is the formal reading of the children-subtrees clause of the parent/next
invariant. -/
def walksTo (T : Nat → mxjson_token_t) (i : Nat) :
    Nat → Nat → Nat → Bool
  | pos, 0, stop => pos = stop
  | pos, k + 1, stop =>
    decide (pos < stop) && decide ((T pos).parent = i) &&
      walksTo T i (tok_step T pos) k stop

/-- Membership in the parent chain that starts at c: the indices reached
from c by following parent pointers. -/
inductive ChainFrom (T : Nat → mxjson_token_t) : Nat → Nat → Prop where
  | here (c : Nat) : ChainFrom T c c
  | up (c i : Nat) (h : ChainFrom T ((T c).parent) i) : ChainFrom T c i

/-- The spine of open containers during a parse: Chain T d c states that d
is the front (the most recently completed or pending token), c is the
innermost open container enclosing it (0 at the root level, where the
front is the root token 1), every open container is an OBJECT/ARRAY whose
next field is still unwritten, its first children-1 child subtrees are
complete and its latest child is the next level's front. -/
inductive Chain (T : Nat → mxjson_token_t) : Nat → Nat → Prop where
  | top (hp : (T 1).parent = 0) : Chain T 1 0
  | step (d c : Nat) (h1 : 1 ≤ c) (h2 : c < d)
      (hp : (T d).parent = c)
      (hty : (T c).value_type = mxjson_type.OBJECT ∨
             (T c).value_type = mxjson_type.ARRAY)
      (hsz : (T c).str_size = 0)
      (hch : 1 ≤ (T c).str)
      (hwalk : walksTo T c (c + 1) ((T c).str - 1) d = true)
      (hup : Chain T c ((T c).parent)) : Chain T d c

/-- Parent bounds for all non-root tokens up to the high-water index. -/
def ParentBounds (T : Nat → mxjson_token_t) (n : Nat) : Prop :=
  ∀ i, 2 ≤ i → i ≤ n → 1 ≤ (T i).parent ∧ (T i).parent < i

/-- The closed-container invariant: every container token up to index n
whose next field has been written has next at most bound and a complete
child walk from its first child slot to next. -/
def ClosedOk (T : Nat → mxjson_token_t) (n bound : Nat) : Prop :=
  ∀ i, 1 ≤ i → i ≤ n →
    ((T i).value_type = mxjson_type.OBJECT ∨
     (T i).value_type = mxjson_type.ARRAY) →
    (T i).str_size ≠ 0 →
    (T i).str_size ≤ bound ∧
      walksTo T i (i + 1) ((T i).str) ((T i).str_size) = true

/-- Every container token whose next field is still unwritten lies on the
parent chain anchored at c. -/
def OpenOnChain (T : Nat → mxjson_token_t) (n c : Nat) : Prop :=
  ∀ i, 1 ≤ i → i ≤ n →
    ((T i).value_type = mxjson_type.OBJECT ∨
     (T i).value_type = mxjson_type.ARRAY) →
    (T i).str_size = 0 → ChainFrom T c i

/-- The loop-entry invariant of mxjson_parse_json: the store is allocated
with the high-water index in bounds, the sentinel is pristine, the current
parent chain is well formed with the pending token as its front, parents
are bounded, closed containers carry complete child walks bounded by the
high-water index, and open containers all sit on the chain. -/
def LoopInv (p : mxjson_parser_t) : Prop :=
  (∃ l, p.tokens = some l ∧ p.idx < l.length) ∧ 1 ≤ p.idx ∧
  (p.tok 0).value_type = mxjson_type.NONE ∧ (p.tok 0).parent = 0 ∧
  (p.tok p.idx).str = 0 ∧ (p.tok p.idx).str_size = 0 ∧
  Chain p.tok p.idx p.current_parent ∧
  ParentBounds p.tok p.idx ∧
  ClosedOk p.tok p.idx p.idx ∧
  OpenOnChain p.tok p.idx p.current_parent

/-- The front condition during ascent: f is the most recently completed
subtree root, c the innermost still-open container (or 0), and stepping
over f lands exactly on the next free token slot. -/
def FrontOk (T : Nat → mxjson_token_t) (n f c : Nat) : Prop :=
  Chain T f c ∧ tok_step T f = n + 1 ∧ 1 ≤ f ∧ f ≤ n

/-- The freshly-opened-container condition: the pending token n itself is
an open container with no children yet and the chain continues above it. -/
def EmptyOpen (T : Nat → mxjson_token_t) (n c : Nat) : Prop :=
  c = n ∧
  ((T n).value_type = mxjson_type.OBJECT ∨
   (T n).value_type = mxjson_type.ARRAY) ∧
  (T n).str = 0 ∧ (T n).str_size = 0 ∧ Chain T n ((T n).parent)

/-- The conclusion of the structural claim: parent bounds for non-root
tokens, and a complete child walk for every container. -/
def TreeOk (p : mxjson_parser_t) : Prop :=
  (∀ i, 2 ≤ i → i ≤ p.idx →
    1 ≤ (p.tok i).parent ∧ (p.tok i).parent < i) ∧
  (∀ i, 1 ≤ i → i ≤ p.idx →
    ((p.tok i).value_type = mxjson_type.OBJECT ∨
     (p.tok i).value_type = mxjson_type.ARRAY) →
    walksTo p.tok i (i + 1) ((p.tok i).children) ((p.tok i).next) = true)

/-! ## Theorems -/

/-! ### Slice-stepping toolkit -/

theorem drop_get {buf : List Nat} {off c : Nat} {r : List Nat}
    (h : buf.drop off = c :: r) : buf[off]? = some c := by
  induction off generalizing buf with
  | zero => simp_all
  | succ n ih =>
    cases buf with
    | nil => simp at h
    | cons a l => simpa using ih (by simpa using h)

theorem drop_peek {buf : List Nat} {off c : Nat} {r : List Nat}
    (h : buf.drop off = c :: r) : buf.getD off 0 = c := by
  simp [List.getD, drop_get h]

theorem drop_succ {buf : List Nat} {off c : Nat} {r : List Nat}
    (h : buf.drop off = c :: r) : buf.drop (off + 1) = r := by
  induction off generalizing buf with
  | zero => simp_all
  | succ n ih =>
    cases buf with
    | nil => simp at h
    | cons a l => exact ih (by simpa using h)

theorem mxstr_getchar_pos {buf : List Nat} {off len c : Nat} {r : List Nat}
    (h : buf.drop off = c :: r) (hl : len ≠ 0) :
    mxstr_getchar ⟨buf, off, len⟩ = some c := by
  simp [mxstr_getchar, mxstr.peek, List.getD, hl, drop_get h]

theorem mxstr_consume_one {buf : List Nat} {off len : Nat} (hl : len ≠ 0) :
    mxstr_consume ⟨buf, off, len⟩ 1 = ⟨buf, off + 1, len - 1⟩ := by
  simp [mxstr_consume, Nat.min_eq_left (by omega : 1 ≤ len)]

theorem mxstr_consume_char_pos {cond : Nat → Bool} {buf : List Nat}
    {off len c : Nat} {r : List Nat} (c0 : Nat)
    (h : buf.drop off = c :: r) (hl : len ≠ 0) (hc : cond c = true) :
    mxstr_consume_char cond ⟨buf, off, len⟩ c0 =
      (true, ⟨buf, off + 1, len - 1⟩, c) := by
  simp [mxstr_consume_char, mxstr_getchar_pos h hl, hc, mxstr_consume_one hl]

theorem mxstr_consume_char_neg {cond : Nat → Bool} {buf : List Nat}
    {off len c : Nat} {r : List Nat} (c0 : Nat)
    (h : buf.drop off = c :: r) (hl : len ≠ 0) (hc : cond c = false) :
    mxstr_consume_char cond ⟨buf, off, len⟩ c0 = (false, ⟨buf, off, len⟩, c) := by
  simp [mxstr_consume_char, mxstr_getchar_pos h hl, hc]

theorem mxstr_consume_char_empty {cond : Nat → Bool} {buf : List Nat}
    {off : Nat} (c0 : Nat) :
    mxstr_consume_char cond ⟨buf, off, 0⟩ c0 = (false, ⟨buf, off, 0⟩, c0) := by
  simp [mxstr_consume_char, mxstr_getchar]

theorem mxstr_consume_chars_stop {cond : Nat → Bool} {buf : List Nat}
    {off len c : Nat} {r : List Nat}
    (h : buf.drop off = c :: r) (hc : cond c = false) :
    mxstr_consume_chars cond ⟨buf, off, len⟩ = ⟨buf, off, len⟩ := by
  cases len with
  | zero => simp [mxstr_consume_chars, mxstr_consume_chars_go]
  | succ n =>
    simp [mxstr_consume_chars, mxstr_consume_chars_go,
          mxstr_getchar_pos h (show n + 1 ≠ 0 from by omega), hc]

theorem mxstr_consume_chars_empty {cond : Nat → Bool} {buf : List Nat}
    {off : Nat} :
    mxstr_consume_chars cond ⟨buf, off, 0⟩ = ⟨buf, off, 0⟩ := by
  simp [mxstr_consume_chars, mxstr_consume_chars_go, mxstr_getchar]

theorem mxjson_hex_eval {buf : List Nat} {off len d1 d2 d3 d4 : Nat}
    {r : List Nat}
    (h : buf.drop off = d1 :: d2 :: d3 :: d4 :: r) (hl : 4 ≤ len)
    (x1 : isxdigit d1 = true) (x2 : isxdigit d2 = true)
    (x3 : isxdigit d3 = true) (x4 : isxdigit d4 = true) :
    mxjson_hex ⟨buf, off, len⟩ =
      (true, ⟨buf, off + 4, len - 4⟩, mxjson_hex4val d1 d2 d3 d4) := by
  have h1 := drop_succ h
  have h2 := drop_succ h1
  have h3 := drop_succ h2
  have l0 : len ≠ 0 := by omega
  have l1 : len - 1 ≠ 0 := by omega
  have l2 : len - 1 - 1 ≠ 0 := by omega
  have l3 : len - 1 - 1 - 1 ≠ 0 := by omega
  simp only [mxjson_hex, mxjson_hex_go,
             mxstr_consume_char_pos 0 h l0 x1,
             mxstr_consume_char_pos 0 h1 l1 x2,
             mxstr_consume_char_pos 0 h2 l2 x3,
             mxstr_consume_char_pos 0 h3 l3 x4,
             if_true]
  rw [show off + 1 + 1 + 1 + 1 = off + 4 from by omega,
      show len - 1 - 1 - 1 - 1 = len - 4 from by omega]
  refine congrArg _ (congrArg _ ?_)
  rw [mxjson_hex4val]
  ring

theorem mxbuf_write_prefix_self (b : mxbuf) (s : mxstr) :
    mxbuf_write b ( mxstr_prefix s s) = b := by
  simp [mxbuf_write, mxstr_prefix, mxstr.bytes]

theorem mxstr_empty_pos {len : Nat} (buf : List Nat) (off : Nat)
    (h : len ≠ 0) : mxstr_empty ⟨buf, off, len⟩ = false := by
  simp [mxstr_empty, h]

theorem mxjson_unescape_go_empty (fuel : Nat) (b : mxbuf) (buf : List Nat)
    (off : Nat) :
    mxjson_unescape_go (fuel + 1) b ⟨buf, off, 0⟩ = (true, b, ⟨buf, off, 0⟩) := by
  rw [mxjson_unescape_go.eq_def]
  simp [mxstr_empty]

/-- One iteration of the unescape loop on input starting with a \u escape:
it reduces to the case u arm applied after the two introducer bytes. -/
theorem mxjson_unescape_go_step_u {buf : List Nat} {off len : Nat}
    {r : List Nat} (fuel : Nat) (b : mxbuf)
    (h : buf.drop off = 92 :: 117 :: r) (hl : 2 ≤ len) :
    mxjson_unescape_go (fuel + 1) b ⟨buf, off, len⟩ =
      (if (mxjson_unescape_u b ⟨buf, off + 2, len - 2⟩).1 then
        mxjson_unescape_go fuel (mxjson_unescape_u b ⟨buf, off + 2, len - 2⟩).2.1
          (mxjson_unescape_u b ⟨buf, off + 2, len - 2⟩).2.2
       else (false, (mxjson_unescape_u b ⟨buf, off + 2, len - 2⟩).2.1,
             (mxjson_unescape_u b ⟨buf, off + 2, len - 2⟩).2.2)) := by
  have h1 := drop_succ h
  have hne : mxstr_empty ⟨buf, off, len⟩ = false :=
    mxstr_empty_pos buf off (by omega)
  have hq0 : mxstr_consume_chars (fun c => !(c = 92)) ⟨buf, off, len⟩ =
      ⟨buf, off, len⟩ := mxstr_consume_chars_stop h (by simp)
  have hq1 : mxstr_consume ⟨buf, off, len⟩ 1 = ⟨buf, off + 1, len - 1⟩ :=
    mxstr_consume_one (by omega)
  have hq2 : mxstr_consume_char (fun _ => true) ⟨buf, off + 1, len - 1⟩ 0 =
      (true, ⟨buf, off + 1 + 1, len - 1 - 1⟩, 117) :=
    mxstr_consume_char_pos 0 h1 (by omega) rfl
  rw [mxjson_unescape_go.eq_def]
  simp only [hne, Bool.false_eq_true, if_false, hq0,
             mxbuf_write_prefix_self, hq1, hq2]
  rw [show off + 1 + 1 = off + 2 from by omega,
      show len - 1 - 1 = len - 2 from by omega]
  simp only [show ((117 : Nat) = 34 || (117 : Nat) = 92 || (117 : Nat) = 47) =
               false from rfl,
             show ((117 : Nat) = 98) = False from by simp,
             show ((117 : Nat) = 102) = False from by simp,
             show ((117 : Nat) = 110) = False from by simp,
             show ((117 : Nat) = 114) = False from by simp,
             show ((117 : Nat) = 116) = False from by simp,
             show ((117 : Nat) = 117) = True from by simp,
             Bool.false_eq_true, if_false, if_true]

theorem setTok_idx (p : mxjson_parser_t) (i : Nat) (t : mxjson_token_t) :
    (p.setTok i t).idx = p.idx := rfl

theorem setTok_jsonStr (p : mxjson_parser_t) (i : Nat) (t : mxjson_token_t) :
    (p.setTok i t).jsonStr = p.jsonStr := rfl

theorem setTok_setTok (p : mxjson_parser_t) (i : Nat) (a b : mxjson_token_t) :
    (p.setTok i a).setTok i b = p.setTok i b := by
  unfold mxjson_parser_t.setTok
  simp [List.set_set]

theorem tok_setTok_self (p : mxjson_parser_t) (i : Nat) (t : mxjson_token_t)
    (h : i < p.count) : (p.setTok i t).tok i = t := by
  unfold mxjson_parser_t.setTok mxjson_parser_t.tok
  unfold mxjson_parser_t.count at h
  simp [List.getD_eq_getElem?_getD, List.getElem?_set, h]

theorem mxstr_consume_chars_all {cond : Nat → Bool} {buf : List Nat} :
    ∀ (l : List Nat) (off : Nat), buf.drop off = l →
      (∀ c ∈ l, cond c = true) →
      mxstr_consume_chars cond ⟨buf, off, l.length⟩ =
        ⟨buf, off + l.length, 0⟩ := by
  intro l
  induction l with
  | nil => intro off _ _; simp [mxstr_consume_chars, mxstr_consume_chars_go]
  | cons c t ih =>
    intro off hd hall
    have step : mxstr_consume_char cond ⟨buf, off, t.length + 1⟩ 0 =
        (true, ⟨buf, off + 1, t.length⟩, c) :=
      mxstr_consume_char_pos 0 hd (by omega) (hall c (by simp))
    have hgo : mxstr_consume_chars_go cond (t.length + 1)
        ⟨buf, off, t.length + 1⟩ = mxstr_consume_chars_go cond t.length
        ⟨buf, off + 1, t.length⟩ := by
      rw [mxstr_consume_chars_go]
      rw [mxstr_getchar_pos hd (by omega)]
      simp only [hall c (by simp), if_true]
      rw [mxstr_consume_one (by omega)]
      simp
    have ihx := ih (off + 1) (drop_succ hd) (fun x hx => hall x (by simp [hx]))
    rw [mxstr_consume_chars] at ihx ⊢
    simp only [List.length_cons]
    rw [hgo, ihx]
    congr 1
    omega

/-- The first parse step for an input that does not start with a BOM: the
context reset, the failed BOM match and the successful root-token
allocation for the dynamically allocated context. -/
theorem mxjson_parse_step1 (c : Nat) (rest : List Nat) (hc : c ≠ 239) :
    mxjson_parse dynCtx (c :: rest) =
      mxjson_parse_json
        { json := c :: rest, unparsed := ⟨c :: rest, 0, rest.length + 1⟩,
          idx := 1, tokens := some [{ str := 1 }, {}],
          current_parent := 0, init_count := 0, init_tokens := false,
          resize_fn := true } := by
  have hbom : mxstr_consume_str ⟨c :: rest, 0, (c :: rest).length⟩
      [239, 187, 191] = (false, ⟨c :: rest, 0, (c :: rest).length⟩) := by
    rw [mxstr_consume_str, if_neg]
    intro heq
    simp [mxstr.bytes, List.take_length] at heq
    exact hc heq.1
  rw [mxjson_parse]
  simp only [hbom]
  have htok : mxjson_token
      { json := c :: rest, unparsed := ⟨c :: rest, 0, (c :: rest).length⟩,
        idx := 0, tokens := none, current_parent := 0,
        init_count := 0, init_tokens := false, resize_fn := true } =
      (true,
       { json := c :: rest, unparsed := ⟨c :: rest, 0, (c :: rest).length⟩,
         idx := 1, tokens := some [{ str := 1 }, {}],
         current_parent := 0, init_count := 0, init_tokens := false,
         resize_fn := true }) := rfl
  simp only [dynCtx, mxjson_init] at *
  simp only [htok]
  simp [List.length_cons]

/-- If the first value of the top-level loop fails to parse, the whole
parse fails. -/
theorem mxjson_parse_json_fail_first (p : mxjson_parser_t)
    (h : (mxjson_parse_value p (mxjson_consume_ws p.unparsed)).1 = false) :
    (mxjson_parse_json p).1 = false := by
  rw [mxjson_parse_json]
  rw [mxjson_parse_json_go.eq_def]
  simp only [h, Bool.false_eq_true, if_false]

/-- If the first value of the top-level loop parses completely with the
current parent back at the sentinel, the loop exits and the parse result
reduces to the trailing-whitespace check. -/
theorem mxjson_parse_json_root_done (p p' : mxjson_parser_t) (s' : mxstr)
    (h : mxjson_parse_value p (mxjson_consume_ws p.unparsed) = (true, p', s'))
    (hcp : p'.current_parent = 0) :
    mxjson_parse_json p =
      (mxstr_empty (mxjson_consume_ws s'),
       { p' with current_parent := 0, unparsed := mxjson_consume_ws s' }) := by
  rw [mxjson_parse_json]
  rw [mxjson_parse_json_go.eq_def]
  simp only [h, if_true]
  rw [mxjson_ascend]
  simp only [hcp]
  simp

/-- Dispatch of mxjson_parse_value into the NUMBER branch, failure case. -/
theorem mxjson_parse_value_number_fail {buf : List Nat} {off len cb : Nat}
    {r : List Nat} (p : mxjson_parser_t)
    (hd : buf.drop off = cb :: r) (hl : len ≠ 0)
    (h34 : (cb = 34) = False) (h123 : (cb = 123) = False)
    (h91 : (cb = 91) = False) (h116 : (cb = 116) = False)
    (h102 : (cb = 102) = False) (h110 : (cb = 110) = False)
    (hnum : (decide (cb = 45) || isdigit cb) = true)
    (hfail : (mxjson_parse_number ⟨buf, off, len⟩).1 = false) :
    (mxjson_parse_value p ⟨buf, off, len⟩).1 = false := by
  rw [mxjson_parse_value.eq_def]
  rw [mxstr_getchar_pos hd hl]
  simp only [h34, h123, h91, h116, h102, h110, if_false, hnum, if_true,
             hfail, Bool.false_eq_true]

/-- Dispatch of mxjson_parse_value into the NUMBER branch, success case. -/
theorem mxjson_parse_value_number_ok {buf : List Nat} {off len cb : Nat}
    {r : List Nat} (p : mxjson_parser_t) (s' value : mxstr)
    (hd : buf.drop off = cb :: r) (hl : len ≠ 0)
    (h34 : (cb = 34) = False) (h123 : (cb = 123) = False)
    (h91 : (cb = 91) = False) (h116 : (cb = 116) = False)
    (h102 : (cb = 102) = False) (h110 : (cb = 110) = False)
    (hnum : (decide (cb = 45) || isdigit cb) = true)
    (hidx : p.idx < p.count)
    (hok : mxjson_parse_number ⟨buf, off, len⟩ = (true, s', value)) :
    mxjson_parse_value p ⟨buf, off, len⟩ =
      (true,
       p.setTok p.idx
         { p.tok p.idx with value_type := .NUMBER,
                            str := mxstr_substr_offset p.jsonStr value,
                            str_size := value.len }, s') := by
  rw [mxjson_parse_value.eq_def]
  rw [mxstr_getchar_pos hd hl]
  simp only [h34, h123, h91, h116, h102, h110, if_false, hnum, if_true, hok]
  simp only [setTok_idx]
  rw [tok_setTok_self p p.idx _ hidx]
  simp only [setTok_setTok, setTok_jsonStr]

/-- mxjson_parse_number fails when no digit follows the optional minus. -/
theorem mxjson_parse_number_fail1 (s s1 : mxstr) (b1 : Bool) (c1 : Nat)
    (h1 : mxstr_consume_char (fun c => c = 45) s 0 = (b1, s1, c1))
    (h2 : (mxstr_consume_char isdigit s1 0).1 = false) :
    (mxjson_parse_number s).1 = false := by
  rw [mxjson_parse_number]
  simp only [h1, h2, Bool.false_eq_true, if_false]

/-- mxjson_parse_number fails when a decimal point is not followed by a
digit. -/
theorem mxjson_parse_number_fail_frac (s s1 s2 s2x s3 : mxstr) (b1 : Bool)
    (c1 c2 c4 : Nat)
    (h1 : mxstr_consume_char (fun c => c = 45) s 0 = (b1, s1, c1))
    (h2 : mxstr_consume_char isdigit s1 0 = (true, s2, c2))
    (hc2 : c2 ≠ 48)
    (h3 : mxstr_consume_chars isdigit s2 = s2x)
    (h4 : mxstr_consume_char (fun c => c = 46) s2x 0 = (true, s3, c4))
    (h5 : (mxstr_consume_char isdigit s3 0).1 = false) :
    (mxjson_parse_number s).1 = false := by
  rw [mxjson_parse_number]
  simp only [h1, h2, if_true, eq_true hc2, h3, h4, h5, Bool.false_eq_true,
             if_false]

/-- mxjson_parse_number fails when an exponent marker is not followed (via
an optional sign) by a digit. -/
theorem mxjson_parse_number_fail_exp (s s1 s2 s2x s3 s4 : mxstr)
    (b1 b6 : Bool) (c1 c2 c4 c5 c6 : Nat)
    (h1 : mxstr_consume_char (fun c => c = 45) s 0 = (b1, s1, c1))
    (h2 : mxstr_consume_char isdigit s1 0 = (true, s2, c2))
    (hc2 : c2 ≠ 48)
    (h3 : mxstr_consume_chars isdigit s2 = s2x)
    (h4 : mxstr_consume_char (fun c => c = 46) s2x 0 = (false, s2x, c4))
    (h5 : mxstr_consume_char (fun c => c = 101 || c = 69) s2x 0 =
      (true, s3, c5))
    (h6 : mxstr_consume_char (fun c => c = 43 || c = 45) s3 0 = (b6, s4, c6))
    (h7 : (mxstr_consume_char isdigit s4 0).1 = false) :
    (mxjson_parse_number s).1 = false := by
  rw [mxjson_parse_number]
  simp only [h1, h2, if_true, eq_true hc2, h3, h4, h5, h6, h7,
             Bool.false_eq_true, if_false]

/-- mxjson_parse_number on an integer-plus-exponent literal: success with
the whole consumed range as the value. -/
theorem mxjson_parse_number_exp_ok (s s1 s2 s2x s3 s4 s5 s5x : mxstr)
    (b1 b6 : Bool) (c1 c2 c4 c5 c6 c7 : Nat)
    (h1 : mxstr_consume_char (fun c => c = 45) s 0 = (b1, s1, c1))
    (h2 : mxstr_consume_char isdigit s1 0 = (true, s2, c2))
    (hc2 : c2 ≠ 48)
    (h3 : mxstr_consume_chars isdigit s2 = s2x)
    (h4 : mxstr_consume_char (fun c => c = 46) s2x 0 = (false, s2x, c4))
    (h5 : mxstr_consume_char (fun c => c = 101 || c = 69) s2x 0 =
      (true, s3, c5))
    (h6 : mxstr_consume_char (fun c => c = 43 || c = 45) s3 0 = (b6, s4, c6))
    (h7 : mxstr_consume_char isdigit s4 0 = (true, s5, c7))
    (h8 : mxstr_consume_chars isdigit s5 = s5x) :
    mxjson_parse_number s = (true, s5x, mxstr_prefix s s5x) := by
  rw [mxjson_parse_number]
  simp only [h1, h2, if_true, eq_true hc2, h3, h4, h5, h6, h7, h8,
             Bool.false_eq_true, if_false]

/-- mxjson_parse_number on a literal starting with the digit zero and not
continued by a fraction or exponent: success consuming just that digit. -/
theorem mxjson_parse_number_zero_ok (s s1 s2 : mxstr) (b1 : Bool)
    (c1 c4 c5 : Nat)
    (h1 : mxstr_consume_char (fun c => c = 45) s 0 = (b1, s1, c1))
    (h2 : mxstr_consume_char isdigit s1 0 = (true, s2, 48))
    (h4 : mxstr_consume_char (fun c => c = 46) s2 0 = (false, s2, c4))
    (h5 : mxstr_consume_char (fun c => c = 101 || c = 69) s2 0 =
      (false, s2, c5)) :
    mxjson_parse_number s = (true, s2, mxstr_prefix s s2) := by
  rw [mxjson_parse_number]
  simp only [h1, h2, if_true, h4, h5, Bool.false_eq_true, if_false, ne_eq,
             not_true_eq_false]

/-- A decimal digit byte is not a JSON whitespace byte. -/
theorem isdigit_not_ws {d : Nat} (h : isdigit d = true) :
    (d = 32 || d = 10 || d = 13 || d = 9) = false := by
  simp only [isdigit, Bool.and_eq_true, decide_eq_true_eq] at h
  simp only [Bool.or_eq_false_iff, decide_eq_false_iff_not]
  omega

/-- The rejection of a lone minus: any top-level input starting with a
minus sign not followed by a digit is rejected. -/
theorem number_lone_minus_rejected (rest : List Nat)
    (hr : ∀ c t, rest = c :: t → isdigit c = false) :
    (mxjson_parse dynCtx (45 :: rest)).1 = false := by
  have hd0 : (45 :: rest).drop 0 = 45 :: rest := rfl
  rw [mxjson_parse_step1 45 rest (by decide)]
  apply mxjson_parse_json_fail_first
  have hws : mxjson_consume_ws ⟨45 :: rest, 0, rest.length + 1⟩ =
      ⟨45 :: rest, 0, rest.length + 1⟩ := by
    rw [mxjson_consume_ws]
    exact mxstr_consume_chars_stop hd0 (by decide)
  show (mxjson_parse_value _
    (mxjson_consume_ws ⟨45 :: rest, 0, rest.length + 1⟩)).1 = false
  rw [hws]
  have h1 : mxstr_consume_char (fun c => c = 45)
      ⟨45 :: rest, 0, rest.length + 1⟩ 0 =
      (true, ⟨45 :: rest, 1, rest.length⟩, 45) :=
    mxstr_consume_char_pos 0 hd0 (by omega) (by decide)
  have h2 : (mxstr_consume_char isdigit ⟨45 :: rest, 1, rest.length⟩ 0).1 =
      false := by
    cases rest with
    | nil => simp only [List.length_nil]; rw [mxstr_consume_char_empty]
    | cons c t =>
      rw [mxstr_consume_char_neg 0 (drop_succ hd0) (by simp) (hr c t rfl)]
  exact mxjson_parse_value_number_fail _ hd0 (by omega) (by simp) (by simp)
    (by simp) (by simp) (by simp) (by simp) (by decide)
    (mxjson_parse_number_fail1 _ _ _ _ h1 h2)

/-- Packaging lemma: a fresh dynamic-context parse of c :: rest fails as
soon as the number branch of the value dispatch fails on the whole input. -/
theorem mxjson_parse_dyn_number_fail (c : Nat) (rest : List Nat)
    (hc : c ≠ 239)
    (hws0 : ((c = 32 || c = 10 || c = 13 || c = 9 : Bool)) = false)
    (h34 : (c = 34) = False) (h123 : (c = 123) = False)
    (h91 : (c = 91) = False) (h116 : (c = 116) = False)
    (h102 : (c = 102) = False) (h110 : (c = 110) = False)
    (hnum : (decide (c = 45) || isdigit c) = true)
    (hfail : (mxjson_parse_number ⟨c :: rest, 0, rest.length + 1⟩).1 = false) :
    (mxjson_parse dynCtx (c :: rest)).1 = false := by
  have hd0 : (c :: rest).drop 0 = c :: rest := rfl
  rw [mxjson_parse_step1 c rest hc]
  apply mxjson_parse_json_fail_first
  have hwseq : mxjson_consume_ws ⟨c :: rest, 0, rest.length + 1⟩ =
      ⟨c :: rest, 0, rest.length + 1⟩ := by
    rw [mxjson_consume_ws]
    exact mxstr_consume_chars_stop hd0 hws0
  show (mxjson_parse_value _
    (mxjson_consume_ws ⟨c :: rest, 0, rest.length + 1⟩)).1 = false
  rw [hwseq]
  exact mxjson_parse_value_number_fail _ hd0 (by omega) h34 h123 h91 h116
    h102 h110 hnum hfail

/-- Packaging lemma: a fresh dynamic-context parse of c :: rest fails when
the first byte matches no case of the value dispatch at all. -/
theorem mxjson_parse_dyn_default_fail (c : Nat) (rest : List Nat)
    (hc : c ≠ 239)
    (hws0 : ((c = 32 || c = 10 || c = 13 || c = 9 : Bool)) = false)
    (h34 : (c = 34) = False) (h123 : (c = 123) = False)
    (h91 : (c = 91) = False) (h116 : (c = 116) = False)
    (h102 : (c = 102) = False) (h110 : (c = 110) = False)
    (hnum : (decide (c = 45) || isdigit c) = false) :
    (mxjson_parse dynCtx (c :: rest)).1 = false := by
  have hd0 : (c :: rest).drop 0 = c :: rest := rfl
  rw [mxjson_parse_step1 c rest hc]
  apply mxjson_parse_json_fail_first
  have hwseq : mxjson_consume_ws ⟨c :: rest, 0, rest.length + 1⟩ =
      ⟨c :: rest, 0, rest.length + 1⟩ := by
    rw [mxjson_consume_ws]
    exact mxstr_consume_chars_stop hd0 hws0
  show (mxjson_parse_value _
    (mxjson_consume_ws ⟨c :: rest, 0, rest.length + 1⟩)).1 = false
  rw [hwseq]
  rw [mxjson_parse_value.eq_def]
  rw [mxstr_getchar_pos hd0 (by omega)]
  simp only [h34, h123, h91, h116, h102, h110, if_false, hnum,
             Bool.false_eq_true]

/-- Packaging lemma: a fresh dynamic-context parse of c :: rest whose
whole value is a number lexeme ends with the NUMBER token recorded in
slot 1 and the whitespace-skipped remainder as the unparsed slice. -/
theorem mxjson_parse_dyn_number_done (c : Nat) (rest : List Nat)
    (s' value w : mxstr)
    (hc : c ≠ 239)
    (hws0 : ((c = 32 || c = 10 || c = 13 || c = 9 : Bool)) = false)
    (h34 : (c = 34) = False) (h123 : (c = 123) = False)
    (h91 : (c = 91) = False) (h116 : (c = 116) = False)
    (h102 : (c = 102) = False) (h110 : (c = 110) = False)
    (hnum : (decide (c = 45) || isdigit c) = true)
    (hok : mxjson_parse_number ⟨c :: rest, 0, rest.length + 1⟩ =
      (true, s', value))
    (hrem : mxjson_consume_ws s' = w) :
    mxjson_parse dynCtx (c :: rest) =
      (mxstr_empty w,
       { json := c :: rest, unparsed := w, idx := 1,
         tokens := some [{ str := 1 },
           { value_type := mxjson_type.NUMBER,
             str := mxstr_substr_offset ⟨c :: rest, 0, (c :: rest).length⟩
               value,
             str_size := value.len }],
         current_parent := 0, init_count := 0, init_tokens := false,
         resize_fn := true }) := by
  have hd0 : (c :: rest).drop 0 = c :: rest := rfl
  have hwseq : mxjson_consume_ws ⟨c :: rest, 0, rest.length + 1⟩ =
      ⟨c :: rest, 0, rest.length + 1⟩ := by
    rw [mxjson_consume_ws]
    exact mxstr_consume_chars_stop hd0 hws0
  have hval : mxjson_parse_value
      { json := c :: rest, unparsed := ⟨c :: rest, 0, rest.length + 1⟩,
        idx := 1, tokens := some [{ str := 1 }, {}], current_parent := 0,
        init_count := 0, init_tokens := false, resize_fn := true }
      (mxjson_consume_ws ⟨c :: rest, 0, rest.length + 1⟩) =
      (true,
       { json := c :: rest, unparsed := ⟨c :: rest, 0, rest.length + 1⟩,
         idx := 1,
         tokens := some [{ str := 1 },
           { value_type := mxjson_type.NUMBER,
             str := mxstr_substr_offset ⟨c :: rest, 0, (c :: rest).length⟩
               value,
             str_size := value.len }],
         current_parent := 0, init_count := 0, init_tokens := false,
         resize_fn := true }, s') := by
    rw [hwseq]
    exact mxjson_parse_value_number_ok _ s' value hd0 (by omega) h34 h123
      h91 h116 h102 h110 hnum (by simp [mxjson_parser_t.count]) hok
  have hroot := mxjson_parse_json_root_done _ _ _ hval rfl
  rw [mxjson_parse_step1 c rest hc, hroot, hrem]

/-- A parse of 0 followed by a byte that neither extends the number lexeme
nor is whitespace is rejected: the zero literal parses on its own and the
following byte is trailing garbage.  Covers 012 and the hex spellings. -/
theorem number_zero_prefix_rejected (d : Nat) (rest : List Nat)
    (h46 : ((d = 46 : Bool)) = false)
    (h101 : ((d = 101 || d = 69 : Bool)) = false)
    (hws2 : ((d = 32 || d = 10 || d = 13 || d = 9 : Bool)) = false) :
    (mxjson_parse dynCtx (48 :: d :: rest)).1 = false := by
  have hd1 : (48 :: d :: rest).drop 1 = d :: rest := rfl
  have h1 : mxstr_consume_char (fun c => c = 45)
      ⟨48 :: d :: rest, 0, (d :: rest).length + 1⟩ 0 =
      (false, ⟨48 :: d :: rest, 0, (d :: rest).length + 1⟩, 48) :=
    mxstr_consume_char_neg 0 rfl (Nat.succ_ne_zero _) (by decide)
  have h2 : mxstr_consume_char isdigit
      ⟨48 :: d :: rest, 0, (d :: rest).length + 1⟩ 0 =
      (true, ⟨48 :: d :: rest, 1, rest.length + 1⟩, 48) :=
    mxstr_consume_char_pos 0 rfl (Nat.succ_ne_zero _) (by decide)
  have h4 : mxstr_consume_char (fun c => c = 46)
      ⟨48 :: d :: rest, 1, rest.length + 1⟩ 0 =
      (false, ⟨48 :: d :: rest, 1, rest.length + 1⟩, d) :=
    mxstr_consume_char_neg 0 hd1 (Nat.succ_ne_zero _) h46
  have h5 : mxstr_consume_char (fun c => c = 101 || c = 69)
      ⟨48 :: d :: rest, 1, rest.length + 1⟩ 0 =
      (false, ⟨48 :: d :: rest, 1, rest.length + 1⟩, d) :=
    mxstr_consume_char_neg 0 hd1 (Nat.succ_ne_zero _) h101
  have hok := mxjson_parse_number_zero_ok _ _ _ _ _ _ _ h1 h2 h4 h5
  have hrem : mxjson_consume_ws ⟨48 :: d :: rest, 1, rest.length + 1⟩ =
      ⟨48 :: d :: rest, 1, rest.length + 1⟩ := by
    rw [mxjson_consume_ws]
    exact mxstr_consume_chars_stop hd1 hws2
  rw [mxjson_parse_dyn_number_done 48 (d :: rest) _ _ _ (by decide)
    (by decide) (by simp) (by simp) (by simp) (by simp) (by simp) (by simp)
    (by decide) hok hrem]
  show mxstr_empty ⟨48 :: d :: rest, 1, rest.length + 1⟩ = false
  exact mxstr_empty_pos _ _ (by omega)

/-- A parse of a lexeme 1. followed by a non-digit is rejected: the
fraction dot demands at least one fractional digit. -/
theorem number_one_dot_rejected (rest : List Nat)
    (hr : ∀ c t, rest = c :: t → isdigit c = false) :
    (mxjson_parse dynCtx (49 :: 46 :: rest)).1 = false := by
  have hd1 : (49 :: 46 :: rest).drop 1 = 46 :: rest := rfl
  have h1 : mxstr_consume_char (fun c => c = 45)
      ⟨49 :: 46 :: rest, 0, (46 :: rest).length + 1⟩ 0 =
      (false, ⟨49 :: 46 :: rest, 0, (46 :: rest).length + 1⟩, 49) :=
    mxstr_consume_char_neg 0 rfl (Nat.succ_ne_zero _) (by decide)
  have h2 : mxstr_consume_char isdigit
      ⟨49 :: 46 :: rest, 0, (46 :: rest).length + 1⟩ 0 =
      (true, ⟨49 :: 46 :: rest, 1, rest.length + 1⟩, 49) :=
    mxstr_consume_char_pos 0 rfl (Nat.succ_ne_zero _) (by decide)
  have h3 : mxstr_consume_chars isdigit
      ⟨49 :: 46 :: rest, 1, rest.length + 1⟩ =
      ⟨49 :: 46 :: rest, 1, rest.length + 1⟩ :=
    mxstr_consume_chars_stop hd1 (by decide)
  have h4 : mxstr_consume_char (fun c => c = 46)
      ⟨49 :: 46 :: rest, 1, rest.length + 1⟩ 0 =
      (true, ⟨49 :: 46 :: rest, 2, rest.length⟩, 46) :=
    mxstr_consume_char_pos 0 hd1 (Nat.succ_ne_zero _) (by decide)
  have h5 : (mxstr_consume_char isdigit
      ⟨49 :: 46 :: rest, 2, rest.length⟩ 0).1 = false := by
    cases rest with
    | nil => simp only [List.length_nil]; rw [mxstr_consume_char_empty]
    | cons c t =>
      rw [mxstr_consume_char_neg 0 (drop_succ hd1) (by simp) (hr c t rfl)]
  exact mxjson_parse_dyn_number_fail 49 (46 :: rest) (by decide) (by decide)
    (by simp) (by simp) (by simp) (by simp) (by simp) (by simp) (by decide)
    (mxjson_parse_number_fail_frac _ _ _ _ _ _ _ _ _ h1 h2 (by decide)
      h3 h4 h5)

/-- A parse of a lexeme 1e followed by nothing that can open an exponent
(digit or sign) is rejected. -/
theorem number_one_e_rejected (rest : List Nat)
    (hr : ∀ c t, rest = c :: t →
      (isdigit c || decide (c = 43) || decide (c = 45)) = false) :
    (mxjson_parse dynCtx (49 :: 101 :: rest)).1 = false := by
  have hd1 : (49 :: 101 :: rest).drop 1 = 101 :: rest := rfl
  have h1 : mxstr_consume_char (fun c => c = 45)
      ⟨49 :: 101 :: rest, 0, (101 :: rest).length + 1⟩ 0 =
      (false, ⟨49 :: 101 :: rest, 0, (101 :: rest).length + 1⟩, 49) :=
    mxstr_consume_char_neg 0 rfl (Nat.succ_ne_zero _) (by decide)
  have h2 : mxstr_consume_char isdigit
      ⟨49 :: 101 :: rest, 0, (101 :: rest).length + 1⟩ 0 =
      (true, ⟨49 :: 101 :: rest, 1, rest.length + 1⟩, 49) :=
    mxstr_consume_char_pos 0 rfl (Nat.succ_ne_zero _) (by decide)
  have h3 : mxstr_consume_chars isdigit
      ⟨49 :: 101 :: rest, 1, rest.length + 1⟩ =
      ⟨49 :: 101 :: rest, 1, rest.length + 1⟩ :=
    mxstr_consume_chars_stop hd1 (by decide)
  have h4 : mxstr_consume_char (fun c => c = 46)
      ⟨49 :: 101 :: rest, 1, rest.length + 1⟩ 0 =
      (false, ⟨49 :: 101 :: rest, 1, rest.length + 1⟩, 101) :=
    mxstr_consume_char_neg 0 hd1 (Nat.succ_ne_zero _) (by decide)
  have h5 : mxstr_consume_char (fun c => c = 101 || c = 69)
      ⟨49 :: 101 :: rest, 1, rest.length + 1⟩ 0 =
      (true, ⟨49 :: 101 :: rest, 2, rest.length⟩, 101) :=
    mxstr_consume_char_pos 0 hd1 (Nat.succ_ne_zero _) (by decide)
  cases rest with
  | nil =>
    have h6 : mxstr_consume_char (fun c => c = 43 || c = 45)
        ⟨49 :: 101 :: ([] : List Nat), 2, 0⟩ 0 =
        (false, ⟨49 :: 101 :: ([] : List Nat), 2, 0⟩, 0) :=
      mxstr_consume_char_empty 0
    have h7 : (mxstr_consume_char isdigit
        ⟨49 :: 101 :: ([] : List Nat), 2, 0⟩ 0).1 = false := by
      rw [mxstr_consume_char_empty]
    exact mxjson_parse_dyn_number_fail 49 [101] (by decide) (by decide)
      (by simp) (by simp) (by simp) (by simp) (by simp) (by simp)
      (by decide)
      (mxjson_parse_number_fail_exp _ _ _ _ _ _ _ _ _ _ _ _ _ h1 h2
        (by decide) h3 h4 h5 h6 h7)
  | cons c t =>
    have hrc := hr c t rfl
    have hdig : isdigit c = false := by
      cases hq : isdigit c with
      | false => rfl
      | true => rw [hq] at hrc; simp at hrc
    have hsign : ((c = 43 || c = 45 : Bool)) = false := by
      simp only [Bool.or_eq_false_iff] at hrc ⊢
      exact ⟨hrc.1.2, hrc.2⟩
    have h6 : mxstr_consume_char (fun c => c = 43 || c = 45)
        ⟨49 :: 101 :: c :: t, 2, t.length + 1⟩ 0 =
        (false, ⟨49 :: 101 :: c :: t, 2, t.length + 1⟩, c) :=
      mxstr_consume_char_neg 0 (drop_succ hd1) (Nat.succ_ne_zero _) hsign
    have h7 : (mxstr_consume_char isdigit
        ⟨49 :: 101 :: c :: t, 2, t.length + 1⟩ 0).1 = false := by
      rw [mxstr_consume_char_neg 0 (drop_succ hd1) (Nat.succ_ne_zero _) hdig]
    exact mxjson_parse_dyn_number_fail 49 (101 :: c :: t) (by decide)
      (by decide) (by simp) (by simp) (by simp) (by simp) (by simp)
      (by simp) (by decide)
      (mxjson_parse_number_fail_exp _ _ _ _ _ _ _ _ _ _ _ _ _ h1 h2
        (by decide) h3 h4 h5 h6 h7)

/-- A parse of a lexeme 1e+ followed by a non-digit is rejected: the
exponent sign demands at least one exponent digit. -/
theorem number_one_e_plus_rejected (rest : List Nat)
    (hr : ∀ c t, rest = c :: t → isdigit c = false) :
    (mxjson_parse dynCtx (49 :: 101 :: 43 :: rest)).1 = false := by
  have hd1 : (49 :: 101 :: 43 :: rest).drop 1 = 101 :: 43 :: rest := rfl
  have hd2 : (49 :: 101 :: 43 :: rest).drop 2 = 43 :: rest := rfl
  have h1 : mxstr_consume_char (fun c => c = 45)
      ⟨49 :: 101 :: 43 :: rest, 0, (101 :: 43 :: rest).length + 1⟩ 0 =
      (false, ⟨49 :: 101 :: 43 :: rest, 0, (101 :: 43 :: rest).length + 1⟩,
       49) :=
    mxstr_consume_char_neg 0 rfl (Nat.succ_ne_zero _) (by decide)
  have h2 : mxstr_consume_char isdigit
      ⟨49 :: 101 :: 43 :: rest, 0, (101 :: 43 :: rest).length + 1⟩ 0 =
      (true, ⟨49 :: 101 :: 43 :: rest, 1, rest.length + 2⟩, 49) :=
    mxstr_consume_char_pos 0 rfl (Nat.succ_ne_zero _) (by decide)
  have h3 : mxstr_consume_chars isdigit
      ⟨49 :: 101 :: 43 :: rest, 1, rest.length + 2⟩ =
      ⟨49 :: 101 :: 43 :: rest, 1, rest.length + 2⟩ :=
    mxstr_consume_chars_stop hd1 (by decide)
  have h4 : mxstr_consume_char (fun c => c = 46)
      ⟨49 :: 101 :: 43 :: rest, 1, rest.length + 2⟩ 0 =
      (false, ⟨49 :: 101 :: 43 :: rest, 1, rest.length + 2⟩, 101) :=
    mxstr_consume_char_neg 0 hd1 (Nat.succ_ne_zero _) (by decide)
  have h5 : mxstr_consume_char (fun c => c = 101 || c = 69)
      ⟨49 :: 101 :: 43 :: rest, 1, rest.length + 2⟩ 0 =
      (true, ⟨49 :: 101 :: 43 :: rest, 2, rest.length + 1⟩, 101) :=
    mxstr_consume_char_pos 0 hd1 (Nat.succ_ne_zero _) (by decide)
  have h6 : mxstr_consume_char (fun c => c = 43 || c = 45)
      ⟨49 :: 101 :: 43 :: rest, 2, rest.length + 1⟩ 0 =
      (true, ⟨49 :: 101 :: 43 :: rest, 3, rest.length⟩, 43) :=
    mxstr_consume_char_pos 0 hd2 (Nat.succ_ne_zero _) (by decide)
  have h7 : (mxstr_consume_char isdigit
      ⟨49 :: 101 :: 43 :: rest, 3, rest.length⟩ 0).1 = false := by
    cases rest with
    | nil => simp only [List.length_nil]; rw [mxstr_consume_char_empty]
    | cons c t =>
      rw [mxstr_consume_char_neg 0 (drop_succ hd2) (by simp) (hr c t rfl)]
  exact mxjson_parse_dyn_number_fail 49 (101 :: 43 :: rest) (by decide)
    (by decide) (by simp) (by simp) (by simp) (by simp) (by simp) (by simp)
    (by decide)
    (mxjson_parse_number_fail_exp _ _ _ _ _ _ _ _ _ _ _ _ _ h1 h2
      (by decide) h3 h4 h5 h6 h7)

/-- An unsigned integer literal with an arbitrarily long exponent (such
as 1e9999) parses successfully: the NUMBER token records the verbatim
lexeme, however large its magnitude. -/
theorem number_big_exp_token (d : Nat) (ds : List Nat)
    (hd : isdigit d = true) (hall : ∀ c ∈ ds, isdigit c = true) :
    (mxjson_parse dynCtx (49 :: 101 :: d :: ds)).1 = true ∧
    ((mxjson_parse dynCtx (49 :: 101 :: d :: ds)).2.tok 1).value_type =
      mxjson_type.NUMBER ∧
    ((mxjson_parse dynCtx (49 :: 101 :: d :: ds)).2.tok 1).str = 0 ∧
    ((mxjson_parse dynCtx (49 :: 101 :: d :: ds)).2.tok 1).str_size =
      ds.length + 3 := by
  have hdig : 48 ≤ d ∧ d ≤ 57 := by
    simp only [isdigit, Bool.and_eq_true, decide_eq_true_eq] at hd
    exact hd
  have hd1 : (49 :: 101 :: d :: ds).drop 1 = 101 :: d :: ds := rfl
  have hd2 : (49 :: 101 :: d :: ds).drop 2 = d :: ds := rfl
  have hd3 : (49 :: 101 :: d :: ds).drop 3 = ds := rfl
  have h1 : mxstr_consume_char (fun c => c = 45)
      ⟨49 :: 101 :: d :: ds, 0, (101 :: d :: ds).length + 1⟩ 0 =
      (false, ⟨49 :: 101 :: d :: ds, 0, (101 :: d :: ds).length + 1⟩, 49) :=
    mxstr_consume_char_neg 0 rfl (Nat.succ_ne_zero _) (by decide)
  have h2 : mxstr_consume_char isdigit
      ⟨49 :: 101 :: d :: ds, 0, (101 :: d :: ds).length + 1⟩ 0 =
      (true, ⟨49 :: 101 :: d :: ds, 1, ds.length + 2⟩, 49) :=
    mxstr_consume_char_pos 0 rfl (Nat.succ_ne_zero _) (by decide)
  have h3 : mxstr_consume_chars isdigit
      ⟨49 :: 101 :: d :: ds, 1, ds.length + 2⟩ =
      ⟨49 :: 101 :: d :: ds, 1, ds.length + 2⟩ :=
    mxstr_consume_chars_stop hd1 (by decide)
  have h4 : mxstr_consume_char (fun c => c = 46)
      ⟨49 :: 101 :: d :: ds, 1, ds.length + 2⟩ 0 =
      (false, ⟨49 :: 101 :: d :: ds, 1, ds.length + 2⟩, 101) :=
    mxstr_consume_char_neg 0 hd1 (Nat.succ_ne_zero _) (by decide)
  have h5 : mxstr_consume_char (fun c => c = 101 || c = 69)
      ⟨49 :: 101 :: d :: ds, 1, ds.length + 2⟩ 0 =
      (true, ⟨49 :: 101 :: d :: ds, 2, ds.length + 1⟩, 101) :=
    mxstr_consume_char_pos 0 hd1 (Nat.succ_ne_zero _) (by decide)
  have hsign : ((d = 43 || d = 45 : Bool)) = false := by
    simp only [Bool.or_eq_false_iff, decide_eq_false_iff_not]
    omega
  have h6 : mxstr_consume_char (fun c => c = 43 || c = 45)
      ⟨49 :: 101 :: d :: ds, 2, ds.length + 1⟩ 0 =
      (false, ⟨49 :: 101 :: d :: ds, 2, ds.length + 1⟩, d) :=
    mxstr_consume_char_neg 0 hd2 (Nat.succ_ne_zero _) hsign
  have h7 : mxstr_consume_char isdigit
      ⟨49 :: 101 :: d :: ds, 2, ds.length + 1⟩ 0 =
      (true, ⟨49 :: 101 :: d :: ds, 3, ds.length⟩, d) :=
    mxstr_consume_char_pos 0 hd2 (Nat.succ_ne_zero _) hd
  have h8 : mxstr_consume_chars isdigit ⟨49 :: 101 :: d :: ds, 3, ds.length⟩ =
      ⟨49 :: 101 :: d :: ds, 3 + ds.length, 0⟩ :=
    mxstr_consume_chars_all ds 3 hd3 hall
  have hok := mxjson_parse_number_exp_ok _ _ _ _ _ _ _ _ _ _ _ _ _ _ _ _
    h1 h2 (by decide) h3 h4 h5 h6 h7 h8
  have hrem : mxjson_consume_ws ⟨49 :: 101 :: d :: ds, 3 + ds.length, 0⟩ =
      ⟨49 :: 101 :: d :: ds, 3 + ds.length, 0⟩ := by
    rw [mxjson_consume_ws]
    exact mxstr_consume_chars_empty
  have hres := mxjson_parse_dyn_number_done 49 (101 :: d :: ds) _ _ _
    (by decide) (by decide) (by simp) (by simp) (by simp) (by simp)
    (by simp) (by simp) (by decide) hok hrem
  rw [hres]
  refine ⟨rfl, rfl, rfl, ?_⟩
  show ( mxstr_prefix ⟨49 :: 101 :: d :: ds, 0, (101 :: d :: ds).length + 1⟩
    ⟨49 :: 101 :: d :: ds, 3 + ds.length, 0⟩).len = ds.length + 3
  simp [ mxstr_prefix]
  omega

/-- A signed integer literal with an arbitrarily long exponent (such as
-1e9999) parses successfully: the NUMBER token records the verbatim
lexeme including the leading sign. -/
theorem number_big_exp_neg_token (d : Nat) (ds : List Nat)
    (hd : isdigit d = true) (hall : ∀ c ∈ ds, isdigit c = true) :
    (mxjson_parse dynCtx (45 :: 49 :: 101 :: d :: ds)).1 = true ∧
    ((mxjson_parse dynCtx (45 :: 49 :: 101 :: d :: ds)).2.tok 1).value_type =
      mxjson_type.NUMBER ∧
    ((mxjson_parse dynCtx (45 :: 49 :: 101 :: d :: ds)).2.tok 1).str = 0 ∧
    ((mxjson_parse dynCtx (45 :: 49 :: 101 :: d :: ds)).2.tok 1).str_size =
      ds.length + 4 := by
  have hdig : 48 ≤ d ∧ d ≤ 57 := by
    simp only [isdigit, Bool.and_eq_true, decide_eq_true_eq] at hd
    exact hd
  have hd1 : (45 :: 49 :: 101 :: d :: ds).drop 1 = 49 :: 101 :: d :: ds := rfl
  have hd2 : (45 :: 49 :: 101 :: d :: ds).drop 2 = 101 :: d :: ds := rfl
  have hd3 : (45 :: 49 :: 101 :: d :: ds).drop 3 = d :: ds := rfl
  have hd4 : (45 :: 49 :: 101 :: d :: ds).drop 4 = ds := rfl
  have h1 : mxstr_consume_char (fun c => c = 45)
      ⟨45 :: 49 :: 101 :: d :: ds, 0, (49 :: 101 :: d :: ds).length + 1⟩ 0 =
      (true, ⟨45 :: 49 :: 101 :: d :: ds, 1, ds.length + 3⟩, 45) :=
    mxstr_consume_char_pos 0 rfl (Nat.succ_ne_zero _) (by decide)
  have h2 : mxstr_consume_char isdigit
      ⟨45 :: 49 :: 101 :: d :: ds, 1, ds.length + 3⟩ 0 =
      (true, ⟨45 :: 49 :: 101 :: d :: ds, 2, ds.length + 2⟩, 49) :=
    mxstr_consume_char_pos 0 hd1 (Nat.succ_ne_zero _) (by decide)
  have h3 : mxstr_consume_chars isdigit
      ⟨45 :: 49 :: 101 :: d :: ds, 2, ds.length + 2⟩ =
      ⟨45 :: 49 :: 101 :: d :: ds, 2, ds.length + 2⟩ :=
    mxstr_consume_chars_stop hd2 (by decide)
  have h4 : mxstr_consume_char (fun c => c = 46)
      ⟨45 :: 49 :: 101 :: d :: ds, 2, ds.length + 2⟩ 0 =
      (false, ⟨45 :: 49 :: 101 :: d :: ds, 2, ds.length + 2⟩, 101) :=
    mxstr_consume_char_neg 0 hd2 (Nat.succ_ne_zero _) (by decide)
  have h5 : mxstr_consume_char (fun c => c = 101 || c = 69)
      ⟨45 :: 49 :: 101 :: d :: ds, 2, ds.length + 2⟩ 0 =
      (true, ⟨45 :: 49 :: 101 :: d :: ds, 3, ds.length + 1⟩, 101) :=
    mxstr_consume_char_pos 0 hd2 (Nat.succ_ne_zero _) (by decide)
  have hsign : ((d = 43 || d = 45 : Bool)) = false := by
    simp only [Bool.or_eq_false_iff, decide_eq_false_iff_not]
    omega
  have h6 : mxstr_consume_char (fun c => c = 43 || c = 45)
      ⟨45 :: 49 :: 101 :: d :: ds, 3, ds.length + 1⟩ 0 =
      (false, ⟨45 :: 49 :: 101 :: d :: ds, 3, ds.length + 1⟩, d) :=
    mxstr_consume_char_neg 0 hd3 (Nat.succ_ne_zero _) hsign
  have h7 : mxstr_consume_char isdigit
      ⟨45 :: 49 :: 101 :: d :: ds, 3, ds.length + 1⟩ 0 =
      (true, ⟨45 :: 49 :: 101 :: d :: ds, 4, ds.length⟩, d) :=
    mxstr_consume_char_pos 0 hd3 (Nat.succ_ne_zero _) hd
  have h8 : mxstr_consume_chars isdigit
      ⟨45 :: 49 :: 101 :: d :: ds, 4, ds.length⟩ =
      ⟨45 :: 49 :: 101 :: d :: ds, 4 + ds.length, 0⟩ :=
    mxstr_consume_chars_all ds 4 hd4 hall
  have hok := mxjson_parse_number_exp_ok _ _ _ _ _ _ _ _ _ _ _ _ _ _ _ _
    h1 h2 (by decide) h3 h4 h5 h6 h7 h8
  have hrem : mxjson_consume_ws ⟨45 :: 49 :: 101 :: d :: ds, 4 + ds.length, 0⟩ =
      ⟨45 :: 49 :: 101 :: d :: ds, 4 + ds.length, 0⟩ := by
    rw [mxjson_consume_ws]
    exact mxstr_consume_chars_empty
  have hres := mxjson_parse_dyn_number_done 45 (49 :: 101 :: d :: ds) _ _ _
    (by decide) (by decide) (by simp) (by simp) (by simp) (by simp)
    (by simp) (by simp) (by decide) hok hrem
  rw [hres]
  refine ⟨rfl, rfl, rfl, ?_⟩
  show ( mxstr_prefix
    ⟨45 :: 49 :: 101 :: d :: ds, 0, (49 :: 101 :: d :: ds).length + 1⟩
    ⟨45 :: 49 :: 101 :: d :: ds, 4 + ds.length, 0⟩).len = ds.length + 4
  simp [ mxstr_prefix]
  omega

/-- C2: the number recognizer enforces strict RFC 8259 number syntax.
In value position (formalised at the root of a fresh dynamic-context
parse), each of the following lexeme families is rejected: a lone minus
(with no digit after it), a leading zero followed by another digit,
1. with no fractional digit, 1e with nothing opening an exponent,
1e+ with no exponent digit, 1.e3, +1, .5, -.5, the hexadecimal
spellings 0x… and 0X…, Infinity and NaN; while 1e⟨digits⟩ and
-1e⟨digits⟩ with arbitrarily many exponent digits (such as 1e9999)
parse successfully and the NUMBER token records the whole verbatim
lexeme, including any leading sign, as its str/str_size range. -/
theorem claim_C2 :
    (∀ rest : List Nat, (∀ c t, rest = c :: t → isdigit c = false) →
      (mxjson_parse dynCtx (45 :: rest)).1 = false) ∧
    (∀ (d : Nat) (rest : List Nat), isdigit d = true →
      (mxjson_parse dynCtx (48 :: d :: rest)).1 = false) ∧
    (∀ rest : List Nat, (∀ c t, rest = c :: t → isdigit c = false) →
      (mxjson_parse dynCtx (49 :: 46 :: rest)).1 = false) ∧
    (∀ rest : List Nat, (∀ c t, rest = c :: t →
        (isdigit c || decide (c = 43) || decide (c = 45)) = false) →
      (mxjson_parse dynCtx (49 :: 101 :: rest)).1 = false) ∧
    (∀ rest : List Nat, (∀ c t, rest = c :: t → isdigit c = false) →
      (mxjson_parse dynCtx (49 :: 101 :: 43 :: rest)).1 = false) ∧
    (∀ rest : List Nat,
      (mxjson_parse dynCtx (49 :: 46 :: 101 :: 51 :: rest)).1 = false) ∧
    (∀ rest : List Nat, (mxjson_parse dynCtx (43 :: rest)).1 = false) ∧
    (∀ rest : List Nat, (mxjson_parse dynCtx (46 :: rest)).1 = false) ∧
    (∀ rest : List Nat, (mxjson_parse dynCtx (45 :: 46 :: rest)).1 = false) ∧
    (∀ rest : List Nat,
      (mxjson_parse dynCtx (48 :: 120 :: rest)).1 = false ∧
      (mxjson_parse dynCtx (48 :: 88 :: rest)).1 = false) ∧
    (∀ rest : List Nat, (mxjson_parse dynCtx (73 :: rest)).1 = false) ∧
    (∀ rest : List Nat, (mxjson_parse dynCtx (78 :: rest)).1 = false) ∧
    (∀ (d : Nat) (ds : List Nat), isdigit d = true →
      (∀ c ∈ ds, isdigit c = true) →
      (mxjson_parse dynCtx (49 :: 101 :: d :: ds)).1 = true ∧
      ((mxjson_parse dynCtx (49 :: 101 :: d :: ds)).2.tok 1).value_type =
        mxjson_type.NUMBER ∧
      ((mxjson_parse dynCtx (49 :: 101 :: d :: ds)).2.tok 1).str = 0 ∧
      ((mxjson_parse dynCtx (49 :: 101 :: d :: ds)).2.tok 1).str_size =
        ds.length + 3) ∧
    (∀ (d : Nat) (ds : List Nat), isdigit d = true →
      (∀ c ∈ ds, isdigit c = true) →
      (mxjson_parse dynCtx (45 :: 49 :: 101 :: d :: ds)).1 = true ∧
      ((mxjson_parse dynCtx (45 :: 49 :: 101 :: d :: ds)).2.tok 1).value_type =
        mxjson_type.NUMBER ∧
      ((mxjson_parse dynCtx (45 :: 49 :: 101 :: d :: ds)).2.tok 1).str = 0 ∧
      ((mxjson_parse dynCtx (45 :: 49 :: 101 :: d :: ds)).2.tok 1).str_size =
        ds.length + 4) := by
  refine ⟨number_lone_minus_rejected, ?_, number_one_dot_rejected,
    number_one_e_rejected, number_one_e_plus_rejected, ?_, ?_, ?_, ?_, ?_,
    ?_, ?_, number_big_exp_token, number_big_exp_neg_token⟩
  · intro d rest hd
    have hdig : 48 ≤ d ∧ d ≤ 57 := by
      simp only [isdigit, Bool.and_eq_true, decide_eq_true_eq] at hd
      exact hd
    exact number_zero_prefix_rejected d rest
      (by simp only [decide_eq_false_iff_not]; omega)
      (by simp only [Bool.or_eq_false_iff, decide_eq_false_iff_not]; omega)
      (by simp only [Bool.or_eq_false_iff, decide_eq_false_iff_not]; omega)
  · intro rest
    exact number_one_dot_rejected (101 :: 51 :: rest)
      (by intro c t h; injection h with h1 h2; subst h1; decide)
  · intro rest
    exact mxjson_parse_dyn_default_fail 43 rest (by decide) (by decide)
      (by simp) (by simp) (by simp) (by simp) (by simp) (by simp) (by decide)
  · intro rest
    exact mxjson_parse_dyn_default_fail 46 rest (by decide) (by decide)
      (by simp) (by simp) (by simp) (by simp) (by simp) (by simp) (by decide)
  · intro rest
    exact number_lone_minus_rejected (46 :: rest)
      (by intro c t h; injection h with h1 h2; subst h1; decide)
  · intro rest
    exact ⟨number_zero_prefix_rejected 120 rest (by decide) (by decide)
        (by decide),
      number_zero_prefix_rejected 88 rest (by decide) (by decide)
        (by decide)⟩
  · intro rest
    exact mxjson_parse_dyn_default_fail 73 rest (by decide) (by decide)
      (by simp) (by simp) (by simp) (by simp) (by simp) (by simp) (by decide)
  · intro rest
    exact mxjson_parse_dyn_default_fail 78 rest (by decide) (by decide)
      (by simp) (by simp) (by simp) (by simp) (by simp) (by simp) (by decide)

/-- Witness for C2: the universally quantified parts instantiated at the
concrete lexemes named by the specification: -, 012, 1., 1e, 1e+, 1.e3,
+1, .5, -.5, 0x1, Infinity, NaN all rejected; 1e9999 and -1e9999
accepted with the verbatim lexeme recorded. -/
theorem claim_C2_witness :
    (mxjson_parse dynCtx [45]).1 = false ∧
    (mxjson_parse dynCtx [48, 49, 50]).1 = false ∧
    (mxjson_parse dynCtx [49, 46]).1 = false ∧
    (mxjson_parse dynCtx [49, 101]).1 = false ∧
    (mxjson_parse dynCtx [49, 101, 43]).1 = false ∧
    (mxjson_parse dynCtx [49, 46, 101, 51]).1 = false ∧
    (mxjson_parse dynCtx [43, 49]).1 = false ∧
    (mxjson_parse dynCtx [46, 53]).1 = false ∧
    (mxjson_parse dynCtx [45, 46, 53]).1 = false ∧
    (mxjson_parse dynCtx [48, 120, 49]).1 = false ∧
    (mxjson_parse dynCtx [73, 110, 102, 105, 110, 105, 116, 121]).1 =
      false ∧
    (mxjson_parse dynCtx [78, 97, 78]).1 = false ∧
    (mxjson_parse dynCtx [49, 101, 57, 57, 57, 57]).1 = true ∧
    ((mxjson_parse dynCtx [49, 101, 57, 57, 57, 57]).2.tok 1).str_size =
      6 ∧
    (mxjson_parse dynCtx [45, 49, 101, 57, 57, 57, 57]).1 = true ∧
    ((mxjson_parse dynCtx [45, 49, 101, 57, 57, 57, 57]).2.tok 1).str_size =
      7 := by
  obtain ⟨p1, p2, p3, p4, p5, p6, p7, p8, p9, p10, p11, p12, p13, p14⟩ :=
    claim_C2
  have h13 := p13 57 [57, 57, 57] (by decide) (by decide)
  have h14 := p14 57 [57, 57, 57] (by decide) (by decide)
  exact ⟨p1 [] (by intro c t h; simp at h),
    p2 49 [50] (by decide),
    p3 [] (by intro c t h; simp at h),
    p4 [] (by intro c t h; simp at h),
    p5 [] (by intro c t h; simp at h),
    p6 [],
    p7 [49],
    p8 [53],
    p9 [53],
    (p10 [49]).1,
    p11 [110, 102, 105, 110, 105, 116, 121],
    p12 [97, 78],
    h13.1, h13.2.2.2, h14.1, h14.2.2.2⟩

/-- C6: capacity exhaustion is detectable as high-water equal to
capacity.  Concretely, with a fixed 8-token store and no reallocation
policy, parsing [[[[[[[[0]]]]]]]] returns false with idx equal to count;
and in general, whenever the token allocator fails on an allocated store
under a no-reallocation policy (starting from any state satisfying the
loop invariant idx < count), the resulting context has idx = count. -/
theorem claim_C6 :
    ((mxjson_parse fixed8Ctx deep_input).1 = false ∧
     (mxjson_parse fixed8Ctx deep_input).2.idx =
       (mxjson_parse fixed8Ctx deep_input).2.count) ∧
    (∀ (p : mxjson_parser_t) (l : List mxjson_token_t),
      p.tokens = some l → p.resize_fn = false → p.idx < p.count →
      (mxjson_token p).1 = false →
      (mxjson_token p).2.idx = (mxjson_token p).2.count) := by
  refine ⟨by decide, ?_⟩
  intro p l ht hrf hlt hfail
  obtain ⟨j, u, i, tk, cp, ic, it, rf⟩ := p
  simp only at ht hrf
  subst ht hrf
  simp only [mxjson_parser_t.count, Option.getD_some] at hlt
  by_cases hc : l.length ≤ i + 1
  · simp only [mxjson_token, mxjson_parser_t.count, Option.getD_some,
      if_pos hc, if_false, Bool.false_eq_true]
    omega
  · exfalso
    simp only [mxjson_token, mxjson_parser_t.count, Option.getD_some,
      if_neg hc] at hfail
    simp at hfail

/-- Witness for the guarded part of C6: a two-slot store with idx at the
last slot; the allocator fails and leaves idx equal to count. -/
theorem claim_C6_witness :
    ({ idx := 1, tokens := some [{}, {}] } : mxjson_parser_t).tokens =
      some [{}, {}] ∧
    ({ idx := 1, tokens := some [{}, {}] } : mxjson_parser_t).resize_fn =
      false ∧
    ({ idx := 1, tokens := some [{}, {}] } : mxjson_parser_t).idx <
      ({ idx := 1, tokens := some [{}, {}] } : mxjson_parser_t).count ∧
    (mxjson_token { idx := 1, tokens := some [{}, {}] }).1 = false ∧
    (mxjson_token { idx := 1, tokens := some [{}, {}] }).2.idx =
      (mxjson_token { idx := 1, tokens := some [{}, {}] }).2.count :=
  ⟨rfl, rfl, by decide, by decide,
   claim_C6.2 _ [{}, {}] rfl rfl (by decide) (by decide)⟩

/-- C4: for any two 4-hex-digit code units U in the high-surrogate range
and V in the low-surrogate range, unescaping the 12-byte lexeme consisting
of backslash u and the four digits of U followed by backslash u and the
four digits of V appends to the buffer exactly the 4-byte UTF-8 encoding
of the scalar 0x10000 + (U - 0xD800) * 0x400 + (V - 0xDC00), and reports
valid = true. -/
theorem claim_C4 (d1 d2 d3 d4 e1 e2 e3 e4 : Nat) (buffer : mxbuf)
    (x1 : isxdigit d1 = true) (x2 : isxdigit d2 = true)
    (x3 : isxdigit d3 = true) (x4 : isxdigit d4 = true)
    (y1 : isxdigit e1 = true) (y2 : isxdigit e2 = true)
    (y3 : isxdigit e3 = true) (y4 : isxdigit e4 = true)
    (hU1 : 0xd800 ≤ mxjson_hex4val d1 d2 d3 d4)
    (hU2 : mxjson_hex4val d1 d2 d3 d4 ≤ 0xdbff)
    (hV1 : 0xdc00 ≤ mxjson_hex4val e1 e2 e3 e4)
    (hV2 : mxjson_hex4val e1 e2 e3 e4 ≤ 0xdfff) :
    mxjson_unescape buffer
        ⟨[92, 117, d1, d2, d3, d4, 92, 117, e1, e2, e3, e4], 0, 12⟩ =
      (true, ⟨buffer.data ++ mxbuf_utf8_4
        (0x10000 + (mxjson_hex4val d1 d2 d3 d4 - 0xd800) * 1024 +
          (mxjson_hex4val e1 e2 e3 e4 - 0xdc00))⟩) := by
  set U := mxjson_hex4val d1 d2 d3 d4 with hU
  set V := mxjson_hex4val e1 e2 e3 e4 with hV
  set S := 0x10000 + (U - 0xd800) * 1024 + (V - 0xdc00) with hS
  set buf : List Nat := [92, 117, d1, d2, d3, d4, 92, 117, e1, e2, e3, e4]
    with hbuf
  have s0 : buf.drop 0 = 92 :: 117 :: d1 :: d2 :: d3 :: d4 ::
      92 :: 117 :: e1 :: e2 :: e3 :: e4 :: [] := by simp [hbuf]
  have s1 := drop_succ s0
  have s2 := drop_succ s1
  have s6 : buf.drop 6 = 92 :: 117 :: e1 :: e2 :: e3 :: e4 :: [] := by
    simp [hbuf]
  have s7 := drop_succ s6
  have s8 := drop_succ s7
  have q3 : mxjson_hex ⟨buf, 2, 10⟩ = (true, ⟨buf, 6, 6⟩, U) := by
    rw [hU]
    simpa using mxjson_hex_eval s2 (by omega) x1 x2 x3 x4
  have q4 : mxstr_consume_char (fun c => c = 92) ⟨buf, 6, 6⟩ 0 =
      (true, ⟨buf, 7, 5⟩, 92) := mxstr_consume_char_pos 0 s6 (by omega) (by simp)
  have q5 : mxstr_consume_char (fun c => c = 117) ⟨buf, 7, 5⟩ 0 =
      (true, ⟨buf, 8, 4⟩, 117) := mxstr_consume_char_pos 0 s7 (by omega) (by simp)
  have q6 : mxjson_hex ⟨buf, 8, 4⟩ = (true, ⟨buf, 12, 0⟩, V) := by
    rw [hV]
    simpa using mxjson_hex_eval s8 (by omega) y1 y2 y3 y4
  have c1 : 0xd800 ≤ U ∧ U < 0xdc00 := ⟨hU1, by omega⟩
  have c2 : 0xdc00 ≤ V ∧ V < 0xe000 := ⟨hV1, by omega⟩
  have q7 : mxbuf_put_utf8 buffer S =
      (true, ⟨buffer.data ++ mxbuf_utf8_4 S⟩) := by
    rw [mxbuf_put_utf8, if_neg (by omega), if_neg (by omega),
        if_neg (by omega), if_pos (by omega)]
  have hp : mxjson_unescape_pair ⟨buf, 6, 6⟩ = (true, ⟨buf, 12, 0⟩, V) := by
    rw [mxjson_unescape_pair.eq_def, q4]
    simp only []
    rw [if_pos trivial, q5]
    simp only []
    rw [if_pos trivial, q6]
  have hu : mxjson_unescape_u buffer ⟨buf, 2, 10⟩ =
      (true, ⟨buffer.data ++ mxbuf_utf8_4 S⟩, ⟨buf, 12, 0⟩) := by
    rw [mxjson_unescape_u.eq_def, q3]
    simp only []
    rw [if_pos c1, hp]
    simp only []
    have hcond : (True ∧ 0xdc00 ≤ V ∧ V < 0xe000) = True :=
      eq_true ⟨trivial, c2⟩
    simp only [hcond, if_true, ← hS]
    rw [q7]
  have hgo : mxjson_unescape_go 13 buffer ⟨buf, 0, 12⟩ =
      (true, ⟨buffer.data ++ mxbuf_utf8_4 S⟩, ⟨buf, 12, 0⟩) := by
    rw [show (13 : Nat) = 12 + 1 from rfl,
        mxjson_unescape_go_step_u 12 buffer s0 (by omega)]
    simp only [hu]
    rw [show (12 : Nat) = 11 + 1 from rfl]
    rw [mxjson_unescape_go_empty]
    rw [if_pos trivial]
  rw [mxjson_unescape]
  simp only [hgo]

/-- Closed witness for C4: the surrogate pair D83D DE39 decodes to the
bytes F0 9F 98 B9. -/
theorem claim_C4_witness :
    mxjson_unescape ⟨[]⟩
        ⟨[92, 117, 68, 56, 51, 68, 92, 117, 68, 69, 51, 57], 0, 12⟩ =
      (true, ⟨[0xf0, 0x9f, 0x98, 0xb9]⟩) := by
  have h := claim_C4 68 56 51 68 68 69 51 57 ⟨[]⟩
    (by decide) (by decide) (by decide) (by decide)
    (by decide) (by decide) (by decide) (by decide)
    (by decide) (by decide) (by decide) (by decide)
  rw [h]
  decide

/-- C5: unescaping fails with valid = false for every lexeme that starts
with a backslash-u escape decoding to a high surrogate that is not
immediately followed by a backslash-u escape decoding to a low surrogate
(the continuation recognizer either fails or yields a value outside the
low-surrogate range), and for every lexeme that starts with a backslash-u
escape decoding to a lone low surrogate; in particular, for the input
consisting of the quoted lexeme backslash-u D800 the parse succeeds with
the escape flag set, but mxjson_token_string reports valid = false. -/
theorem claim_C5 :
    (∀ (d1 d2 d3 d4 : Nat) (rest : List Nat) (b : mxbuf),
      isxdigit d1 = true → isxdigit d2 = true → isxdigit d3 = true →
      isxdigit d4 = true →
      0xd800 ≤ mxjson_hex4val d1 d2 d3 d4 →
      mxjson_hex4val d1 d2 d3 d4 ≤ 0xdbff →
      ¬((mxjson_unescape_pair
          ⟨92 :: 117 :: d1 :: d2 :: d3 :: d4 :: rest, 6, rest.length⟩).1 = true ∧
        0xdc00 ≤ (mxjson_unescape_pair
          ⟨92 :: 117 :: d1 :: d2 :: d3 :: d4 :: rest, 6, rest.length⟩).2.2 ∧
        (mxjson_unescape_pair
          ⟨92 :: 117 :: d1 :: d2 :: d3 :: d4 :: rest, 6, rest.length⟩).2.2 < 0xe000) →
      (mxjson_unescape b
        ⟨92 :: 117 :: d1 :: d2 :: d3 :: d4 :: rest, 0, rest.length + 6⟩).1 = false) ∧
    (∀ (d1 d2 d3 d4 : Nat) (rest : List Nat) (b : mxbuf),
      isxdigit d1 = true → isxdigit d2 = true → isxdigit d3 = true →
      isxdigit d4 = true →
      0xdc00 ≤ mxjson_hex4val d1 d2 d3 d4 →
      mxjson_hex4val d1 d2 d3 d4 ≤ 0xdfff →
      (mxjson_unescape b
        ⟨92 :: 117 :: d1 :: d2 :: d3 :: d4 :: rest, 0, rest.length + 6⟩).1 = false) ∧
    ((mxjson_parse dynCtx d800_input).1 = true ∧
     ((mxjson_parse dynCtx d800_input).2.tok 1).value_esc = true ∧
     (mxjson_token_string (mxjson_parse dynCtx d800_input).2 1 ⟨[]⟩).2.2 = false) := by
  refine ⟨?_, ?_, by decide⟩
  · intro d1 d2 d3 d4 rest b x1 x2 x3 x4 hU1 hU2 hno
    set U := mxjson_hex4val d1 d2 d3 d4 with hU
    set buf : List Nat := 92 :: 117 :: d1 :: d2 :: d3 :: d4 :: rest with hbuf
    set n := rest.length with hn
    have s0 : buf.drop 0 = 92 :: 117 :: d1 :: d2 :: d3 :: d4 :: rest := by
      simp [hbuf]
    have s2 : buf.drop 2 = d1 :: d2 :: d3 :: d4 :: rest := by simp [hbuf]
    have q3 : mxjson_hex ⟨buf, 2, n + 4⟩ = (true, ⟨buf, 6, n⟩, U) := by
      rw [hU]
      simpa using mxjson_hex_eval s2 (by omega) x1 x2 x3 x4
    have c1 : 0xd800 ≤ U ∧ U < 0xdc00 := ⟨hU1, by omega⟩
    have huf : (mxjson_unescape_u b ⟨buf, 2, n + 4⟩).1 = false := by
      rw [mxjson_unescape_u.eq_def, q3]
      simp only []
      rw [if_pos c1]
      rw [if_neg hno]
      simp
    rw [mxjson_unescape]
    simp only []
    rw [show n + 6 + 1 = (n + 6) + 1 from rfl,
        mxjson_unescape_go_step_u (n + 6) b s0 (by omega)]
    rw [show n + 6 - 2 = n + 4 from by omega]
    rw [if_neg (by simp [huf])]
  · intro d1 d2 d3 d4 rest b x1 x2 x3 x4 hV1 hV2
    set V := mxjson_hex4val d1 d2 d3 d4 with hV
    set buf : List Nat := 92 :: 117 :: d1 :: d2 :: d3 :: d4 :: rest with hbuf
    set n := rest.length with hn
    have s0 : buf.drop 0 = 92 :: 117 :: d1 :: d2 :: d3 :: d4 :: rest := by
      simp [hbuf]
    have s2 : buf.drop 2 = d1 :: d2 :: d3 :: d4 :: rest := by simp [hbuf]
    have q3 : mxjson_hex ⟨buf, 2, n + 4⟩ = (true, ⟨buf, 6, n⟩, V) := by
      rw [hV]
      simpa using mxjson_hex_eval s2 (by omega) x1 x2 x3 x4
    have q7 : mxbuf_put_utf8 b V = (false, b) := by
      rw [mxbuf_put_utf8, if_neg (by omega), if_neg (by omega),
          if_pos (by omega), if_pos ⟨by omega, by omega⟩]
    have huf : (mxjson_unescape_u b ⟨buf, 2, n + 4⟩).1 = false := by
      rw [mxjson_unescape_u.eq_def, q3]
      simp only []
      rw [if_neg (by omega : ¬(0xd800 ≤ V ∧ V < 0xdc00))]
      rw [if_pos trivial, q7]
      simp
    rw [mxjson_unescape]
    simp only []
    rw [show n + 6 + 1 = (n + 6) + 1 from rfl,
        mxjson_unescape_go_step_u (n + 6) b s0 (by omega)]
    rw [show n + 6 - 2 = n + 4 from by omega]
    rw [if_neg (by simp [huf])]

/-- Closed witness for C5: a lone high surrogate D800 at the end of a
lexeme and a lone low surrogate DC00 both unescape with valid = false. -/
theorem claim_C5_witness :
    (mxjson_unescape ⟨[]⟩ ⟨[92, 117, 68, 56, 48, 48], 0, 6⟩).1 = false ∧
    (mxjson_unescape ⟨[]⟩ ⟨[92, 117, 68, 67, 48, 48], 0, 6⟩).1 = false := by
  constructor
  · exact claim_C5.1 68 56 48 48 [] ⟨[]⟩ (by decide) (by decide) (by decide)
      (by decide) (by decide) (by decide) (by decide)
  · exact claim_C5.2.1 68 67 48 48 [] ⟨[]⟩ (by decide) (by decide) (by decide)
      (by decide) (by decide) (by decide)

/-- C1: parsing the 23-byte object from the specification's end-to-end
scenario with a fresh dynamic context succeeds and produces exactly the
five claimed tokens: the root OBJECT with two children and next 6, the
NUMBER member named a with lexeme 1, the two-element ARRAY member named b
with next 6, and its BOOL true and NULL elements, with the claimed parent
links. -/
theorem claim_C1 :
    (mxjson_parse dynCtx c1_input).1 = true ∧
    (mxjson_parse dynCtx c1_input).2.idx = 5 ∧
    ((mxjson_parse dynCtx c1_input).2.tok 1).value_type = .OBJECT ∧
    ((mxjson_parse dynCtx c1_input).2.tok 1).children = 2 ∧
    ((mxjson_parse dynCtx c1_input).2.tok 1).next = 6 ∧
    ((mxjson_parse dynCtx c1_input).2.tok 1).parent = 0 ∧
    ((mxjson_parse dynCtx c1_input).2.tok 2).value_type = .NUMBER ∧
    ((c1_input.drop ((mxjson_parse dynCtx c1_input).2.tok 2).name).take
      ((mxjson_parse dynCtx c1_input).2.tok 2).name_size) = [97] ∧
    ((c1_input.drop ((mxjson_parse dynCtx c1_input).2.tok 2).str).take
      ((mxjson_parse dynCtx c1_input).2.tok 2).str_size) = [49] ∧
    ((mxjson_parse dynCtx c1_input).2.tok 2).parent = 1 ∧
    ((mxjson_parse dynCtx c1_input).2.tok 3).value_type = .ARRAY ∧
    ((c1_input.drop ((mxjson_parse dynCtx c1_input).2.tok 3).name).take
      ((mxjson_parse dynCtx c1_input).2.tok 3).name_size) = [98] ∧
    ((mxjson_parse dynCtx c1_input).2.tok 3).children = 2 ∧
    ((mxjson_parse dynCtx c1_input).2.tok 3).next = 6 ∧
    ((mxjson_parse dynCtx c1_input).2.tok 3).parent = 1 ∧
    ((mxjson_parse dynCtx c1_input).2.tok 4).value_type = .BOOL ∧
    ((mxjson_parse dynCtx c1_input).2.tok 4).boolean = true ∧
    ((mxjson_parse dynCtx c1_input).2.tok 4).parent = 3 ∧
    ((mxjson_parse dynCtx c1_input).2.tok 5).value_type = .NULL ∧
    ((mxjson_parse dynCtx c1_input).2.tok 5).parent = 3 := by
  decide

/-- C7, counterexample: for the one-byte input consisting of an opening
bracket, mxjson_parse does return false with an empty remainder, but the
high-water index is 2, not 1 as claimed: the parser allocates the slot for
the expected first array element before discovering that the input is
exhausted. -/
theorem claim_C7_counterexample :
    (mxjson_parse dynCtx [91]).1 = false ∧
    (mxjson_parse dynCtx [91]).2.unparsed.len = 0 ∧
    (mxjson_parse dynCtx [91]).2.idx = 2 ∧
    ¬((mxjson_parse dynCtx [91]).2.idx = 1) := by
  decide

/-- C7, amended: for the one-byte input consisting of an opening bracket,
mxjson_parse returns false, the unparsed remainder is empty, and the
high-water index after the parse equals 2: token 1 is the open ARRAY token
(with one recorded child) and token 2 is the freshly allocated, still
empty (kind NONE) token for the expected first element. -/
theorem claim_C7 :
    (mxjson_parse dynCtx [91]).1 = false ∧
    (mxjson_parse dynCtx [91]).2.unparsed.len = 0 ∧
    (mxjson_parse dynCtx [91]).2.idx = 2 ∧
    ((mxjson_parse dynCtx [91]).2.tok 1).value_type = .ARRAY ∧
    ((mxjson_parse dynCtx [91]).2.tok 1).parent = 0 ∧
    ((mxjson_parse dynCtx [91]).2.tok 1).children = 1 ∧
    ((mxjson_parse dynCtx [91]).2.tok 2).value_type = .NONE ∧
    ((mxjson_parse dynCtx [91]).2.tok 2).parent = 1 := by
  decide

/-- C9: unescape is the identity on unescaped lexemes: for every STRING
token whose value_esc flag is false, mxjson_token_string returns the
original input range recorded for the token (hence the raw lexeme byte for
byte), appends nothing to the caller buffer, and reports valid = true. -/
theorem claim_C9 (p : mxjson_parser_t) (idx : Nat) (buffer : mxbuf)
    (hk : (p.tok idx).value_type = .STRING)
    (he : (p.tok idx).value_esc = false) :
    mxjson_token_string p idx buffer =
      (⟨p.json, (p.tok idx).str, (p.tok idx).str_size⟩, buffer, true) := by
  simp [mxjson_token_string, hk, he]

/-- Closed witness for C9 at a concrete one-token context. -/
theorem claim_C9_witness :
    mxjson_token_string
      { json := [34, 104, 105, 34],
        tokens := some [default,
          { value_type := .STRING, str := 1, str_size := 2 }] } 1 ⟨[]⟩ =
      (⟨[34, 104, 105, 34], 1, 2⟩, ⟨[]⟩, true) := by
  have h := claim_C9
    { json := [34, 104, 105, 34],
      tokens := some [default,
        { value_type := .STRING, str := 1, str_size := 2 }] } 1 ⟨[]⟩
    (by decide) (by decide)
  simpa using h

/-- C10: for every token, mxjson_token_string reports valid = true and
returns a fixed literal, leaving the caller buffer untouched, when the
token is not a NUMBER or STRING: the literal null for NULL tokens, true or
false for BOOL tokens according to the boolean field, object for OBJECT
tokens, array for ARRAY tokens, and a null, empty string for the remaining
kind NONE. -/
theorem claim_C10 (p : mxjson_parser_t) (idx : Nat) (buffer : mxbuf) :
    ((p.tok idx).value_type = .NULL →
      mxjson_token_string p idx buffer =
        (mxstr_literal [110, 117, 108, 108], buffer, true)) ∧
    ((p.tok idx).value_type = .BOOL → (p.tok idx).boolean = true →
      mxjson_token_string p idx buffer =
        (mxstr_literal [116, 114, 117, 101], buffer, true)) ∧
    ((p.tok idx).value_type = .BOOL → (p.tok idx).boolean = false →
      mxjson_token_string p idx buffer =
        (mxstr_literal [102, 97, 108, 115, 101], buffer, true)) ∧
    ((p.tok idx).value_type = .OBJECT →
      mxjson_token_string p idx buffer =
        (mxstr_literal [111, 98, 106, 101, 99, 116], buffer, true)) ∧
    ((p.tok idx).value_type = .ARRAY →
      mxjson_token_string p idx buffer =
        (mxstr_literal [97, 114, 114, 97, 121], buffer, true)) ∧
    ((p.tok idx).value_type = .NONE →
      mxjson_token_string p idx buffer = (⟨[], 0, 0⟩, buffer, true)) := by
  refine ⟨?_, ?_, ?_, ?_, ?_, ?_⟩ <;> intro h
  · simp [mxjson_token_string, h]
  · intro hb; simp [mxjson_token_string, h, hb]
  · intro hb; simp [mxjson_token_string, h, hb]
  · simp [mxjson_token_string, h]
  · simp [mxjson_token_string, h]
  · simp [mxjson_token_string, h]

/-- Closed witness for C10 across all six kinds, at concrete one-token
contexts. -/
theorem claim_C10_witness :
    mxjson_token_string { tokens := some [default, { value_type := .NULL }] } 1 ⟨[]⟩ =
      (mxstr_literal [110, 117, 108, 108], ⟨[]⟩, true) ∧
    mxjson_token_string
        { tokens := some [default, { value_type := .BOOL, boolean := true }] } 1 ⟨[]⟩ =
      (mxstr_literal [116, 114, 117, 101], ⟨[]⟩, true) ∧
    mxjson_token_string
        { tokens := some [default, { value_type := .BOOL }] } 1 ⟨[]⟩ =
      (mxstr_literal [102, 97, 108, 115, 101], ⟨[]⟩, true) ∧
    mxjson_token_string { tokens := some [default, { value_type := .OBJECT }] } 1 ⟨[]⟩ =
      (mxstr_literal [111, 98, 106, 101, 99, 116], ⟨[]⟩, true) ∧
    mxjson_token_string { tokens := some [default, { value_type := .ARRAY }] } 1 ⟨[]⟩ =
      (mxstr_literal [97, 114, 114, 97, 121], ⟨[]⟩, true) ∧
    mxjson_token_string { tokens := some [default, { value_type := .NONE }] } 1 ⟨[]⟩ =
      (⟨[], 0, 0⟩, ⟨[]⟩, true) :=
  ⟨(claim_C10 _ 1 _).1 (by decide),
   (claim_C10 _ 1 _).2.1 (by decide) (by decide),
   (claim_C10 _ 1 _).2.2.1 (by decide) (by decide),
   (claim_C10 _ 1 _).2.2.2.1 (by decide),
   (claim_C10 _ 1 _).2.2.2.2.1 (by decide),
   (claim_C10 _ 1 _).2.2.2.2.2 (by decide)⟩

/-! ### Walk and chain toolkit for the structural invariants -/

theorem walksTo_congr {T T' : Nat → mxjson_token_t} {i : Nat} :
    ∀ {k pos stop : Nat},
    (∀ j, j < stop → (T' j).parent = (T j).parent ∧
      (T' j).value_type = (T j).value_type ∧
      (T' j).str_size = (T j).str_size) →
    walksTo T i pos k stop = true → walksTo T' i pos k stop = true := by
  intro k
  induction k with
  | zero => intro pos stop _ h; exact h
  | succ m ih =>
    intro pos stop hagree h
    rw [walksTo] at h ⊢
    simp only [Bool.and_eq_true, decide_eq_true_eq] at h ⊢
    obtain ⟨⟨hlt, hpar⟩, hrest⟩ := h
    obtain ⟨e1, e2, e3⟩ := hagree pos hlt
    refine ⟨⟨hlt, by rw [e1]; exact hpar⟩, ?_⟩
    have hstep : tok_step T' pos = tok_step T pos := by
      rw [tok_step, tok_step, e2, e3]
    rw [hstep]
    exact ih hagree hrest

theorem walksTo_write_ne {T T' : Nat → mxjson_token_t} {i w : Nat}
    (hne : (T w).parent ≠ i) (hagree : ∀ j, j ≠ w → T' j = T j) :
    ∀ {k pos stop : Nat},
    walksTo T i pos k stop = true → walksTo T' i pos k stop = true := by
  intro k
  induction k with
  | zero => intro pos stop h; exact h
  | succ m ih =>
    intro pos stop h
    rw [walksTo] at h ⊢
    simp only [Bool.and_eq_true, decide_eq_true_eq] at h ⊢
    obtain ⟨⟨hlt, hpar⟩, hrest⟩ := h
    have hpw : pos ≠ w := by
      intro he
      exact hne (he ▸ hpar)
    have he := hagree pos hpw
    refine ⟨⟨hlt, by rw [he]; exact hpar⟩, ?_⟩
    have hstep : tok_step T' pos = tok_step T pos := by
      rw [tok_step, tok_step, he]
    rw [hstep]
    exact ih hrest

theorem walksTo_snoc {T : Nat → mxjson_token_t} {i : Nat} :
    ∀ {k pos mid stop : Nat},
    walksTo T i pos k mid = true → mid < stop → (T mid).parent = i →
    tok_step T mid = stop → walksTo T i pos (k + 1) stop = true := by
  intro k
  induction k with
  | zero =>
    intro pos mid stop h hlt hpar hstep
    rw [walksTo] at h
    simp only [decide_eq_true_eq] at h
    subst h
    rw [walksTo]
    simp only [Bool.and_eq_true, decide_eq_true_eq]
    refine ⟨⟨hlt, hpar⟩, ?_⟩
    rw [hstep, walksTo]
    simp
  | succ m ih =>
    intro pos mid stop h hlt hpar hstep
    rw [walksTo] at h
    simp only [Bool.and_eq_true, decide_eq_true_eq] at h
    obtain ⟨⟨hplt, hppar⟩, hrest⟩ := h
    rw [walksTo]
    simp only [Bool.and_eq_true, decide_eq_true_eq]
    exact ⟨⟨Nat.lt_trans hplt hlt, hppar⟩, ih hrest hlt hpar hstep⟩

theorem ChainFrom_parent_congr {T T' : Nat → mxjson_token_t}
    (hpar : ∀ j, (T' j).parent = (T j).parent) {c i : Nat} :
    ChainFrom T c i → ChainFrom T' c i := by
  intro h
  induction h with
  | here c => exact ChainFrom.here c
  | up c i h ih =>
    exact ChainFrom.up c i (by rw [hpar]; exact ih)

theorem ChainFrom_anchor_zero {T : Nat → mxjson_token_t} {c i : Nat}
    (h : ChainFrom T c i) : (T 0).parent = 0 → c = 0 → i = 0 := by
  induction h with
  | here c => intro _ hc; exact hc
  | up c i h ih =>
    intro h0 hc
    subst hc
    exact ih h0 (by rw [h0])

theorem ChainFrom_cases {T : Nat → mxjson_token_t} {c i : Nat}
    (h : ChainFrom T c i) : i = c ∨ ChainFrom T ((T c).parent) i := by
  cases h with
  | here c => exact Or.inl rfl
  | up c i h => exact Or.inr h

theorem Chain_lt {T : Nat → mxjson_token_t} {d c : Nat} (h : Chain T d c) :
    c < d ∧ 1 ≤ d := by
  cases h with
  | top hp => exact ⟨Nat.zero_lt_one, Nat.le_refl 1⟩
  | step d c h1 h2 hp hty hsz hch hwalk hup => exact ⟨h2, Nat.le_of_lt (Nat.lt_of_le_of_lt h1 h2)⟩

theorem Chain_parent_front {T : Nat → mxjson_token_t} {d c : Nat}
    (h : Chain T d c) : (T d).parent = c := by
  cases h with
  | top hp => exact hp
  | step d c h1 h2 hp hty hsz hch hwalk hup => exact hp

theorem Chain_anchor_sz {T : Nat → mxjson_token_t} {d c : Nat}
    (h : Chain T d c) :
    c = 0 ∨ (1 ≤ c ∧ (T c).str_size = 0 ∧
      ((T c).value_type = mxjson_type.OBJECT ∨
       (T c).value_type = mxjson_type.ARRAY)) := by
  cases h with
  | top hp => exact Or.inl rfl
  | step d c h1 h2 hp hty hsz hch hwalk hup => exact Or.inr ⟨h1, hsz, hty⟩

theorem Chain_congr {T T' : Nat → mxjson_token_t} {d c : Nat}
    (h : Chain T d c) :
    (∀ j, j < d → T' j = T j) → (T' d).parent = (T d).parent →
    Chain T' d c := by
  induction h with
  | top hp =>
    intro hag hpd
    exact Chain.top (by rw [hpd]; exact hp)
  | step d c h1 h2 hp hty hsz hch hwalk hup ih =>
    intro hag hpd
    have hc := hag c h2
    refine Chain.step d c h1 h2 (by rw [hpd]; exact hp) (by rw [hc]; exact hty)
      (by rw [hc]; exact hsz) (by rw [hc]; exact hch) ?_ ?_
    · rw [hc]
      exact walksTo_congr
        (fun j hj => by rw [hag j hj]; exact ⟨rfl, rfl, rfl⟩)
        hwalk
    · rw [hc]
      exact ih (fun j hj => hag j (Nat.lt_trans hj h2))
        (by rw [hag c h2])

theorem tok_setTok_ne (p : mxjson_parser_t) (i j : Nat)
    (t : mxjson_token_t) (h : j ≠ i) : (p.setTok i t).tok j = p.tok j := by
  unfold mxjson_parser_t.setTok mxjson_parser_t.tok
  simp only [Option.getD_some]
  rw [List.getD_eq_getElem?_getD, List.getD_eq_getElem?_getD,
      List.getElem?_set]
  rw [if_neg (show ¬ i = j from fun hne => h hne.symm)]

theorem setTok_count (p : mxjson_parser_t) (i : Nat) (t : mxjson_token_t) :
    (p.setTok i t).count = p.count := by
  simp [mxjson_parser_t.setTok, mxjson_parser_t.count]

theorem mxutil_size_p2_go_gt (n : Nat) :
    ∀ (fuel acc : Nat), 0 < acc → n < acc * 2 ^ fuel →
    n < mxutil_size_p2_go n fuel acc := by
  intro fuel
  induction fuel with
  | zero =>
    intro acc ha h
    rw [mxutil_size_p2_go]
    simpa using h
  | succ m ih =>
    intro acc ha h
    rw [mxutil_size_p2_go]
    by_cases hc : n < acc
    · simp [hc]
    · simp only [hc, if_false]
      refine ih (2 * acc) (by omega) ?_
      have he : acc * 2 ^ (m + 1) = 2 * acc * 2 ^ m := by ring
      omega

theorem mxutil_size_p2_gt (n : Nat) : n < mxutil_size_p2 n := by
  rw [mxutil_size_p2]
  refine mxutil_size_p2_go_gt n (n + 1) 1 (by omega) ?_
  have h1 : n < 2 ^ n := Nat.lt_two_pow n
  have h2 : (2:Nat) ^ n ≤ 2 ^ (n + 1) :=
    Nat.pow_le_pow_right (by omega) (by omega)
  omega

/-- The common tail of mxjson_token: writing the fresh token and bumping
the parent's child counter. -/
theorem mxjson_token_commit (q : mxjson_parser_t) (l1 : List mxjson_token_t)
    (htk : q.tokens = some l1) (hb : q.idx < l1.length)
    (hcp : q.current_parent < q.idx) :
    let q1 := q.setTok q.idx { parent := q.current_parent };
    let r := q1.setTok q.current_parent
      { q1.tok q.current_parent with
        str := (q1.tok q.current_parent).str + 1 };
    r.idx = q.idx ∧ r.json = q.json ∧ r.unparsed = q.unparsed ∧
    r.current_parent = q.current_parent ∧ r.init_count = q.init_count ∧
    r.init_tokens = q.init_tokens ∧ r.resize_fn = q.resize_fn ∧
    (∃ l2, r.tokens = some l2 ∧ l2.length = l1.length) ∧
    r.tok q.idx = { parent := q.current_parent } ∧
    (∀ j, j ≠ q.idx → j ≠ q.current_parent → r.tok j = q.tok j) ∧
    r.tok q.current_parent =
      { q.tok q.current_parent with
        str := (q.tok q.current_parent).str + 1 } := by
  intro q1 r
  have hcount : q.count = l1.length := by
    rw [mxjson_parser_t.count, htk]
    rfl
  have hq1c : q1.count = q.count := setTok_count _ _ _
  have hq1cp : q1.tok q.current_parent = q.tok q.current_parent :=
    tok_setTok_ne _ _ _ _ (by omega)
  have hridx : r.tok q.idx = q1.tok q.idx :=
    tok_setTok_ne _ _ _ _ (by omega)
  have hq1idx : q1.tok q.idx = { parent := q.current_parent } :=
    tok_setTok_self _ _ _ (by omega)
  refine ⟨rfl, rfl, rfl, rfl, rfl, rfl, rfl, ?_, ?_, ?_, ?_⟩
  · refine ⟨(l1.set q.idx { parent := q.current_parent }).set
      q.current_parent
      { q1.tok q.current_parent with
        str := (q1.tok q.current_parent).str + 1 }, ?_, by simp⟩
    show (q1.setTok _ _).tokens = _
    unfold mxjson_parser_t.setTok
    have : q1.tokens = some (l1.set q.idx { parent := q.current_parent }) := by
      show (q.setTok _ _).tokens = _
      unfold mxjson_parser_t.setTok
      rw [htk]
      rfl
    rw [this]
    rfl
  · rw [hridx, hq1idx]
  · intro j hj1 hj2
    rw [tok_setTok_ne _ _ _ _ hj2]
    show (q.setTok _ _).tok j = q.tok j
    exact tok_setTok_ne _ _ _ _ hj1
  · rw [tok_setTok_self _ _ _ (by omega), hq1cp]

/-- Behaviour of mxjson_token on an allocated store: on success the index
advances by one, the fresh slot is zeroed except for its parent pointer,
the parent gains a child, and every other token up to the old index is
untouched. -/
theorem mxjson_token_some_spec (p : mxjson_parser_t)
    (l : List mxjson_token_t)
    (htk : p.tokens = some l) (hb : p.idx < l.length)
    (hcp : p.current_parent ≤ p.idx)
    (hok : (mxjson_token p).1 = true) :
    (mxjson_token p).2.idx = p.idx + 1 ∧
    (∃ l', (mxjson_token p).2.tokens = some l' ∧ p.idx + 1 < l'.length) ∧
    (mxjson_token p).2.json = p.json ∧
    (mxjson_token p).2.unparsed = p.unparsed ∧
    (mxjson_token p).2.current_parent = p.current_parent ∧
    (mxjson_token p).2.init_count = p.init_count ∧
    (mxjson_token p).2.init_tokens = p.init_tokens ∧
    (mxjson_token p).2.resize_fn = p.resize_fn ∧
    (mxjson_token p).2.tok (p.idx + 1) = { parent := p.current_parent } ∧
    (∀ j, j ≤ p.idx → j ≠ p.current_parent →
      (mxjson_token p).2.tok j = p.tok j) ∧
    (mxjson_token p).2.tok p.current_parent =
      { p.tok p.current_parent with
        str := (p.tok p.current_parent).str + 1 } := by
  by_cases hfull : l.length ≤ p.idx + 1
  · -- the store is exactly full: growth is required
    cases hrf : p.resize_fn with
    | false =>
      exfalso
      simp only [mxjson_token, mxjson_parser_t.count, htk,
        Option.getD_some, if_pos hfull, hrf, Bool.false_eq_true,
        if_false] at hok
    | true =>
      have hlen : l.length = p.idx + 1 := by omega
      have hp2 := mxutil_size_p2_gt l.length
      have hp2ne : mxutil_size_p2 l.length ≠ 0 := by omega
      have hlen1 : (l ++ List.replicate
          (mxutil_size_p2 l.length - l.length) default).length =
          mxutil_size_p2 l.length := by
        simp
        omega
      have heq : mxjson_token p =
          (true,
           let q : mxjson_parser_t :=
             { json := p.json, unparsed := p.unparsed, idx := p.idx + 1,
               tokens := some (l ++ List.replicate
                 (mxutil_size_p2 l.length - l.length) default),
               current_parent := p.current_parent,
               init_count := p.init_count, init_tokens := p.init_tokens,
               resize_fn := p.resize_fn };
           let q1 := q.setTok q.idx { parent := q.current_parent };
           q1.setTok q.current_parent
             { q1.tok q.current_parent with
               str := (q1.tok q.current_parent).str + 1 }) := by
        simp only [mxjson_token, mxjson_parser_t.count,
          mxjson_parser_t.setTok, htk, Option.getD_some, if_pos hfull,
          hrf, if_true, mxjson_resize, if_pos hp2ne]
      rw [heq]
      have hcom := mxjson_token_commit
        { json := p.json, unparsed := p.unparsed, idx := p.idx + 1,
          tokens := some (l ++ List.replicate
            (mxutil_size_p2 l.length - l.length) default),
          current_parent := p.current_parent, init_count := p.init_count,
          init_tokens := p.init_tokens, resize_fn := p.resize_fn }
        (l ++ List.replicate (mxutil_size_p2 l.length - l.length) default)
        rfl
        (show p.idx + 1 < (l ++ List.replicate
          (mxutil_size_p2 l.length - l.length) default).length from
          by rw [hlen1]; omega)
        (show p.current_parent < p.idx + 1 from by omega)
      obtain ⟨e1, e2, e3, e4, e5, e6, e7, ⟨l2, e8, e9⟩, e10, e11, e12⟩ :=
        hcom
      have htokq : ∀ j, j ≤ p.idx →
          ({ json := p.json, unparsed := p.unparsed, idx := p.idx + 1,
             tokens := some (l ++ List.replicate
               (mxutil_size_p2 l.length - l.length) default),
             current_parent := p.current_parent,
             init_count := p.init_count, init_tokens := p.init_tokens,
             resize_fn := p.resize_fn } : mxjson_parser_t).tok j =
            p.tok j := by
        intro j hj
        show (l ++ _).getD j default = p.tok j
        rw [List.getD_append _ _ _ _ (by omega), mxjson_parser_t.tok, htk]
        rfl
      have hl2 : l2.length = mxutil_size_p2 l.length := e9.trans hlen1
      refine ⟨e1, ⟨l2, e8, by omega⟩, e2, e3, e4, e5, e6, e7.trans hrf,
        e10, ?_, ?_⟩
      · intro j hj1 hj2
        exact (e11 j (show j ≠ p.idx + 1 from by omega) hj2).trans
          (htokq j hj1)
      · have h12 := e12
        rw [htokq _ hcp] at h12
        exact h12
  · -- free slot available: no reallocation
    have heq : mxjson_token p =
        (true,
         let q : mxjson_parser_t :=
           { json := p.json, unparsed := p.unparsed, idx := p.idx + 1,
             tokens := some l, current_parent := p.current_parent,
             init_count := p.init_count, init_tokens := p.init_tokens,
             resize_fn := p.resize_fn };
         let q1 := q.setTok q.idx { parent := q.current_parent };
         q1.setTok q.current_parent
           { q1.tok q.current_parent with
             str := (q1.tok q.current_parent).str + 1 }) := by
      simp only [mxjson_token, mxjson_parser_t.count,
        mxjson_parser_t.setTok, htk, Option.getD_some, if_neg hfull,
        eq_self_iff_true, if_true]
    rw [heq]
    have hcom := mxjson_token_commit
      { json := p.json, unparsed := p.unparsed, idx := p.idx + 1,
        tokens := some l, current_parent := p.current_parent,
        init_count := p.init_count, init_tokens := p.init_tokens,
        resize_fn := p.resize_fn } l rfl
      (show p.idx + 1 < l.length from by omega)
      (show p.current_parent < p.idx + 1 from by omega)
    obtain ⟨e1, e2, e3, e4, e5, e6, e7, ⟨l2, e8, e9⟩, e10, e11, e12⟩ := hcom
    have htokq : ∀ j,
        ({ json := p.json, unparsed := p.unparsed, idx := p.idx + 1,
           tokens := some l, current_parent := p.current_parent,
           init_count := p.init_count, init_tokens := p.init_tokens,
           resize_fn := p.resize_fn } : mxjson_parser_t).tok j = p.tok j :=
      by
        intro j
        show l.getD j default = p.tok j
        rw [mxjson_parser_t.tok, htk]
        rfl
    refine ⟨e1, ⟨l2, e8, by omega⟩, e2, e3, e4, e5, e6, e7, e10, ?_, ?_⟩
    · intro j hj1 hj2
      exact (e11 j (show j ≠ p.idx + 1 from by omega) hj2).trans (htokq j)
    · have h12 := e12
      rw [htokq] at h12
      exact h12

/-- Behaviour of the first mxjson_token call of a parse (index 0, parent
0): on success the root slot 1 is allocated with parent 0 and the sentinel
keeps kind NONE and parent 0. -/
theorem mxjson_token_first_spec (p : mxjson_parser_t)
    (hidx : p.idx = 0) (hcp : p.current_parent = 0)
    (h0v : (p.tok 0).value_type = mxjson_type.NONE)
    (h0p : (p.tok 0).parent = 0)
    (hsane : ∀ l, p.tokens = some l → 2 ≤ l.length)
    (hok : (mxjson_token p).1 = true) :
    (mxjson_token p).2.idx = 1 ∧
    (∃ l', (mxjson_token p).2.tokens = some l' ∧ 1 < l'.length) ∧
    (mxjson_token p).2.json = p.json ∧
    (mxjson_token p).2.unparsed = p.unparsed ∧
    (mxjson_token p).2.current_parent = p.current_parent ∧
    (mxjson_token p).2.tok 1 = { parent := 0 } ∧
    ((mxjson_token p).2.tok 0).value_type = mxjson_type.NONE ∧
    ((mxjson_token p).2.tok 0).parent = 0 := by
  cases htk : p.tokens with
  | some l =>
    have hspec := mxjson_token_some_spec p l htk
      (by rw [hidx]; have := hsane l htk; omega) (by omega) hok
    obtain ⟨e1, e2, e3, e4, e5, _, _, _, e9, _, e11⟩ := hspec
    rw [hidx] at e1 e9
    rw [hcp] at e9 e11
    refine ⟨e1, by rw [hidx] at e2; exact e2, e3, e4, e5, e9, ?_, ?_⟩
    · rw [e11]
      exact h0v
    · rw [e11]
      exact h0p
  | none =>
    have h0d : p.tok 0 = default := by
      rw [mxjson_parser_t.tok, htk]
      rfl
    obtain ⟨pj, pu, pi, ptk, pcp, pic, pit, prf⟩ := p
    simp only at htk hidx hcp
    subst htk hidx hcp
    cases hcond : (pit && decide (0 + 1 < pic)) with
    | true =>
      have hic : 2 ≤ pic := by
        simp only [Bool.and_eq_true, decide_eq_true_eq] at hcond
        omega
      have heq : mxjson_token
          { json := pj, unparsed := pu, idx := 0, tokens := none,
            current_parent := 0, init_count := pic, init_tokens := pit,
            resize_fn := prf } =
          (true,
           let q : mxjson_parser_t :=
             { json := pj, unparsed := pu, idx := 0 + 1,
               tokens := some ((List.replicate pic default).set 0 default),
               current_parent := 0, init_count := pic, init_tokens := pit,
               resize_fn := prf };
           let q1 := q.setTok q.idx { parent := q.current_parent };
           q1.setTok q.current_parent
             { q1.tok q.current_parent with
               str := (q1.tok q.current_parent).str + 1 }) := by
        simp only [mxjson_token, mxjson_parser_t.count,
          mxjson_parser_t.setTok, Option.getD_some, Option.getD_none,
          hcond, if_true, List.length_nil,
          if_pos (Nat.zero_le 1), eq_self_iff_true]
      rw [heq]
      have hcom := mxjson_token_commit
        { json := pj, unparsed := pu, idx := 0 + 1,
          tokens := some ((List.replicate pic default).set 0 default),
          current_parent := 0, init_count := pic, init_tokens := pit,
          resize_fn := prf }
        ((List.replicate pic default).set 0 default) rfl
        (show 0 + 1 < ((List.replicate pic default).set 0
          default).length from by simp; omega)
        (show 0 < 0 + 1 from by omega)
      obtain ⟨e1, e2, e3, e4, e5, e6, e7, ⟨l2, e8, e9⟩, e10, e11, e12⟩ :=
        hcom
      have htok0 :
          ({ json := pj, unparsed := pu, idx := 0 + 1,
             tokens := some ((List.replicate pic default).set 0 default),
             current_parent := 0, init_count := pic, init_tokens := pit,
             resize_fn := prf } : mxjson_parser_t).tok 0 = default := by
        show ((List.replicate pic default).set 0 default).getD 0 default = _
        cases hpic : pic with
        | zero => omega
        | succ m => simp [List.replicate_succ]
      refine ⟨e1, ⟨l2, e8, by simp at e9; omega⟩, e2, e3, e4, e10, ?_, ?_⟩
      · rw [e12, htok0]
        rfl
      · rw [e12, htok0]
        rfl
    | false =>
      cases hrf : prf with
      | false =>
        exfalso
        simp only [mxjson_token, mxjson_parser_t.count,
          Option.getD_some, Option.getD_none, hcond, hrf,
          Bool.false_eq_true, if_false, List.length_nil,
          if_pos (Nat.zero_le 1)] at hok
      | true =>
        have hm2 : 0 + 1 + 1 ≤ Nat.max (0 + 1 + 1) pic :=
          Nat.le_max_left _ _
        have hmne : Nat.max (0 + 1 + 1) pic ≠ 0 := by omega
        have heq : mxjson_token
            { json := pj, unparsed := pu, idx := 0, tokens := none,
              current_parent := 0, init_count := pic, init_tokens := pit,
              resize_fn := true } =
            (true,
             let q : mxjson_parser_t :=
               { json := pj, unparsed := pu, idx := 0 + 1,
                 tokens := some ((([] : List mxjson_token_t) ++
                   List.replicate (Nat.max (0 + 1 + 1) pic -
                     ([] : List mxjson_token_t).length) default).set 0
                       default),
                 current_parent := 0, init_count := pic,
                 init_tokens := pit, resize_fn := true };
             let q1 := q.setTok q.idx { parent := q.current_parent };
             q1.setTok q.current_parent
               { q1.tok q.current_parent with
                 str := (q1.tok q.current_parent).str + 1 }) := by
          simp only [mxjson_token, mxjson_parser_t.count,
            mxjson_parser_t.setTok, mxjson_resize, Option.getD_some,
            Option.getD_none, hcond, Bool.false_eq_true, if_false,
            if_true, List.length_nil, if_pos (Nat.zero_le 1),
            if_pos hmne, eq_self_iff_true]
        rw [heq]
        have hlr : ((([] : List mxjson_token_t) ++
            List.replicate (Nat.max (0 + 1 + 1) pic -
              ([] : List mxjson_token_t).length) default).set 0
                default).length = Nat.max (0 + 1 + 1) pic := by
          simp
        have hcom := mxjson_token_commit
          { json := pj, unparsed := pu, idx := 0 + 1,
            tokens := some ((([] : List mxjson_token_t) ++
              List.replicate (Nat.max (0 + 1 + 1) pic -
                ([] : List mxjson_token_t).length) default).set 0 default),
            current_parent := 0, init_count := pic, init_tokens := pit,
            resize_fn := true }
          ((([] : List mxjson_token_t) ++
            List.replicate (Nat.max (0 + 1 + 1) pic -
              ([] : List mxjson_token_t).length) default).set 0 default)
          rfl
          (show 0 + 1 < ((([] : List mxjson_token_t) ++
            List.replicate (Nat.max (0 + 1 + 1) pic -
              ([] : List mxjson_token_t).length) default).set 0
                default).length from by rw [hlr]; omega)
          (show 0 < 0 + 1 from by omega)
        obtain ⟨e1, e2, e3, e4, e5, e6, e7, ⟨l2, e8, e9⟩, e10, e11, e12⟩ :=
          hcom
        have htok0 :
            ({ json := pj, unparsed := pu, idx := 0 + 1,
               tokens := some ((([] : List mxjson_token_t) ++
                 List.replicate (Nat.max (0 + 1 + 1) pic -
                   ([] : List mxjson_token_t).length) default).set 0
                     default),
               current_parent := 0, init_count := pic, init_tokens := pit,
               resize_fn := true } : mxjson_parser_t).tok 0 = default := by
          rw [mxjson_parser_t.tok]
          simp only [Option.getD_some]
          have : (([] : List mxjson_token_t) ++
              List.replicate (Nat.max (0 + 1 + 1) pic -
                ([] : List mxjson_token_t).length) default) =
              List.replicate (Nat.max (0 + 1 + 1) pic) default := by
            simp
          rw [this]
          cases hm : Nat.max (0 + 1 + 1) pic with
          | zero => omega
          | succ m => simp [List.replicate_succ]
        refine ⟨e1, ⟨l2, e8, by rw [e9, hlr]; omega⟩, e2, e3, e4, e10,
          ?_, ?_⟩
        · rw [e12, htok0]
          rfl
        · rw [e12, htok0]
          rfl

/-- Frame specification of mxjson_parse_name: only the name fields of the
current token change. -/
theorem mxjson_parse_name_spec (p : mxjson_parser_t) (s0 : mxstr)
    (p' : mxjson_parser_t) (s' : mxstr) (hb : p.idx < p.count)
    (h : mxjson_parse_name p s0 = (true, p', s')) :
    p'.idx = p.idx ∧ p'.json = p.json ∧
    p'.current_parent = p.current_parent ∧ p'.count = p.count ∧
    (∃ l', p'.tokens = some l') ∧
    (∀ j, j ≠ p.idx → p'.tok j = p.tok j) ∧
    (p'.tok p.idx).parent = (p.tok p.idx).parent ∧
    (p'.tok p.idx).value_type = (p.tok p.idx).value_type ∧
    (p'.tok p.idx).str = (p.tok p.idx).str ∧
    (p'.tok p.idx).str_size = (p.tok p.idx).str_size := by
  rcases hps : mxjson_parse_string s0 with ⟨ok1, s1, nm, esc⟩
  simp only [mxjson_parse_name, hps] at h
  cases ok1 with
  | false => simp at h
  | true =>
    simp only [if_true] at h
    rcases hcc : mxstr_consume_char (fun c => c = 58)
        (mxjson_consume_ws s1) 0 with ⟨ok2, s2, c2⟩
    simp only [hcc] at h
    cases ok2 with
    | false => simp at h
    | true =>
      simp only [if_true, Prod.mk.injEq, true_and] at h
      obtain ⟨hp', hs'⟩ := h
      subst hp'
      have hset := tok_setTok_self p p.idx
        { p.tok p.idx with
          name := mxstr_substr_offset p.jsonStr nm, name_size := nm.len,
          name_esc := esc } hb
      refine ⟨rfl, rfl, rfl, setTok_count _ _ _, ⟨_, rfl⟩,
        fun j hj => tok_setTok_ne _ _ _ _ hj, ?_, ?_, ?_, ?_⟩ <;>
        rw [hset]

theorem tok_cp_update (p1 : mxjson_parser_t) (n j : Nat) :
    ({ p1 with current_parent := n } : mxjson_parser_t).tok j = p1.tok j :=
  rfl

theorem count_cp_update (p1 : mxjson_parser_t) (n : Nat) :
    ({ p1 with current_parent := n } : mxjson_parser_t).count = p1.count :=
  rfl

theorem tok_setTok_setTok_self (p : mxjson_parser_t) (i : Nat)
    (a b : mxjson_token_t) (h : i < p.count) :
    ((p.setTok i a).setTok i b).tok i = b := by
  rw [setTok_setTok]
  exact tok_setTok_self p i b h

/-- Frame specification of mxjson_parse_value on success: only the current
token changes, its parent is preserved, and the current parent either
stays (a scalar value was parsed) or moves to the current token (a
container was opened, leaving its children and next fields untouched). -/
theorem mxjson_parse_value_spec (p : mxjson_parser_t) (s0 : mxstr)
    (p' : mxjson_parser_t) (s' : mxstr) (hb : p.idx < p.count)
    (hsome : ∃ l, p.tokens = some l)
    (h : mxjson_parse_value p s0 = (true, p', s')) :
    p'.idx = p.idx ∧ p'.json = p.json ∧ p'.count = p.count ∧
    (∃ l', p'.tokens = some l') ∧
    (∀ j, j ≠ p.idx → p'.tok j = p.tok j) ∧
    (p'.tok p.idx).parent = (p.tok p.idx).parent ∧
    ((p'.current_parent = p.current_parent ∧
      ¬((p'.tok p.idx).value_type = mxjson_type.OBJECT ∨
        (p'.tok p.idx).value_type = mxjson_type.ARRAY)) ∨
     (p'.current_parent = p.idx ∧
      ((p'.tok p.idx).value_type = mxjson_type.OBJECT ∨
       (p'.tok p.idx).value_type = mxjson_type.ARRAY) ∧
      (p'.tok p.idx).str = (p.tok p.idx).str ∧
      (p'.tok p.idx).str_size = (p.tok p.idx).str_size)) := by
  obtain ⟨l0, hl0⟩ := hsome
  rcases hg : mxstr_getchar s0 with _ | c
  · simp only [mxjson_parse_value, hg] at h
    simp at h
  · simp only [mxjson_parse_value, hg] at h
    by_cases h34 : c = 34
    · -- string
      simp only [h34, if_pos rfl, if_true] at h
      rcases hps : mxjson_parse_string s0 with ⟨ok1, s1, v1, e1⟩
      simp only [hps] at h
      cases ok1 with
      | false => simp at h
      | true =>
        simp only [if_true, Prod.mk.injEq, true_and] at h
        obtain ⟨hp', hs'⟩ := h
        subst hp'
        refine ⟨rfl, rfl, by rw [setTok_count, setTok_count], ⟨_, rfl⟩,
          ?_, ?_, Or.inl ⟨rfl, ?_⟩⟩
        · intro j hj
          simp only [setTok_idx]
          rw [tok_setTok_ne _ _ _ _ hj, tok_setTok_ne _ _ _ _ hj]
        · simp only [setTok_idx]
          rw [tok_setTok_setTok_self _ _ _ _ hb, tok_setTok_self _ _ _ hb]
        · simp only [setTok_idx]
          rw [tok_setTok_setTok_self _ _ _ _ hb, tok_setTok_self _ _ _ hb]
          simp
    · simp only [if_neg h34] at h
      by_cases h123 : c = 123
      · -- object opened
        simp only [h123, if_pos rfl, if_true, Prod.mk.injEq, true_and] at h
        obtain ⟨hp', hs'⟩ := h
        subst hp'
        refine ⟨rfl, rfl, by rw [count_cp_update, setTok_count], ⟨_, rfl⟩,
          ?_, ?_, Or.inr ⟨rfl, ?_, ?_, ?_⟩⟩
        · intro j hj
          rw [tok_cp_update]
          exact tok_setTok_ne _ _ _ _ hj
        · rw [tok_cp_update, tok_setTok_self _ _ _ hb]
        · rw [tok_cp_update, tok_setTok_self _ _ _ hb]
          exact Or.inl rfl
        · rw [tok_cp_update, tok_setTok_self _ _ _ hb]
        · rw [tok_cp_update, tok_setTok_self _ _ _ hb]
      · simp only [if_neg h123] at h
        by_cases h91 : c = 91
        · -- array opened
          simp only [h91, if_pos rfl, if_true, Prod.mk.injEq, true_and]
            at h
          obtain ⟨hp', hs'⟩ := h
          subst hp'
          refine ⟨rfl, rfl, by rw [count_cp_update, setTok_count],
            ⟨_, rfl⟩, ?_, ?_, Or.inr ⟨rfl, ?_, ?_, ?_⟩⟩
          · intro j hj
            rw [tok_cp_update]
            exact tok_setTok_ne _ _ _ _ hj
          · rw [tok_cp_update, tok_setTok_self _ _ _ hb]
          · rw [tok_cp_update, tok_setTok_self _ _ _ hb]
            exact Or.inr rfl
          · rw [tok_cp_update, tok_setTok_self _ _ _ hb]
          · rw [tok_cp_update, tok_setTok_self _ _ _ hb]
        · simp only [if_neg h91] at h
          by_cases h116 : c = 116
          · -- true literal
            simp only [h116, if_pos rfl, if_true, Prod.mk.injEq] at h
            obtain ⟨hok1, hp', hs'⟩ := h
            subst hp'
            refine ⟨rfl, rfl, by rw [setTok_count], ⟨_, rfl⟩,
              fun j hj => tok_setTok_ne _ _ _ _ hj,
              by rw [tok_setTok_self _ _ _ hb],
              Or.inl ⟨rfl, by rw [tok_setTok_self _ _ _ hb]; simp⟩⟩
          · simp only [if_neg h116] at h
            by_cases h102 : c = 102
            · -- false literal
              simp only [h102, if_pos rfl, if_true, Prod.mk.injEq] at h
              obtain ⟨hok1, hp', hs'⟩ := h
              subst hp'
              refine ⟨rfl, rfl, by rw [setTok_count], ⟨_, rfl⟩,
                fun j hj => tok_setTok_ne _ _ _ _ hj,
                by rw [tok_setTok_self _ _ _ hb],
                Or.inl ⟨rfl, by rw [tok_setTok_self _ _ _ hb]; simp⟩⟩
            · simp only [if_neg h102] at h
              by_cases h110 : c = 110
              · -- null literal
                simp only [h110, if_pos rfl, if_true, Prod.mk.injEq] at h
                obtain ⟨hok1, hp', hs'⟩ := h
                subst hp'
                refine ⟨rfl, rfl, by rw [setTok_count], ⟨_, rfl⟩,
                  fun j hj => tok_setTok_ne _ _ _ _ hj,
                  by rw [tok_setTok_self _ _ _ hb],
                  Or.inl ⟨rfl, by rw [tok_setTok_self _ _ _ hb]; simp⟩⟩
              · simp only [if_neg h110] at h
                by_cases hnum : (c = 45 || isdigit c) = true
                · -- number
                  rw [if_pos hnum] at h
                  rcases hpn : mxjson_parse_number s0 with ⟨okn, sn, vn⟩
                  simp only [hpn] at h
                  cases okn with
                  | false => simp at h
                  | true =>
                    simp only [if_true, Prod.mk.injEq, true_and] at h
                    obtain ⟨hp', hs'⟩ := h
                    subst hp'
                    refine ⟨rfl, rfl, by rw [setTok_count, setTok_count],
                      ⟨_, rfl⟩, ?_, ?_, Or.inl ⟨rfl, ?_⟩⟩
                    · intro j hj
                      simp only [setTok_idx]
                      rw [tok_setTok_ne _ _ _ _ hj,
                        tok_setTok_ne _ _ _ _ hj]
                    · simp only [setTok_idx]
                      rw [tok_setTok_setTok_self _ _ _ _ hb,
                        tok_setTok_self _ _ _ hb]
                    · simp only [setTok_idx]
                      rw [tok_setTok_setTok_self _ _ _ _ hb,
                        tok_setTok_self _ _ _ hb]
                      simp
                · rw [if_neg hnum] at h
                  simp at h

theorem count_of_some (p : mxjson_parser_t) (l : List mxjson_token_t)
    (h : p.tokens = some l) : p.count = l.length := by
  rw [mxjson_parser_t.count, h]
  rfl

/-- Frame specification of the member advance (comma, token allocation and
optional member name) on success. -/
theorem mxjson_parse_next_spec (p : mxjson_parser_t) (s : mxstr)
    (par : Nat) (p' : mxjson_parser_t) (s' : mxstr)
    (l : List mxjson_token_t) (htk : p.tokens = some l)
    (hbnd : p.idx < l.length) (hcple : p.current_parent ≤ p.idx)
    (h : mxjson_parse_next p s par = (true, p', s')) :
    p'.idx = p.idx + 1 ∧
    (∃ l', p'.tokens = some l' ∧ p.idx + 1 < l'.length) ∧
    p'.json = p.json ∧ p'.current_parent = p.current_parent ∧
    (p'.tok (p.idx + 1)).parent = p.current_parent ∧
    (p'.tok (p.idx + 1)).value_type = mxjson_type.NONE ∧
    (p'.tok (p.idx + 1)).str = 0 ∧ (p'.tok (p.idx + 1)).str_size = 0 ∧
    (∀ j, j ≤ p.idx → j ≠ p.current_parent → p'.tok j = p.tok j) ∧
    p'.tok p.current_parent =
      { p.tok p.current_parent with
        str := (p.tok p.current_parent).str + 1 } := by
  have main : ∀ s1 : mxstr,
      (if (mxjson_token p).1 then
        (if ((mxjson_token p).2.tok par).value_type = mxjson_type.OBJECT
         then mxjson_parse_name (mxjson_token p).2 (mxjson_consume_ws s1)
         else (true, (mxjson_token p).2, s1))
       else (false, (mxjson_token p).2, s1)) = (true, p', s') →
      p'.idx = p.idx + 1 ∧
      (∃ l', p'.tokens = some l' ∧ p.idx + 1 < l'.length) ∧
      p'.json = p.json ∧ p'.current_parent = p.current_parent ∧
      (p'.tok (p.idx + 1)).parent = p.current_parent ∧
      (p'.tok (p.idx + 1)).value_type = mxjson_type.NONE ∧
      (p'.tok (p.idx + 1)).str = 0 ∧ (p'.tok (p.idx + 1)).str_size = 0 ∧
      (∀ j, j ≤ p.idx → j ≠ p.current_parent → p'.tok j = p.tok j) ∧
      p'.tok p.current_parent =
        { p.tok p.current_parent with
          str := (p.tok p.current_parent).str + 1 } := by
    intro s1 hmain
    rcases htok : mxjson_token p with ⟨okt, pt⟩
    rw [htok] at hmain
    cases okt with
    | false => simp at hmain
    | true =>
      simp only [if_true] at hmain
      obtain ⟨f1, ⟨l1, f2a, f2b⟩, f3, f4, f5, f6, f7, f8, f9, f10, f11⟩ :=
        mxjson_token_some_spec p l htk hbnd hcple (by rw [htok])
      have heqp : (mxjson_token p).2 = pt := by rw [htok]
      rw [heqp] at f1 f2a f3 f4 f5 f9 f10 f11
      by_cases hobj : (pt.tok par).value_type = mxjson_type.OBJECT
      · rw [if_pos hobj] at hmain
        have hptb : pt.idx < pt.count := by
          rw [f1, count_of_some pt l1 f2a]
          exact f2b
        obtain ⟨g1, g2, g3, g4, ⟨l2, g5⟩, g6, g7, g8, g9, g10⟩ :=
          mxjson_parse_name_spec pt (mxjson_consume_ws s1) p' s' hptb hmain
        have hne1 : ∀ j, j ≤ p.idx → j ≠ pt.idx := by
          intro j hj
          rw [f1]
          omega
        rw [f1] at g7 g8 g9 g10
        have hc1 := count_of_some p' l2 g5
        have hc2 := count_of_some pt l1 f2a
        refine ⟨g1.trans f1, ⟨l2, g5, by omega⟩, g2.trans f3, g3.trans f5,
          ?_, ?_, ?_, ?_, ?_, ?_⟩
        · rw [g7, f9]
        · rw [g8, f9]
        · rw [g9, f9]
        · rw [g10, f9]
        · intro j hj hcpj
          exact (g6 j (hne1 j hj)).trans (f10 j hj hcpj)
        · exact (g6 _ (hne1 _ hcple)).trans f11
      · rw [if_neg hobj] at hmain
        simp only [Prod.mk.injEq, true_and] at hmain
        obtain ⟨hp', hs'⟩ := hmain
        subst hp'
        refine ⟨f1, ⟨l1, f2a, f2b⟩, f3, f5, ?_, ?_, ?_, ?_, f10, f11⟩ <;>
          rw [f9]
  simp only [mxjson_parse_next] at h
  by_cases hpe : par = p.idx
  · rw [if_pos hpe] at h
    exact main _ h
  · rw [if_neg hpe] at h
    rcases hcc : mxstr_consume_char (fun c => c = 44)
        (mxjson_consume_ws s) 0 with ⟨b, s2, c2⟩
    rw [hcc] at h
    cases b with
    | false => simp at h
    | true => exact main _ h

theorem Chain_root {T : Nat → mxjson_token_t} {d c : Nat}
    (h : Chain T d c) : (T 1).parent = 0 := by
  induction h with
  | top hp => exact hp
  | step d c h1 h2 hp hty hsz hch hwalk hup ih => exact ih

theorem ChainFrom_congr_le {T T' : Nat → mxjson_token_t} {c i B : Nat}
    (h : ChainFrom T c i) :
    c ≤ B → (∀ j, j ≤ B → (T j).parent ≤ B) →
    (∀ j, j ≤ B → (T' j).parent = (T j).parent) → ChainFrom T' c i := by
  induction h with
  | here c => intro _ _ _; exact ChainFrom.here c
  | up c i h ih =>
    intro hc hdec hpar
    refine ChainFrom.up c i ?_
    rw [hpar c hc]
    exact ih (hdec c hc) hdec hpar

theorem Chain_inv_step {T : Nat → mxjson_token_t} {d c : Nat}
    (h : Chain T d c) (hc : c ≠ 0) :
    1 ≤ c ∧ c < d ∧ (T d).parent = c ∧
    ((T c).value_type = mxjson_type.OBJECT ∨
     (T c).value_type = mxjson_type.ARRAY) ∧
    (T c).str_size = 0 ∧ 1 ≤ (T c).str ∧
    walksTo T c (c + 1) ((T c).str - 1) d = true ∧
    Chain T c ((T c).parent) := by
  cases h with
  | top hp => exact absurd rfl hc
  | step d c h1 h2 hp hty hsz hch hwalk hup =>
    exact ⟨h1, h2, hp, hty, hsz, hch, hwalk, hup⟩

theorem tok_step_congr {T T' : Nat → mxjson_token_t} {j : Nat}
    (h : T' j = T j) : tok_step T' j = tok_step T j := by
  rw [tok_step, tok_step, h]

/-- Closing one container during ascent: writing its next field preserves
the whole invariant pack and re-anchors the chain one level up, with the
closed container as the new front. -/
theorem mxjson_ascend_close_step (p : mxjson_parser_t) (c : Nat)
    (l : List mxjson_token_t)
    (htk : p.tokens = some l) (hbnd : p.idx < l.length)
    (hs0v : (p.tok 0).value_type = mxjson_type.NONE)
    (hs0p : (p.tok 0).parent = 0)
    (hPB : ParentBounds p.tok p.idx)
    (hCO : ClosedOk p.tok p.idx (p.idx + 1))
    (hOC : OpenOnChain p.tok p.idx c)
    (hcont : (p.tok c).value_type = mxjson_type.OBJECT ∨
             (p.tok c).value_type = mxjson_type.ARRAY)
    (hchup : Chain p.tok c ((p.tok c).parent))
    (hc1 : 1 ≤ c) (hcn : c ≤ p.idx)
    (hwalk : walksTo ((p.setTok c
        { p.tok c with str_size := p.idx + 1 }).tok) c (c + 1)
        ((p.tok c).str) (p.idx + 1) = true) :
    ∃ l', (p.setTok c { p.tok c with str_size := p.idx + 1 }).tokens =
        some l' ∧ l'.length = l.length ∧
    (p.setTok c { p.tok c with str_size := p.idx + 1 }).idx = p.idx ∧
    (p.setTok c { p.tok c with str_size := p.idx + 1 }).json = p.json ∧
    (p.setTok c { p.tok c with str_size := p.idx + 1 }).current_parent =
      p.current_parent ∧
    (((p.setTok c { p.tok c with str_size := p.idx + 1 }).tok
      0).value_type = mxjson_type.NONE) ∧
    (((p.setTok c { p.tok c with str_size := p.idx + 1 }).tok 0).parent
      = 0) ∧
    ParentBounds ((p.setTok c
      { p.tok c with str_size := p.idx + 1 }).tok) p.idx ∧
    ClosedOk ((p.setTok c
      { p.tok c with str_size := p.idx + 1 }).tok) p.idx (p.idx + 1) ∧
    OpenOnChain ((p.setTok c
      { p.tok c with str_size := p.idx + 1 }).tok) p.idx
      ((p.tok c).parent) ∧
    FrontOk ((p.setTok c
      { p.tok c with str_size := p.idx + 1 }).tok) p.idx c
      ((p.tok c).parent) := by
  have hcZ : c ≠ 0 := by omega
  have hcount : p.count = l.length := count_of_some p l htk
  have hparlt : (p.tok c).parent < c := (Chain_lt hchup).1
  have hTc : (p.setTok c { p.tok c with str_size := p.idx + 1 }).tok c =
      { p.tok c with str_size := p.idx + 1 } :=
    tok_setTok_self _ _ _ (by omega)
  have hTj : ∀ j, j ≠ c →
      (p.setTok c { p.tok c with str_size := p.idx + 1 }).tok j =
      p.tok j :=
    fun j hj => tok_setTok_ne _ _ _ _ hj
  have hpar_all : ∀ j,
      ((p.setTok c { p.tok c with str_size := p.idx + 1 }).tok j).parent =
      (p.tok j).parent := by
    intro j
    by_cases hj : j = c
    · subst hj
      rw [hTc]
    · rw [hTj j hj]
  have hanchor := Chain_anchor_sz hchup
  refine ⟨l.set c { p.tok c with str_size := p.idx + 1 }, ?_, by simp,
    rfl, rfl, rfl, ?_, ?_, ?_, ?_, ?_, ?_⟩
  · show (p.setTok _ _).tokens = _
    unfold mxjson_parser_t.setTok
    rw [htk]
    rfl
  · rw [hTj 0 (by omega)]
    exact hs0v
  · rw [hTj 0 (by omega)]
    exact hs0p
  · intro i h2i hin
    rw [hpar_all i]
    exact hPB i h2i hin
  · -- ClosedOk
    intro i hi1 hin hcontI hszI
    by_cases hic : i = c
    · subst hic
      rw [hTc] at hcontI hszI ⊢
      constructor
      · show p.idx + 1 ≤ p.idx + 1
        omega
      · show walksTo _ i (i + 1) ((p.tok i).str) (p.idx + 1) = true
        exact hwalk
    · rw [hTj i hic] at hcontI hszI ⊢
      obtain ⟨hb1, hw1⟩ := hCO i hi1 hin hcontI hszI
      refine ⟨hb1, ?_⟩
      refine walksTo_write_ne ?_ (fun j hj => hTj j hj) hw1
      rcases hanchor with hz | ⟨_, hsz', _⟩
      · rw [hz]
        omega
      · intro he
        rw [he] at hsz'
        exact hszI hsz'
  · -- OpenOnChain
    intro i hi1 hin hcontI hszI
    have hic : i ≠ c := by
      intro he
      subst he
      rw [hTc] at hszI
      have : p.idx + 1 = 0 := hszI
      omega
    rw [hTj i hic] at hcontI hszI
    have hcf := hOC i hi1 hin hcontI hszI
    rcases ChainFrom_cases hcf with he | hup
    · exact absurd he hic
    · exact ChainFrom_parent_congr hpar_all hup
  · -- FrontOk with the closed container as the new front
    refine ⟨?_, ?_, hc1, hcn⟩
    · exact Chain_congr hchup (fun j hj => hTj j (by omega)) (hpar_all c)
    · rw [tok_step, hTc]
      rw [if_pos hcont]

/-- The ascent loop preserves the invariant pack: however many containers
it closes, the store keeps its shape, parents and closed walks stay valid,
open containers sit on the (re-anchored) chain, and the front condition
holds at the point where the ascent stops. -/
theorem mxjson_ascend_go_spec :
    ∀ (fuel : Nat) (p : mxjson_parser_t) (s : mxstr) (c : Nat)
      (l : List mxjson_token_t),
    p.tokens = some l → p.idx < l.length →
    (p.tok 0).value_type = mxjson_type.NONE → (p.tok 0).parent = 0 →
    ParentBounds p.tok p.idx →
    ClosedOk p.tok p.idx (p.idx + 1) →
    OpenOnChain p.tok p.idx c →
    ((∃ f, FrontOk p.tok p.idx f c) ∨ EmptyOpen p.tok p.idx c) →
    ∃ l', (mxjson_ascend_go fuel p s c).1.tokens = some l' ∧
      l'.length = l.length ∧
      (mxjson_ascend_go fuel p s c).1.idx = p.idx ∧
      (mxjson_ascend_go fuel p s c).1.json = p.json ∧
      (mxjson_ascend_go fuel p s c).1.current_parent =
        p.current_parent ∧
      ((mxjson_ascend_go fuel p s c).1.tok 0).value_type =
        mxjson_type.NONE ∧
      ((mxjson_ascend_go fuel p s c).1.tok 0).parent = 0 ∧
      ParentBounds (mxjson_ascend_go fuel p s c).1.tok p.idx ∧
      ClosedOk (mxjson_ascend_go fuel p s c).1.tok p.idx (p.idx + 1) ∧
      OpenOnChain (mxjson_ascend_go fuel p s c).1.tok p.idx
        (mxjson_ascend_go fuel p s c).2.2 ∧
      ((∃ f, FrontOk (mxjson_ascend_go fuel p s c).1.tok p.idx f
          (mxjson_ascend_go fuel p s c).2.2) ∨
        EmptyOpen (mxjson_ascend_go fuel p s c).1.tok p.idx
          (mxjson_ascend_go fuel p s c).2.2) := by
  intro fuel
  induction fuel with
  | zero =>
    intro p s c l htk hbnd hs0v hs0p hPB hCO hOC hfr
    rw [mxjson_ascend_go]
    exact ⟨l, htk, rfl, rfl, rfl, rfl, hs0v, hs0p, hPB, hCO, hOC, hfr⟩
  | succ fuel ih =>
    intro p s c l htk hbnd hs0v hs0p hPB hCO hOC hfr
    have hstay : ∀ s2 : mxstr,
        ∃ l', ((p, s2, c) :
            mxjson_parser_t × mxstr × Nat).1.tokens = some l' ∧
          l'.length = l.length ∧
          (p, s2, c).1.idx = p.idx ∧ (p, s2, c).1.json = p.json ∧
          (p, s2, c).1.current_parent = p.current_parent ∧
          ((p, s2, c).1.tok 0).value_type = mxjson_type.NONE ∧
          ((p, s2, c).1.tok 0).parent = 0 ∧
          ParentBounds (p, s2, c).1.tok p.idx ∧
          ClosedOk (p, s2, c).1.tok p.idx (p.idx + 1) ∧
          OpenOnChain (p, s2, c).1.tok p.idx (p, s2, c).2.2 ∧
          ((∃ f, FrontOk (p, s2, c).1.tok p.idx f (p, s2, c).2.2) ∨
            EmptyOpen (p, s2, c).1.tok p.idx (p, s2, c).2.2) :=
      fun s2 =>
        ⟨l, htk, rfl, rfl, rfl, rfl, hs0v, hs0p, hPB, hCO, hOC, hfr⟩
    have hrec : ∀ s2 : mxstr,
        (((p.tok c).value_type = mxjson_type.OBJECT ∨
          (p.tok c).value_type = mxjson_type.ARRAY)) →
        ∃ l', (mxjson_ascend_go fuel
            (p.setTok c { p.tok c with str_size := p.idx + 1 }) s2
            ((p.tok c).parent)).1.tokens = some l' ∧
          l'.length = l.length ∧
          (mxjson_ascend_go fuel
            (p.setTok c { p.tok c with str_size := p.idx + 1 }) s2
            ((p.tok c).parent)).1.idx = p.idx ∧
          (mxjson_ascend_go fuel
            (p.setTok c { p.tok c with str_size := p.idx + 1 }) s2
            ((p.tok c).parent)).1.json = p.json ∧
          (mxjson_ascend_go fuel
            (p.setTok c { p.tok c with str_size := p.idx + 1 }) s2
            ((p.tok c).parent)).1.current_parent = p.current_parent ∧
          ((mxjson_ascend_go fuel
            (p.setTok c { p.tok c with str_size := p.idx + 1 }) s2
            ((p.tok c).parent)).1.tok 0).value_type =
              mxjson_type.NONE ∧
          ((mxjson_ascend_go fuel
            (p.setTok c { p.tok c with str_size := p.idx + 1 }) s2
            ((p.tok c).parent)).1.tok 0).parent = 0 ∧
          ParentBounds (mxjson_ascend_go fuel
            (p.setTok c { p.tok c with str_size := p.idx + 1 }) s2
            ((p.tok c).parent)).1.tok p.idx ∧
          ClosedOk (mxjson_ascend_go fuel
            (p.setTok c { p.tok c with str_size := p.idx + 1 }) s2
            ((p.tok c).parent)).1.tok p.idx (p.idx + 1) ∧
          OpenOnChain (mxjson_ascend_go fuel
            (p.setTok c { p.tok c with str_size := p.idx + 1 }) s2
            ((p.tok c).parent)).1.tok p.idx
            (mxjson_ascend_go fuel
              (p.setTok c { p.tok c with str_size := p.idx + 1 }) s2
              ((p.tok c).parent)).2.2 ∧
          ((∃ f, FrontOk (mxjson_ascend_go fuel
              (p.setTok c { p.tok c with str_size := p.idx + 1 }) s2
              ((p.tok c).parent)).1.tok p.idx f
              (mxjson_ascend_go fuel
                (p.setTok c { p.tok c with str_size := p.idx + 1 }) s2
                ((p.tok c).parent)).2.2) ∨
            EmptyOpen (mxjson_ascend_go fuel
              (p.setTok c { p.tok c with str_size := p.idx + 1 }) s2
              ((p.tok c).parent)).1.tok p.idx
              (mxjson_ascend_go fuel
                (p.setTok c { p.tok c with str_size := p.idx + 1 }) s2
                ((p.tok c).parent)).2.2) := by
      intro s2 hcont
      -- first build the invariant pack for the written state
      have hcZ : c ≠ 0 := by
        intro he
        rw [he, hs0v] at hcont
        rcases hcont with h | h <;> exact absurd h (by decide)
      have hclose : ∃ hchup : Chain p.tok c ((p.tok c).parent),
          1 ≤ c ∧ c ≤ p.idx ∧
          walksTo ((p.setTok c
            { p.tok c with str_size := p.idx + 1 }).tok) c (c + 1)
            ((p.tok c).str) (p.idx + 1) = true := by
        have hTj : ∀ j, j ≠ c →
            (p.setTok c { p.tok c with str_size := p.idx + 1 }).tok j =
            p.tok j :=
          fun j hj => tok_setTok_ne _ _ _ _ hj
        rcases hfr with ⟨f, hch, hstep, hf1, hfn⟩ |
          ⟨hcn', htyE, hst0E, hsz0E, hchE⟩
        · obtain ⟨h1, h2, hp2, htyc, hszc, hchc, hwalkc, hupc⟩ :=
            Chain_inv_step hch hcZ
          have hparltc : (p.tok c).parent < c := (Chain_lt hupc).1
          have hw1 : walksTo ((p.setTok c
              { p.tok c with str_size := p.idx + 1 }).tok) c (c + 1)
              ((p.tok c).str - 1) f = true :=
            walksTo_write_ne (by omega) hTj hwalkc
          have hfne : f ≠ c := by omega
          have hw2 := walksTo_snoc hw1
            (show f < p.idx + 1 from by omega)
            (by rw [hTj f hfne]; exact hp2)
            (by rw [tok_step_congr (hTj f hfne)]; exact hstep)
          have hs1 : (p.tok c).str - 1 + 1 = (p.tok c).str := by omega
          rw [hs1] at hw2
          exact ⟨hupc, h1, by omega, hw2⟩
        · have h1 : 1 ≤ c := by
            have := Chain_lt hchE
            omega
          refine ⟨?_, h1, by omega, ?_⟩
          · rw [hcn']
            exact hchE
          · rw [hcn', hst0E, walksTo]
            simp
      obtain ⟨hchup, hc1, hcn, hwalk⟩ := hclose
      obtain ⟨l1, k1, k2, k3, k4, k5, k6, k7, k8, k9, k10, k11⟩ :=
        mxjson_ascend_close_step p c l htk hbnd hs0v hs0p hPB hCO hOC
          hcont hchup hc1 hcn hwalk
      obtain ⟨l2, m1, m2, m3, m4, m5, m6, m7, m8, m9, m10, m11⟩ :=
        ih (p.setTok c { p.tok c with str_size := p.idx + 1 }) s2
          ((p.tok c).parent) l1 k1 (by rw [k3, k2]; exact hbnd) k6 k7
          (by rw [k3]; exact k8) (by rw [k3]; exact k9)
          (by rw [k3]; exact k10) (by rw [k3]; exact Or.inl ⟨c, k11⟩)
      refine ⟨l2, m1, m2.trans k2, m3.trans k3, m4.trans k4,
        m5.trans k5, m6, m7, ?_, ?_, ?_, ?_⟩
      · rw [← k3]
        exact m8
      · rw [← k3]
        exact m9
      · rw [← k3]
        exact m10
      · rw [← k3]
        exact m11
    by_cases hA : (p.tok c).value_type = mxjson_type.ARRAY
    · rcases hcons : mxstr_consume_char (fun x => x = 93)
          (mxjson_consume_ws s) 0 with ⟨b, s2, cc⟩
      cases b with
      | false =>
        have heq : mxjson_ascend_go (fuel + 1) p s c = (p, s2, c) := by
          rw [mxjson_ascend_go]
          simp only [if_pos hA, hcons, Bool.false_eq_true, if_false]
        rw [heq]
        exact hstay s2
      | true =>
        have heq : mxjson_ascend_go (fuel + 1) p s c =
            mxjson_ascend_go fuel
              (p.setTok c { p.tok c with str_size := p.idx + 1 }) s2
              ((p.tok c).parent) := by
          rw [mxjson_ascend_go]
          simp only [if_pos hA, hcons, if_true]
        rw [heq]
        exact hrec s2 (Or.inr hA)
    · by_cases hO : (p.tok c).value_type = mxjson_type.OBJECT
      · rcases hcons : mxstr_consume_char (fun x => x = 125)
            (mxjson_consume_ws s) 0 with ⟨b, s2, cc⟩
        cases b with
        | false =>
          have heq : mxjson_ascend_go (fuel + 1) p s c = (p, s2, c) := by
            rw [mxjson_ascend_go]
            simp only [if_neg hA, if_pos hO, hcons, Bool.false_eq_true,
              if_false]
          rw [heq]
          exact hstay s2
        | true =>
          have heq : mxjson_ascend_go (fuel + 1) p s c =
              mxjson_ascend_go fuel
                (p.setTok c { p.tok c with str_size := p.idx + 1 }) s2
                ((p.tok c).parent) := by
            rw [mxjson_ascend_go]
            simp only [if_neg hA, if_pos hO, hcons, if_true]
          rw [heq]
          exact hrec s2 (Or.inl hO)
      · have heq : mxjson_ascend_go (fuel + 1) p s c =
            (p, mxjson_consume_ws s, c) := by
          rw [mxjson_ascend_go]
          simp only [if_neg hA, if_neg hO, Bool.false_eq_true, if_false]
        rw [heq]
        exact hstay (mxjson_consume_ws s)

theorem tok_step_congr_fields {T T' : Nat → mxjson_token_t} {j : Nat}
    (h1 : (T' j).value_type = (T j).value_type)
    (h2 : (T' j).str_size = (T j).str_size) :
    tok_step T' j = tok_step T j := by
  rw [tok_step, tok_step, h1, h2]

theorem mxjson_parse_json_go_inv :
    ∀ (fuel : Nat) (p : mxjson_parser_t) (s : mxstr)
      (p' : mxjson_parser_t) (s' : mxstr),
    mxjson_parse_json_go fuel p s = (true, p', s') → LoopInv p →
    TreeOk p' := by
  intro fuel
  induction fuel with
  | zero =>
    intro p s p' s' h _
    rw [mxjson_parse_json_go] at h
    simp at h
  | succ fuel ih =>
    intro p s p' s' h hinv
    obtain ⟨⟨l, htk, hbnd⟩, hidx1, hs0v, hs0p, hpstr, hpssz, hchain, hPB,
      hCO, hOC⟩ := hinv
    rw [mxjson_parse_json_go] at h
    rcases hpv : mxjson_parse_value p (mxjson_consume_ws s) with
      ⟨ok1, p1, s2⟩
    rw [hpv] at h
    cases ok1 with
    | false => simp at h
    | true =>
      simp only [if_true] at h
      obtain ⟨v1, v2, v3, ⟨l1, v4⟩, v5, v6, v7⟩ :=
        mxjson_parse_value_spec p (mxjson_consume_ws s) p1 s2
          (by rw [count_of_some p l htk]; exact hbnd) ⟨l, htk⟩ hpv
      have hl1len : l1.length = l.length := by
        have c1 := count_of_some p1 l1 v4
        have c2 := count_of_some p l htk
        omega
      have hbnd1 : p1.idx < l1.length := by
        rw [v1, hl1len]
        exact hbnd
      have hpar1 : ∀ j, (p1.tok j).parent = (p.tok j).parent := by
        intro j
        by_cases hj : j = p.idx
        · subst hj
          exact v6
        · rw [v5 j hj]
      have hs0v1 : (p1.tok 0).value_type = mxjson_type.NONE := by
        rw [v5 0 (by omega)]
        exact hs0v
      have hs0p1 : (p1.tok 0).parent = 0 := by
        rw [v5 0 (by omega)]
        exact hs0p
      have hPB1 : ParentBounds p1.tok p.idx := by
        intro i h2 hle
        rw [hpar1 i]
        exact hPB i h2 hle
      have hfieldsne : ∀ j, j ≠ p.idx →
          (p1.tok j).parent = (p.tok j).parent ∧
          (p1.tok j).value_type = (p.tok j).value_type ∧
          (p1.tok j).str_size = (p.tok j).str_size := by
        intro j hj
        rw [v5 j hj]
        exact ⟨rfl, rfl, rfl⟩
      have hCO1 : ClosedOk p1.tok p.idx (p.idx + 1) := by
        intro i hi1 hin hcontI hszI
        by_cases hieq : i = p.idx
        · subst hieq
          exfalso
          rcases v7 with ⟨_, hnc⟩ | ⟨_, _, _, hss⟩
          · exact hnc hcontI
          · rw [hss, hpssz] at hszI
            exact hszI rfl
        · rw [v5 i hieq] at hcontI hszI ⊢
          obtain ⟨hb1, hw1⟩ := hCO i hi1 hin hcontI hszI
          refine ⟨by omega, ?_⟩
          refine walksTo_congr ?_ hw1
          intro j hj
          exact hfieldsne j (by omega)
      have hOC1 : OpenOnChain p1.tok p.idx p1.current_parent := by
        intro i hi1 hin hcontI hszI
        rcases v7 with ⟨hcp, hnc⟩ | ⟨hcp, hcont, _, _⟩
        · have hieq : i ≠ p.idx := by
            intro he
            subst he
            exact hnc hcontI
          rw [v5 i hieq] at hcontI hszI
          rw [hcp]
          exact ChainFrom_parent_congr hpar1 (hOC i hi1 hin hcontI hszI)
        · rw [hcp]
          by_cases hieq : i = p.idx
          · subst hieq
            exact ChainFrom.here _
          · rw [v5 i hieq] at hcontI hszI
            refine ChainFrom.up _ _ ?_
            have hfp : (p1.tok p.idx).parent = p.current_parent := by
              rw [hpar1]
              exact Chain_parent_front hchain
            rw [hfp]
            exact ChainFrom_parent_congr hpar1 (hOC i hi1 hin hcontI hszI)
      have hfront1 : (∃ f, FrontOk p1.tok p.idx f p1.current_parent) ∨
          EmptyOpen p1.tok p.idx p1.current_parent := by
        rcases v7 with ⟨hcp, hnc⟩ | ⟨hcp, hcont, hstr, hssz⟩
        · refine Or.inl ⟨p.idx, ?_, ?_, hidx1, le_refl _⟩
          · rw [hcp]
            exact Chain_congr hchain (fun j hj => v5 j (by omega)) v6
          · rw [tok_step, if_neg hnc]
        · refine Or.inr ⟨hcp, hcont, by rw [hstr]; exact hpstr,
            by rw [hssz]; exact hpssz, ?_⟩
          have hfp : (p1.tok p.idx).parent = p.current_parent := by
            rw [hpar1]
            exact Chain_parent_front hchain
          rw [hfp]
          exact Chain_congr hchain (fun j hj => v5 j (by omega)) v6
      -- ascend
      rcases hasc : mxjson_ascend p1 s2 with ⟨p2, s3, par⟩
      rw [hasc] at h
      have hpack : ∃ l2, p2.tokens = some l2 ∧ l2.length = l.length ∧
          p2.idx = p.idx ∧ p2.json = p.json ∧
          p2.current_parent = p1.current_parent ∧
          (p2.tok 0).value_type = mxjson_type.NONE ∧
          (p2.tok 0).parent = 0 ∧
          ParentBounds p2.tok p.idx ∧
          ClosedOk p2.tok p.idx (p.idx + 1) ∧
          OpenOnChain p2.tok p.idx par ∧
          ((∃ f, FrontOk p2.tok p.idx f par) ∨
            EmptyOpen p2.tok p.idx par) := by
        by_cases hcp0 : p1.current_parent = 0
        · have heq : mxjson_ascend p1 s2 = (p1, s2, p1.current_parent) := by
            rw [mxjson_ascend, if_neg (by simp [hcp0])]
          rw [heq] at hasc
          simp only [Prod.mk.injEq] at hasc
          obtain ⟨e1, e2, e3⟩ := hasc
          subst e1 e3
          exact ⟨l1, v4, hl1len, v1, v2, rfl, hs0v1, hs0p1, hPB1, hCO1,
            hOC1, hfront1⟩
        · have hgo : mxjson_ascend_go (s2.len + 1) p1 s2
              p1.current_parent = (p2, s3, par) := by
            rw [← hasc, mxjson_ascend, if_pos hcp0]
          obtain ⟨l2, m1, m2, m3, m4, m5, m6, m7, m8, m9, m10, m11⟩ :=
            mxjson_ascend_go_spec (s2.len + 1) p1 s2 p1.current_parent l1
              v4 hbnd1 hs0v1 hs0p1 (by rw [v1]; exact hPB1)
              (by rw [v1]; exact hCO1) (by rw [v1]; exact hOC1)
              (by rw [v1]; exact hfront1)
          rw [hgo] at m1 m3 m4 m5 m6 m7 m8 m9 m10 m11
          refine ⟨l2, m1, by rw [m2, hl1len], ?_, ?_, m5, m6, m7, ?_,
            ?_, ?_, ?_⟩
          · show p2.idx = p.idx
            rw [← v1]
            exact m3
          · show p2.json = p.json
            rw [← v2]
            exact m4
          · show ParentBounds p2.tok p.idx
            rw [← v1]
            exact m8
          · show ClosedOk p2.tok p.idx (p.idx + 1)
            rw [← v1]
            exact m9
          · show OpenOnChain p2.tok p.idx par
            rw [← v1]
            exact m10
          · show _ ∨ _
            rw [← v1]
            exact m11
      obtain ⟨l2, n1, n2, n3, n4, n5, n6, n7, n8, n9, n10, n11⟩ := hpack
      by_cases hpar0 : par = 0
      · -- all containers closed: successful exit at the root level
        subst hpar0
        rw [if_neg (by simp)] at h
        simp only [Prod.mk.injEq, true_and] at h
        obtain ⟨hp', hs'⟩ := h
        subst hp'
        have hidq : ({ p2 with current_parent := 0 } :
            mxjson_parser_t).idx = p.idx := n3
        have htq : ∀ j, ({ p2 with current_parent := 0 } :
            mxjson_parser_t).tok j = p2.tok j := fun _ => rfl
        constructor
        · intro i h2i hle
          rw [hidq] at hle
          rw [htq]
          exact n8 i h2i hle
        · intro i hi1 hle hcont
          rw [hidq] at hle
          rw [htq] at hcont ⊢
          by_cases hsz : (p2.tok i).str_size = 0
          · exfalso
            have hcf := n10 i hi1 hle hcont hsz
            have := ChainFrom_anchor_zero hcf n7 rfl
            omega
          · obtain ⟨_, hw⟩ := n9 i hi1 hle hcont hsz
            exact hw
      · -- an enclosing container is still open: advance to its next member
        rw [if_pos hpar0] at h
        rcases hpn : mxjson_parse_next { p2 with current_parent := par }
            s3 par with ⟨ok2, p4, s4⟩
        rw [hpn] at h
        cases ok2 with
        | false => simp at h
        | true =>
          simp only [if_true] at h
          have hparle : par ≤ p.idx := by
            rcases n11 with ⟨f, hchf, _, _, hfn⟩ | ⟨hcn, _, _, _, _⟩
            · have := Chain_lt hchf
              omega
            · omega
          have hpar1le : 1 ≤ par := by omega
          have hidq : ({ p2 with current_parent := par } :
              mxjson_parser_t).idx = p.idx := n3
          have hbnd3 : ({ p2 with current_parent := par } :
              mxjson_parser_t).idx < l2.length := by
            rw [hidq, n2]
            exact hbnd
          have hcple3 : ({ p2 with current_parent := par } :
              mxjson_parser_t).current_parent ≤
              ({ p2 with current_parent := par } :
                mxjson_parser_t).idx := by
            rw [hidq]
            exact hparle
          have htk3 : ({ p2 with current_parent := par } :
              mxjson_parser_t).tokens = some l2 := n1
          obtain ⟨w1, ⟨l4, w2a, w2b⟩, w3, w4, w5, w6, w7x, w8x, w9, w10⟩ :=
            mxjson_parse_next_spec _ s3 par p4 s4 l2 htk3 hbnd3 hcple3 hpn
          rw [hidq] at w1 w2b w5 w6 w7x w8x w9
          have w1' : p4.idx = p.idx + 1 := w1
          have w4' : p4.current_parent = par := w4
          have w5' : (p4.tok (p.idx + 1)).parent = par := w5
          have w6' : (p4.tok (p.idx + 1)).value_type =
              mxjson_type.NONE := w6
          have w7' : (p4.tok (p.idx + 1)).str = 0 := w7x
          have w8' : (p4.tok (p.idx + 1)).str_size = 0 := w8x
          have wfr : ∀ j, j ≤ p.idx → j ≠ par → p4.tok j = p2.tok j :=
            fun j hj hjp => w9 j hj hjp
          have w10' : p4.tok par =
              { p2.tok par with str := (p2.tok par).str + 1 } := w10
          have w2b' : p.idx + 1 < l4.length := w2b
          have hfields4 : ∀ j, j ≤ p.idx →
              (p4.tok j).parent = (p2.tok j).parent ∧
              (p4.tok j).value_type = (p2.tok j).value_type ∧
              (p4.tok j).str_size = (p2.tok j).str_size := by
            intro j hj
            by_cases hjp : j = par
            · subst hjp
              rw [w10']
              exact ⟨rfl, rfl, rfl⟩
            · rw [wfr j hj hjp]
              exact ⟨rfl, rfl, rfl⟩
          have hstr4 : (p4.tok par).str = (p2.tok par).str + 1 := by
            rw [w10']
          have hparsz2 : (p2.tok par).str_size = 0 := by
            rcases n11 with ⟨f, hchf, _, _, _⟩ | ⟨hcn, _, _, hsz0, _⟩
            · exact (Chain_inv_step hchf hpar0).2.2.2.2.1
            · rw [hcn]
              exact hsz0
          have hroot2 : (p2.tok 1).parent = 0 := by
            rcases n11 with ⟨f, hchf, _, _, _⟩ | ⟨_, _, _, _, hchE⟩
            · exact Chain_root hchf
            · exact Chain_root hchE
          have hchain4 : Chain p4.tok (p.idx + 1) par := by
            rcases n11 with ⟨f, hchf, hstepf, hf1, hfn⟩ |
              ⟨hcn, hty2, hst02, hsz02, hchE⟩
            · obtain ⟨i1, i2, ip, ity, isz, ich, iwalk, iup⟩ :=
                Chain_inv_step hchf hpar0
              have hfne : f ≠ par := by omega
              refine Chain.step _ _ i1 (by omega) w5' ?_ ?_ ?_ ?_ ?_
              · rw [(hfields4 par hparle).2.1]
                exact ity
              · rw [(hfields4 par hparle).2.2]
                exact isz
              · omega
              · have hw1 : walksTo p4.tok par (par + 1)
                    ((p2.tok par).str - 1) f = true := by
                  refine walksTo_congr ?_ iwalk
                  intro j hj
                  exact hfields4 j (by omega)
                have hw2 := walksTo_snoc hw1
                  (show f < p.idx + 1 from by omega)
                  (by rw [(hfields4 f (by omega)).1]; exact ip)
                  (by rw [tok_step_congr_fields
                      (hfields4 f (by omega)).2.1
                      (hfields4 f (by omega)).2.2]
                      exact hstepf)
                have he1 : (p2.tok par).str - 1 + 1 = (p2.tok par).str :=
                  by omega
                rw [he1] at hw2
                have he2 : (p4.tok par).str - 1 = (p2.tok par).str := by
                  omega
                rw [he2]
                exact hw2
              · have hup' := Chain_congr iup
                  (fun j hj => wfr j (by omega) (by omega))
                  ((hfields4 par hparle).1)
                rw [(hfields4 par hparle).1]
                exact hup'
            · refine Chain.step _ _ (by omega) (by omega) w5' ?_ ?_ ?_
                ?_ ?_
              · rw [(hfields4 par hparle).2.1, hcn]
                exact hty2
              · rw [(hfields4 par hparle).2.2, hcn]
                exact hsz02
              · omega
              · have he2 : (p4.tok par).str - 1 = 0 := by
                  rw [hstr4, hcn, hst02]
                rw [he2, hcn, walksTo]
                simp
              · have hup' := Chain_congr hchE
                  (fun j hj => wfr j (by omega) (by omega))
                  ((hfields4 p.idx (le_refl _)).1)
                rw [hcn, (hfields4 p.idx (le_refl _)).1]
                exact hup'
          refine ih p4 s4 p' s' h
            ⟨⟨l4, w2a, by rw [w1']; exact w2b'⟩, by rw [w1']; omega,
             ?_, ?_, by rw [w1']; exact w7', by rw [w1']; exact w8',
             by rw [w1', w4']; exact hchain4, ?_, ?_, ?_⟩
          · rw [wfr 0 (by omega) (by omega)]
            exact n6
          · rw [wfr 0 (by omega) (by omega)]
            exact n7
          · -- parent bounds
            intro i h2i hle
            rw [w1'] at hle
            by_cases hie : i = p.idx + 1
            · subst hie
              rw [w5']
              exact ⟨hpar1le, by omega⟩
            · have hile : i ≤ p.idx := by omega
              rw [(hfields4 i hile).1]
              exact n8 i h2i hile
          · -- closed containers
            intro i hi1 hle hcont hsz
            rw [w1'] at hle
            by_cases hie : i = p.idx + 1
            · exfalso
              subst hie
              rw [w6'] at hcont
              rcases hcont with hx | hx <;> exact absurd hx (by decide)
            · have hile : i ≤ p.idx := by omega
              by_cases hip : i = par
              · exfalso
                subst hip
                rw [(hfields4 i hparle).2.2, hparsz2] at hsz
                exact hsz rfl
              · rw [wfr i hile hip] at hcont hsz ⊢
                obtain ⟨hb9, hw9⟩ := n9 i hi1 hile hcont hsz
                refine ⟨by rw [w1']; omega, ?_⟩
                refine walksTo_congr ?_ hw9
                intro j hj
                exact hfields4 j (by omega)
          · -- open containers on the chain
            intro i hi1 hle hcont hsz
            rw [w1'] at hle
            rw [w4']
            by_cases hie : i = p.idx + 1
            · exfalso
              subst hie
              rw [w6'] at hcont
              rcases hcont with hx | hx <;> exact absurd hx (by decide)
            · have hile : i ≤ p.idx := by omega
              by_cases hip : i = par
              · subst hip
                exact ChainFrom.here _
              · rw [wfr i hile hip] at hcont hsz
                have hcf := n10 i hi1 hile hcont hsz
                refine ChainFrom_congr_le hcf hparle ?_ ?_
                · intro j hj
                  cases j with
                  | zero =>
                    rw [n7]
                    omega
                  | succ jj =>
                    cases jj with
                    | zero =>
                      rw [hroot2]
                      omega
                    | succ k =>
                      show (p2.tok (k + 2)).parent ≤ p.idx
                      have := n8 (k + 2) (by omega) hj
                      omega
                · intro j hj
                  exact (hfields4 j hj).1

/-- C3: on a successful parse the committed tokens form a well-formed
tree: every token from index 2 up to the final high-water index has a
parent with a strictly smaller positive index, and for every OBJECT or
ARRAY token the children count and the next field are consistent: the
sibling walk that starts at the slot just after the container and follows
the next links through exactly children subtrees ends at the container's
own next. Stated under the context sanity hypotheses (the slot-0 sentinel
is an empty token with parent 0, and a preallocated store has at least two
slots), which hold for every context produced by mxjson_init. -/
theorem claim_C3 (p0 : mxjson_parser_t) (json : List Nat)
    (r : mxjson_parser_t)
    (h0v : (p0.tok 0).value_type = mxjson_type.NONE)
    (h0p : (p0.tok 0).parent = 0)
    (hsane : ∀ l, p0.tokens = some l → 2 ≤ l.length)
    (h : mxjson_parse p0 json = (true, r)) :
    (∀ i, 2 ≤ i → i ≤ r.idx →
      1 ≤ (r.tok i).parent ∧ (r.tok i).parent < i) ∧
    (∀ i, 1 ≤ i → i ≤ r.idx →
      ((r.tok i).value_type = mxjson_type.OBJECT ∨
       (r.tok i).value_type = mxjson_type.ARRAY) →
      walksTo r.tok i (i + 1) ((r.tok i).children) ((r.tok i).next) =
        true) := by
  simp only [mxjson_parse] at h
  rcases hbom : mxstr_consume_str ⟨json, 0, json.length⟩
      [239, 187, 191] with ⟨bb, unp⟩
  simp only [hbom] at h
  rcases htok : mxjson_token
      { json := json, unparsed := unp, idx := 0, tokens := p0.tokens,
        current_parent := 0, init_count := p0.init_count,
        init_tokens := p0.init_tokens, resize_fn := p0.resize_fn } with
    ⟨okt, pt⟩
  rw [htok] at h
  cases okt with
  | false => simp at h
  | true =>
    simp only [if_true] at h
    obtain ⟨e1, ⟨l1, e2a, e2b⟩, e3, e4, e5, e6, e7, e8⟩ :=
      mxjson_token_first_spec
        { json := json, unparsed := unp, idx := 0, tokens := p0.tokens,
          current_parent := 0, init_count := p0.init_count,
          init_tokens := p0.init_tokens, resize_fn := p0.resize_fn }
        rfl rfl h0v h0p (fun l hl => hsane l hl) (by rw [htok])
    have heqp : (mxjson_token
        { json := json, unparsed := unp, idx := 0, tokens := p0.tokens,
          current_parent := 0, init_count := p0.init_count,
          init_tokens := p0.init_tokens,
          resize_fn := p0.resize_fn }).2 = pt := by rw [htok]
    rw [heqp] at e1 e2a e3 e4 e5 e6 e7 e8
    rw [mxjson_parse_json] at h
    rcases hgo : mxjson_parse_json_go (pt.unparsed.len + 1) pt
        pt.unparsed with ⟨okg, pg, sg⟩
    by_cases hb : okg = true
    case neg =>
      rw [Bool.not_eq_true] at hb
      rw [hb] at hgo
      rw [hgo] at h
      simp at h
    case pos =>
      rw [hb] at hgo
      rw [hgo] at h
      have hr : ({ pg with unparsed := mxjson_consume_ws sg } :
          mxjson_parser_t) = r := congrArg Prod.snd h
      subst hr
      have e5' : pt.current_parent = 0 := e5
      have hinv : LoopInv pt := by
        refine ⟨⟨l1, e2a, by rw [e1]; exact e2b⟩, by rw [e1], e7, e8,
          ?_, ?_, ?_, ?_, ?_, ?_⟩
        · rw [e1, e6]
        · rw [e1, e6]
        · rw [e1, e5']
          exact Chain.top (by rw [e6])
        · intro i h2 hle
          rw [e1] at hle
          omega
        · intro i hi1 hle hcont hsz
          exfalso
          rw [e1] at hle
          have hi : i = 1 := by omega
          subst hi
          rw [e6] at hcont
          rcases hcont with hx | hx <;> exact absurd hx (by decide)
        · intro i hi1 hle hcont hsz
          exfalso
          rw [e1] at hle
          have hi : i = 1 := by omega
          subst hi
          rw [e6] at hcont
          rcases hcont with hx | hx <;> exact absurd hx (by decide)
      have htr := mxjson_parse_json_go_inv (pt.unparsed.len + 1) pt
        pt.unparsed pg sg hgo hinv
      exact ⟨fun i h2 hle => htr.1 i h2 hle,
        fun i hi1 hle hcont => htr.2 i hi1 hle hcont⟩

/-- C3 witness: the tree-shape theorem instantiated at the dynamic context
and the end-to-end example input, with every hypothesis discharged
concretely. -/
theorem claim_C3_witness :
    (mxjson_parse dynCtx c1_input = (true, (mxjson_parse dynCtx c1_input).2)) ∧
    ((∀ i, 2 ≤ i → i ≤ (mxjson_parse dynCtx c1_input).2.idx →
        1 ≤ ((mxjson_parse dynCtx c1_input).2.tok i).parent ∧
        ((mxjson_parse dynCtx c1_input).2.tok i).parent < i) ∧
     (∀ i, 1 ≤ i → i ≤ (mxjson_parse dynCtx c1_input).2.idx →
        (((mxjson_parse dynCtx c1_input).2.tok i).value_type =
            mxjson_type.OBJECT ∨
         ((mxjson_parse dynCtx c1_input).2.tok i).value_type =
            mxjson_type.ARRAY) →
        walksTo (mxjson_parse dynCtx c1_input).2.tok i (i + 1)
          (((mxjson_parse dynCtx c1_input).2.tok i).children)
          (((mxjson_parse dynCtx c1_input).2.tok i).next) = true)) := by
  have h : mxjson_parse dynCtx c1_input =
      (true, (mxjson_parse dynCtx c1_input).2) := by
    have h1 : (mxjson_parse dynCtx c1_input).1 = true := by decide
    rw [← h1]
  exact ⟨h, claim_C3 dynCtx c1_input (mxjson_parse dynCtx c1_input).2
    (by decide) (by decide)
    (fun l hl => by simp [dynCtx, mxjson_init] at hl) h⟩

end MxJson
